import Mathlib

/-!
# hle_audio editor: view state synchronizer and action reducer

A shallow embedding of `editor/src/app_state.cpp`.

* `size_t` values are natural numbers; the places where the source relies on
  unsigned wrap-around reduce modulo `size_max + 1`.
* `std::vector` is `List`, `std::string` and the `char` buffers of the view state are the
  list of their characters.
* An element access outside a vector (`v[i]` with `v.size() <= i`) is undefined behaviour in
  the source; every function that performs such an access returns `Option` and yields `none`
  there.
* `float` fields are only copied by the code embedded here; they are carried as their
  32-bit pattern.
-/

namespace hle_audio.editor

/-! ## Data model (`data_types.h`, `app_view.h`) -/

/-- Largest value of `size_t` (64-bit). -/
def size_max : Nat := 2 ^ 64 - 1

/-- Modelled from the spec: the constant `invalid_index` of `data_types.h` (the header is not
among the sources), the "invalid" sentinel of the index-typed fields: a `size_t` that is no
position of any vector, taken to be the largest `size_t`. The general theorems below never
unfold it: they hold for any value of the sentinel. -/
def invalid_index : Nat := size_max

/-- A `float`, as its bit pattern. -/
abbrev float32 := Nat

/-- Kinds of node (enum `NodeType`, `NodeType_None` is zero). -/
inductive NodeType where
  | None | File | Random | Sequence | Repeat
  deriving DecidableEq, Repr

/-- Modelled from the spec: the enum `ActionType` as its numeric code. -/
abbrev ActionType := Nat

/-- Modelled from the spec: the "none" sentinel of `ActionType`. -/
def ActionType_none : ActionType := 0

/-- Node descriptor: variant kind and identity id. -/
structure node_desc_t where
  type : NodeType
  id : Nat
  deriving DecidableEq, Repr

/-- The descriptor `invalid_node_desc`, passed as the parent of a group's root. -/
def invalid_node_desc : node_desc_t := ⟨NodeType.None, 0⟩

/-- An action of an event (`ActionT`). -/
structure action_t where
  type : ActionType
  target_group_index : Nat
  fade_time : float32
  deriving DecidableEq, Repr

/-- An event: a name and its ordered actions. -/
structure event_t where
  name : List Char
  actions : List action_t
  deriving DecidableEq, Repr

/-- A group: the record the view snapshots into `selected_group_state`. -/
structure named_group_t where
  name : List Char
  volume : float32
  cross_fade_time : float32
  output_bus_index : Nat
  node : node_desc_t
  deriving DecidableEq, Repr

/-- An output bus. -/
structure output_bus_t where
  name : List Char
  deriving DecidableEq, Repr

/-- A file node of the node arena. -/
structure file_node_t where
  filename : List Char
  loop : Bool
  stream : Bool
  deriving DecidableEq, Repr

/-- A repeat node of the node arena: a count and one child slot. -/
structure repeat_node_t where
  repeat_count : Nat
  node : node_desc_t
  deriving DecidableEq, Repr

/-- The document. Nodes live in per-kind arenas and are addressed by descriptor. -/
structure data_state_t where
  groups : List named_group_t
  events : List event_t
  output_buses : List output_bus_t
  nodes_file : List file_node_t
  nodes_random : List (List node_desc_t)
  nodes_sequence : List (List node_desc_t)
  nodes_repeat : List repeat_node_t
  deriving DecidableEq, Repr

/-- The closed set of actions `build_view` can return. -/
inductive view_action_type_e where
  | NONE | SAVE | UNDO | REDO
  | GROUP_ADD | GROUP_REMOVE | APPLY_SELECTED_GROUP_UPDATE
  | EVENT_ADD | EVENT_REMOVE | EVENT_UPDATE | EVENT_FILTER
  | EVENT_UPDATE_ACTION | EVENT_REMOVE_ACTION | EVENT_APPEND_ACTION
  | NODE_ADD | NODE_UPDATE
  | REFRESH_WAV_LIST
  | BUS_ADD | BUS_RENAME | BUS_VOLUME_CHANGED
  | SOUND_PLAY | SOUND_STOP | RUNTIME_FIRE_EVENT
  deriving DecidableEq, Repr

/-- The one-frame node edit intent filled in by `build_node_tree`. -/
structure node_action_data_t where
  action : view_action_type_e
  node_desc : node_desc_t
  parent_node_desc : node_desc_t
  node_index : Nat
  repeat_count : Nat
  action_add : Bool
  action_remove : Bool
  action_assign_sound : Bool
  action_switch_loop : Bool
  action_switch_stream : Bool
  deriving DecidableEq, Repr

/-- The view state. The layout-only fields (`scale`, `root_pane_width_scaled`) and the pointer
`wav_files_u8_names_ptr` are left out: `app_state.cpp` never reads them back. -/
structure view_state_t where
  has_save : Bool
  has_undo : Bool
  has_redo : Bool
  has_wav_playing : Bool
  active_group_index : Nat
  action_group_index : Nat
  selected_group_state : named_group_t
  event_filter_str : List Char
  event_filter_group_index : Nat
  groups_size_on_event_filter_group : Nat
  select_events_tab : Bool
  filtered_event_indices : List Nat
  event_list_index : Nat
  active_event_index : Nat
  event_state_name : List Char
  active_action_index : Nat
  active_action : action_t
  node_action : node_action_data_t
  add_node_target : node_desc_t
  add_node_type : NodeType
  bus_edit_state_index : Nat
  bus_edit_state_name : List Char
  output_bus_volumes : List Int
  selected_sound_file_index : Nat
  deriving DecidableEq, Repr

/-- Modelled from the spec: the command stack of `app_logic` (its declaration is not among the
sources): the linear history of the Undo/Redo Stack, kept as the documents to return to on undo
and on redo. -/
structure command_stack_t where
  undo_stack : List data_state_t
  redo_stack : List data_state_t
  deriving DecidableEq, Repr

/-- The state of `app_logic`: the document and its command stack. -/
structure logic_state_t where
  data_state : data_state_t
  cmds : command_stack_t
  deriving DecidableEq, Repr

/-- The calls `app_state.cpp` makes into `app_logic` that may change the logic state, with their
arguments. -/
inductive logic_call where
  | save_store_json (path : List Char)
  | apply_undo_chain
  | apply_redo_chain
  | create_group (group_index : Nat)
  | remove_group (group_index : Nat)
  | apply_group_update (group_index : Nat) (group : named_group_t)
  | create_event (event_index : Nat)
  | remove_event (event_index : Nat)
  | update_event (event_index : Nat) (name : List Char)
  | update_event_action (event_index action_index : Nat) (action : action_t)
  | remove_event_action (event_index action_index : Nat)
  | add_event_action (event_index target_group_index : Nat)
  | create_root_node (group_index : Nat) (type : NodeType)
  | create_repeat_node (node_desc : node_desc_t) (type : NodeType)
  | create_node (node_desc : node_desc_t) (type : NodeType)
  | update_repeat_node_times (node_desc : node_desc_t) (times : Nat)
  | rename_bus (bus_index : Nat) (name : List Char)
  | remove_root_node (group_index : Nat)
  | remove_node (parent_node_desc : node_desc_t) (node_index : Nat)
  | assign_file_node_file (node_desc : node_desc_t) (filename : List Char)
  | switch_file_node_loop (node_desc : node_desc_t)
  | switch_file_node_stream (node_desc : node_desc_t)
  deriving DecidableEq, Repr

/-- The implementation of `app_logic` (not among the sources), taken as a parameter. `run`
performs a call on the logic state and gives the new state with the call's return value (a
`bool` as 0 or 1, a `size_t` as itself, 0 for `void`); `none` when the call faults. -/
structure app_logic where
  run : logic_call → logic_state_t → Option (logic_state_t × Nat)
  get_undo_size : command_stack_t → Nat
  has_undo : command_stack_t → Bool
  has_redo : command_stack_t → Bool
  save_store_fb_buffer : data_state_t → List Nat
  load_store_json : data_state_t → List Char → data_state_t

/-- The requests `app_state.cpp` sends to the audio runtime (`hlea_*`). Bank handles are
numbers, a null bank is `none`; a bus volume is the `float` the source computes, given as the
rational number that `float` denotes. -/
inductive hlea_call where
  | create (output_bus_count : Nat)
  | destroy
  | set_wav_path (path : List Char)
  | process_active_groups
  | load_events_bank_from_buffer (buffer : List Nat)
  | unload_events_bank (bank : Nat)
  | fire_event (bank : Option Nat) (event_name : List Char) (flags : Nat)
  | play_file (path : List Char)
  | stop_file
  | set_bus_volume (bus_index : Nat) (volume : ℚ)
  deriving DecidableEq, Repr

/-- An entry of the wav directory. -/
structure dir_entry_t where
  path : List Char
  extension : List Char
  filename : List Char
  deriving DecidableEq, Repr

/-- The application state. `runtime_ctx` is the sequence of requests the runtime has received;
`logic_calls` records the calls made into `app_logic` (it is not a field of the source). -/
structure app_state_t where
  view_state : view_state_t
  data_file_path : List Char
  wav_path : List Char
  wav_files : List (List Char)
  wav_files_u8_names : List (List Char)
  runtime_ctx : List hlea_call
  bank : Option Nat
  bank_cmd_index : Nat
  bl_state : logic_state_t
  save_cmd_index : Nat
  logic_calls : List logic_call
  deriving DecidableEq, Repr

/-- The collaborators of `app_state.cpp` that are outside the sources: the logic layer, the
answers of the audio runtime, the directory listing and the widget pass `build_view` (whose
result depends on the user's input). -/
structure externals where
  logic : app_logic
  is_file_playing : List hlea_call → Bool
  load_events_bank_from_buffer : List hlea_call → List Nat → Option Nat
  directory_iterator : List Char → List dir_entry_t
  build_view : view_state_t → data_state_t → Option (view_action_type_e × view_state_t)

/-! ## Helpers the synchronizer calls -/

/-- Modelled from the spec: `get_group` of `app_logic` (not among the sources) returns the
document's group at the index; the access is out of range when the index is not below the
number of groups. -/
def get_group (data_state : data_state_t) (group_index : Nat) : Option named_group_t :=
  data_state.groups[group_index]?

/-- Modelled from the spec: `is_event_target_group` of `app_logic` (not among the sources): the
event has at least one Action whose `target_group_index` equals the group index. An action aimed
at all groups carries no group's index there and so matches no specific group. -/
def is_event_target_group (event : event_t) (group_index : Nat) : Bool :=
  event.actions.any (fun a => a.target_group_index == group_index)

/-- `std::string::find(const char*)` from position 0, counted from `pos`: the lowest position at
which the needle occurs, `none` for `npos`. -/
def string_find_from (needle : List Char) : List Char → Nat → Option Nat
  | [], pos => if needle = [] then some pos else none
  | c :: rest, pos =>
    if needle.isPrefixOf (c :: rest) then some pos else string_find_from needle rest (pos + 1)

/-- `s.find(needle)`. -/
def string_find (s needle : List Char) : Option Nat := string_find_from needle s 0

/-- `std::string::c_str()` read as a C string: the characters before the first NUL. -/
def c_str (s : List Char) : List Char := s.takeWhile (fun c => c ≠ Char.ofNat 0)

/-- Modelled from the spec: `sizeof(view_state.event_state.name)`, the size of the `char`
buffer declared in `app_view.h` (not among the sources), taken to be 256. The general theorems
below never unfold it: they hold for any size. -/
def event_state_name_size : Nat := 256

/-- `snprintf(buf, size, "%s", s.c_str())`: the C string, cut to `size - 1` characters. -/
def snprintf_s (size : Nat) (s : List Char) : List Char := (c_str s).take (size - 1)

/-! ## The synchronizer (`app_state.cpp`, lines 34-128) -/

/-- `update_active_group`. -/
def update_active_group (state : app_state_t) (selected_group : Nat) : Option app_state_t :=
  let state :=
    { state with view_state := { state.view_state with active_group_index := selected_group } }
  if selected_group = invalid_index then some state
  else do
    let group ← get_group state.bl_state.data_state selected_group
    some { state with view_state := { state.view_state with selected_group_state := group } }

/-- `update_selected_event_action`. -/
def update_selected_event_action (state : app_state_t) (action_index : Nat) :
    Option app_state_t :=
  if state.view_state.active_event_index = invalid_index then some state
  else do
    let event ← state.bl_state.data_state.events[state.view_state.active_event_index]?
    if event.actions.length ≠ 0 then
      let action_index :=
        if event.actions.length ≤ action_index then event.actions.length - 1 else action_index
      let action ← event.actions[action_index]?
      some { state with
        view_state :=
          { state.view_state with active_action_index := action_index, active_action := action } }
    else some state

/-- `update_active_event`. -/
def update_active_event (state : app_state_t) (active_index : Nat) : Option app_state_t :=
  let state :=
    { state with view_state := { state.view_state with active_event_index := active_index } }
  if active_index = invalid_index then some state
  else do
    let event ← state.bl_state.data_state.events[active_index]?
    let state :=
      { state with
        view_state :=
          { state.view_state with
            event_state_name := snprintf_s event_state_name_size event.name } }
    update_selected_event_action state 0

/-- The loop of `filter_events` from `event_index` on, over the events not yet visited. -/
def filter_events_loop (view_state : view_state_t) : List event_t → Nat → view_state_t
  | [], _ => view_state
  | event :: rest, event_index =>
    -- skip if name doesn't match
    if string_find event.name view_state.event_filter_str = none then
      filter_events_loop view_state rest (event_index + 1)
    -- filter group
    else if view_state.event_filter_group_index ≠ invalid_index ∧
        ¬ is_event_target_group event view_state.event_filter_group_index = true then
      filter_events_loop view_state rest (event_index + 1)
    else
      let view_state :=
        { view_state with
          filtered_event_indices := view_state.filtered_event_indices ++ [event_index] }
      let view_state :=
        if view_state.active_event_index = event_index then
          { view_state with event_list_index := view_state.filtered_event_indices.length - 1 }
        else view_state
      filter_events_loop view_state rest (event_index + 1)

/-- `filter_events`. -/
def filter_events (state : app_state_t) : app_state_t :=
  let view_state :=
    { state.view_state with filtered_event_indices := [], event_list_index := invalid_index }
  { state with view_state := filter_events_loop view_state state.bl_state.data_state.events 0 }

/-- `update_mutable_view_state`. -/
def update_mutable_view_state (state : app_state_t) : Option app_state_t := do
  let groups_size := state.bl_state.data_state.groups.length
  -- reset event group filter if groups list changed
  let state :=
    if state.view_state.groups_size_on_event_filter_group ≠ groups_size then
      { state with
        view_state := { state.view_state with event_filter_group_index := invalid_index } }
    else state
  let selected_group := state.view_state.active_group_index
  let selected_group :=
    if groups_size = 0 then invalid_index
    else if selected_group ≠ invalid_index ∧ groups_size ≤ selected_group then groups_size - 1
    else selected_group
  let state ← update_active_group state selected_group
  let active_action_index := state.view_state.active_action_index
  let selected_event_index := state.view_state.active_event_index
  let selected_event_index :=
    if state.bl_state.data_state.events.length = 0 then invalid_index else selected_event_index
  let state ← update_active_event state selected_event_index
  let state ← update_selected_event_action state active_action_index
  some (filter_events state)

/-! ## The reducer (`app_state.cpp`, lines 130-458) -/

/-- A call into `app_logic`: the logic state is replaced by the call's result and the call is
recorded. -/
def invoke (L : app_logic) (call : logic_call) (state : app_state_t) :
    Option (app_state_t × Nat) := do
  let (bl_state, result) ← L.run call state.bl_state
  some ({ state with bl_state := bl_state, logic_calls := state.logic_calls ++ [call] }, result)

/-- A request to the audio runtime. -/
def hlea (state : app_state_t) (call : hlea_call) : app_state_t :=
  { state with runtime_ctx := state.runtime_ctx ++ [call] }

/-- `perform_undo`. -/
def perform_undo (E : externals) (state : app_state_t) : Option app_state_t := do
  let (state, applied) ← invoke E.logic logic_call.apply_undo_chain state
  if applied ≠ 0 then update_mutable_view_state state else some state

/-- `perform_redo`. -/
def perform_redo (E : externals) (state : app_state_t) : Option app_state_t := do
  let (state, applied) ← invoke E.logic logic_call.apply_redo_chain state
  if applied ≠ 0 then update_mutable_view_state state else some state

/-- `refresh_wav_list`. -/
def refresh_wav_list (E : externals) (state : app_state_t) : app_state_t :=
  let entries :=
    (E.directory_iterator state.wav_path).filter (fun entry => entry.extension = ".wav".toList)
  { state with
    wav_files := entries.map (fun entry => entry.path)
    wav_files_u8_names := entries.map (fun entry => entry.filename) }

/-- `create_context`. -/
def create_context (state : app_state_t) : app_state_t :=
  hlea state (hlea_call.create state.bl_state.data_state.output_buses.length)

/-- `unload_and_destroy_context`. -/
def unload_and_destroy_context (state : app_state_t) : app_state_t :=
  let state :=
    match state.bank with
    | some bank => { hlea state (hlea_call.unload_events_bank bank) with bank := none }
    | none => state
  let state := hlea state hlea_call.stop_file
  hlea state hlea_call.destroy

/-- `recreate_context`. -/
def recreate_context (state : app_state_t) : app_state_t :=
  create_context (unload_and_destroy_context state)

/-- `add_output_bus`. -/
def add_output_bus (state : app_state_t) : app_state_t :=
  let bus : output_bus_t := { name := "<bus name>".toList }
  let data_state :=
    { state.bl_state.data_state with
      output_buses := state.bl_state.data_state.output_buses ++ [bus] }
  let state := { state with bl_state := { state.bl_state with data_state := data_state } }
  -- todo: add cmd
  let state :=
    { state with
      view_state :=
        { state.view_state with
          output_bus_volumes := state.view_state.output_bus_volumes ++ [100] } }
  recreate_context state

/-- `init_with_data`. -/
def init_with_data (E : externals) (state : app_state_t) (filepath wav_folder : List Char) :
    Option app_state_t :=
  let state := { state with data_file_path := filepath, wav_path := wav_folder }
  let state := refresh_wav_list E state
  let data_state := E.logic.load_store_json state.bl_state.data_state state.data_file_path
  let state := { state with bl_state := { state.bl_state with data_state := data_state } }
  -- update view output buses volumes
  let state :=
    { state with
      view_state :=
        { state.view_state with
          output_bus_volumes :=
            List.replicate state.bl_state.data_state.output_buses.length 100 } }
  let state := create_context state
  let state := hlea state (hlea_call.set_wav_path (c_str state.wav_path))
  update_mutable_view_state state

/-- `fire_event`. -/
def fire_event (E : externals) (state : app_state_t) : Option app_state_t := do
  let state :=
    match state.bank with
    | some bank =>
      if state.bank_cmd_index ≠ E.logic.get_undo_size state.bl_state.cmds then
        { hlea state (hlea_call.unload_events_bank bank) with bank := none }
      else state
    | none => state
  let state :=
    if state.bank = none then
      let fb_buffer := E.logic.save_store_fb_buffer state.bl_state.data_state
      let bank := E.load_events_bank_from_buffer state.runtime_ctx fb_buffer
      { hlea state (hlea_call.load_events_bank_from_buffer fb_buffer) with
        bank := bank
        bank_cmd_index := E.logic.get_undo_size state.bl_state.cmds }
    else state
  let event ← state.bl_state.data_state.events[state.view_state.active_event_index]?
  some (hlea state (hlea_call.fire_event state.bank (c_str event.name) 0))

/-! ### Arithmetic in `float`

The source computes the bus volume in `float`: IEEE 754 binary32, every operation rounded to
the nearest `float`, ties to the one with an even last digit (the evaluation of `float`
expressions in `float`, `FLT_EVAL_METHOD` 0). A finite `float` is carried as a fraction of
integers `(num, den)` with `den` a power of two; the operands of the source (an `int` and 100)
are far from the overflow threshold, so infinities do not arise. -/

/-- The position of the leading binary digit of `n`, for `n` below `2 ^ fuel`. -/
def leading_bit : Nat → Nat → Nat
  | 0, _ => 0
  | fuel + 1, n => if n < 2 then 0 else leading_bit fuel (n / 2) + 1

/-- The quotient `n / d` of naturals rounded to the nearest natural, ties to the even one. -/
def round_half_even (n d : Nat) : Nat :=
  let f := n / d
  let r := n % d
  if 2 * r < d then f else if d < 2 * r then f + 1 else if f % 2 = 0 then f else f + 1

/-- The binary exponent of the positive fraction `a / b`: the `e` with
`2 ^ e ≤ a / b < 2 ^ (e + 1)`. -/
def float_exponent (a b : Nat) : Int :=
  let e0 : Int := (leading_bit a a : Int) - (leading_bit b b : Int)
  if 0 ≤ e0 then (if 2 ^ e0.toNat * b ≤ a then e0 else e0 - 1)
  else (if b ≤ a * 2 ^ (-e0).toNat then e0 else e0 - 1)

/-- The `float` nearest to the fraction `a / b` (`b` positive), ties to even: 24 significant
binary digits, the last one worth `2 ^ (e - 23)` for the exponent `e` of the fraction, and
`2 ^ (-149)` in the subnormal range. -/
def float_round (a : Int) (b : Nat) : Int × Nat :=
  if a = 0 then (0, 1)
  else
    let p := max (float_exponent a.natAbs b) (-126) - 23
    let n : Nat :=
      if 0 ≤ p then round_half_even a.natAbs (b * 2 ^ p.toNat)
      else round_half_even (a.natAbs * 2 ^ (-p).toNat) b
    if 0 ≤ p then (a.sign * n * 2 ^ p.toNat, 1) else (a.sign * n, 2 ^ (-p).toNat)

/-- The conversion `(float)v` of an `int`. -/
def int_to_float (v : Int) : Int × Nat := float_round v 1

/-- The division `x / y` of two `float`s, `y` not zero. -/
def float_div (x y : Int × Nat) : Int × Nat :=
  float_round (x.1 * y.2 * y.1.sign) (x.2 * y.1.natAbs)

/-- The rational number a `float` denotes. -/
def float_value (x : Int × Nat) : ℚ := (x.1 : ℚ) / (x.2 : ℚ)

/-- The expression `(float)volume_percents / 100` (line 403): the `int` is converted to
`float`, 100 is converted to `float`, and the quotient is taken in `float`. -/
def bus_volume_value (volume_percents : Int) : ℚ :=
  float_value (float_div (int_to_float volume_percents) (int_to_float 100))

/-- The loop of `BUS_VOLUME_CHANGED`, with its `uint8_t` counter. -/
def bus_volume_loop : List Int → Nat → app_state_t → app_state_t
  | [], _, state => state
  | volume_percents :: rest, index, state =>
    bus_volume_loop rest ((index + 1) % 256)
      (hlea state (hlea_call.set_bus_volume index (bus_volume_value volume_percents)))

/-- The `switch (action)` of `process_frame`. -/
def dispatch (E : externals) (action : view_action_type_e) (state : app_state_t) :
    Option app_state_t :=
  let view_state := state.view_state
  match action with
  | view_action_type_e.SAVE => do
    let (state, _) ← invoke E.logic (logic_call.save_store_json (c_str state.data_file_path)) state
    some { state with save_cmd_index := E.logic.get_undo_size state.bl_state.cmds }
  | view_action_type_e.UNDO => perform_undo E state
  | view_action_type_e.REDO => perform_redo E state
  | view_action_type_e.GROUP_ADD => do
    let new_group_index := (view_state.action_group_index + 1) % (size_max + 1)
    let (state, _) ← invoke E.logic (logic_call.create_group new_group_index) state
    let state ← update_active_group state new_group_index
    update_mutable_view_state state
  | view_action_type_e.GROUP_REMOVE => do
    let (state, _) ← invoke E.logic (logic_call.remove_group view_state.action_group_index) state
    update_mutable_view_state state
  | view_action_type_e.APPLY_SELECTED_GROUP_UPDATE => do
    let (state, _) ←
      invoke E.logic
        (logic_call.apply_group_update view_state.active_group_index
          view_state.selected_group_state) state
    update_mutable_view_state state
  | view_action_type_e.EVENT_ADD => do
    let new_index := (view_state.active_event_index + 1) % (size_max + 1)
    let (state, _) ← invoke E.logic (logic_call.create_event new_index) state
    let state ← update_active_event state new_index
    update_mutable_view_state state
  | view_action_type_e.EVENT_REMOVE => do
    let (state, _) ← invoke E.logic (logic_call.remove_event view_state.active_event_index) state
    update_mutable_view_state state
  | view_action_type_e.EVENT_UPDATE => do
    let (state, _) ←
      invoke E.logic
        (logic_call.update_event view_state.active_event_index (c_str view_state.event_state_name))
        state
    update_mutable_view_state state
  | view_action_type_e.EVENT_FILTER => some (filter_events state)
  | view_action_type_e.EVENT_UPDATE_ACTION => do
    let (state, _) ←
      invoke E.logic
        (logic_call.update_event_action view_state.active_event_index
          view_state.active_action_index view_state.active_action) state
    some state
  | view_action_type_e.EVENT_REMOVE_ACTION => do
    let (state, _) ←
      invoke E.logic
        (logic_call.remove_event_action view_state.active_event_index
          view_state.active_action_index) state
    update_selected_event_action state state.view_state.active_action_index
  | view_action_type_e.EVENT_APPEND_ACTION => do
    let (state, new_action_index) ←
      invoke E.logic
        (logic_call.add_event_action view_state.active_event_index
          view_state.active_group_index) state
    update_selected_event_action state new_action_index
  | view_action_type_e.NODE_ADD =>
    if view_state.add_node_type ≠ NodeType.None then
      if view_state.add_node_target.type = NodeType.None then do
        let (state, _) ←
          invoke E.logic
            (logic_call.create_root_node view_state.active_group_index view_state.add_node_type)
            state
        some state
      else if view_state.add_node_target.type = NodeType.Repeat then do
        let (state, _) ←
          invoke E.logic
            (logic_call.create_repeat_node view_state.add_node_target view_state.add_node_type)
            state
        some state
      else do
        -- this is add child node
        let (state, _) ←
          invoke E.logic
            (logic_call.create_node view_state.add_node_target view_state.add_node_type) state
        some state
    else some state
  | view_action_type_e.NODE_UPDATE =>
    let node_action := view_state.node_action
    match node_action.node_desc.type with
    | NodeType.Repeat => do
      let (state, _) ←
        invoke E.logic
          (logic_call.update_repeat_node_times node_action.node_desc node_action.repeat_count)
          state
      some state
    | _ => some state
  | view_action_type_e.REFRESH_WAV_LIST => some (refresh_wav_list E state)
  | view_action_type_e.BUS_ADD => some (add_output_bus state)
  | view_action_type_e.BUS_RENAME => do
    let (state, _) ←
      invoke E.logic
        (logic_call.rename_bus view_state.bus_edit_state_index
          (c_str view_state.bus_edit_state_name)) state
    some state
  | view_action_type_e.BUS_VOLUME_CHANGED =>
    some (bus_volume_loop state.view_state.output_bus_volumes 0 state)
  | view_action_type_e.SOUND_PLAY => do
    let file_index := view_state.selected_sound_file_index
    let full_path_str ← state.wav_files[file_index]?
    some (hlea state (hlea_call.play_file (c_str full_path_str)))
  | view_action_type_e.SOUND_STOP => some (hlea state hlea_call.stop_file)
  | view_action_type_e.RUNTIME_FIRE_EVENT => fire_event E state
  | view_action_type_e.NONE => some state

/-- The removal request of `node_action` (lines 431-440). -/
def node_action_remove (E : externals) (state : app_state_t) : Option app_state_t :=
  let node_action := state.view_state.node_action
  if node_action.action_remove = true then
    if node_action.parent_node_desc.type = NodeType.None then do
      -- root node case, detach from group
      let (state, _) ←
        invoke E.logic (logic_call.remove_root_node state.view_state.active_group_index) state
      some state
    else do
      let (state, _) ←
        invoke E.logic
          (logic_call.remove_node node_action.parent_node_desc node_action.node_index) state
      some state
  else some state

/-- The assign-sound request of `node_action` (lines 441-447). -/
def node_action_assign_sound (E : externals) (state : app_state_t) : Option app_state_t :=
  let node_action := state.view_state.node_action
  if node_action.action_assign_sound = true ∧ node_action.node_desc.type = NodeType.File then do
    let file_list_index := state.view_state.selected_sound_file_index
    let filename ← state.wav_files_u8_names[file_list_index]?
    let (state, _) ←
      invoke E.logic (logic_call.assign_file_node_file node_action.node_desc filename) state
    some state
  else some state

/-- The switch-loop request of `node_action` (lines 448-452). -/
def node_action_switch_loop (E : externals) (state : app_state_t) : Option app_state_t :=
  let node_action := state.view_state.node_action
  if node_action.action_switch_loop = true ∧ node_action.node_desc.type = NodeType.File then do
    let (state, _) ←
      invoke E.logic (logic_call.switch_file_node_loop node_action.node_desc) state
    some state
  else some state

/-- The switch-stream request of `node_action` (lines 453-457). -/
def node_action_switch_stream (E : externals) (state : app_state_t) : Option app_state_t :=
  let node_action := state.view_state.node_action
  if node_action.action_switch_stream = true ∧ node_action.node_desc.type = NodeType.File then do
    let (state, _) ←
      invoke E.logic (logic_call.switch_file_node_stream node_action.node_desc) state
    some state
  else some state

/-- The handling of `view_state.node_action` that ends `process_frame` (lines 430-457). -/
def process_node_action (E : externals) (state : app_state_t) : Option app_state_t := do
  let state ← node_action_remove E state
  let state ← node_action_assign_sound E state
  let state ← node_action_switch_loop E state
  node_action_switch_stream E state

/-- The group selection made in the widget pass is taken over (lines 272-273). -/
def select_group (prev_group_index : Nat) (state : app_state_t) : Option app_state_t :=
  if prev_group_index ≠ state.view_state.active_group_index then
    update_active_group state state.view_state.active_group_index
  else some state

/-- The event selection made in the widget pass is taken over (lines 275-278). -/
def select_event (prev_event_index : Nat) (state : app_state_t) : Option app_state_t :=
  if prev_event_index ≠ state.view_state.event_list_index then do
    let selected_event_index ←
      state.view_state.filtered_event_indices[state.view_state.event_list_index]?
    update_active_event state selected_event_index
  else some state

/-- The action selection made in the widget pass is taken over (lines 280-281). -/
def select_action (prev_action_index : Nat) (state : app_state_t) : Option app_state_t :=
  if prev_action_index ≠ state.view_state.active_action_index then
    update_selected_event_action state state.view_state.active_action_index
  else some state

/-- The part of `process_frame` after `build_view` has returned `action` (lines 269-458):
`prev_*` are the selections read before the widget pass. -/
def process_view_result (E : externals) (prev_group_index prev_event_index prev_action_index : Nat)
    (action : view_action_type_e) (state : app_state_t) : Option app_state_t := do
  -- modify view state
  let state ← select_group prev_group_index state
  let state ← select_event prev_event_index state
  let state ← select_action prev_action_index state
  -- modify data state
  let state ← dispatch E action state
  process_node_action E state

/-- The flags `process_frame` writes into the view state before the widget pass
(lines 261-264). -/
def view_flags (E : externals) (state : app_state_t) : view_state_t :=
  { state.view_state with
    has_save := decide (state.save_cmd_index ≠ E.logic.get_undo_size state.bl_state.cmds)
    has_undo := E.logic.has_undo state.bl_state.cmds
    has_redo := E.logic.has_redo state.bl_state.cmds
    has_wav_playing := E.is_file_playing state.runtime_ctx }

/-- `process_frame`. -/
def process_frame (E : externals) (state : app_state_t) : Option app_state_t := do
  -- update runtime
  let state := hlea state hlea_call.process_active_groups
  -- process view
  let prev_group_index := state.view_state.active_group_index
  let prev_event_index := state.view_state.event_list_index
  let prev_action_index := state.view_state.active_action_index
  -- build up view
  let (action, view_state) ← E.build_view (view_flags E state) state.bl_state.data_state
  let state := { state with view_state := view_state }
  process_view_result E prev_group_index prev_event_index prev_action_index action state

/-! ## The properties, as the specification words them -/

/-- The Event Filter predicate of the specification: the name contains the filter text as a
literal substring, and the group filter is invalid or the event targets the filter group. -/
def event_filter_predicate (filter_str : List Char) (filter_group_index : Nat)
    (event : event_t) : Prop :=
  filter_str <:+: event.name ∧
    (filter_group_index = invalid_index ∨
      is_event_target_group event filter_group_index = true)

instance event_filter_predicate_decidable (filter_str : List Char) (filter_group_index : Nat)
    (event : event_t) : Decidable (event_filter_predicate filter_str filter_group_index event) := by
  unfold event_filter_predicate
  infer_instance

/-- Whether the event at index `i` of the document exists and satisfies the predicate. -/
def event_index_passes (data_state : data_state_t) (filter_str : List Char)
    (filter_group_index : Nat) (i : Nat) : Bool :=
  match data_state.events[i]? with
  | some event => decide (event_filter_predicate filter_str filter_group_index event)
  | none => false

/-- The specification's `[i for i in 0..events.length if predicate(events[i])]`. -/
def filtered_indices_spec (data_state : data_state_t) (filter_str : List Char)
    (filter_group_index : Nat) : List Nat :=
  (List.range data_state.events.length).filter
    (event_index_passes data_state filter_str filter_group_index)

/-- What one pass of `update_mutable_view_state` from `s` to `s'` establishes, field by field
(used to organise the proofs). -/
structure sync_post (s s' : app_state_t) : Prop where
  frame : s' = { s with view_state := s'.view_state }
  groups_size :
    s'.view_state.groups_size_on_event_filter_group =
      s.view_state.groups_size_on_event_filter_group
  filter_str : s'.view_state.event_filter_str = s.view_state.event_filter_str
  filter_group :
    s'.view_state.event_filter_group_index =
      if s.view_state.groups_size_on_event_filter_group ≠ s.bl_state.data_state.groups.length then
        invalid_index
      else s.view_state.event_filter_group_index
  group_index :
    s'.view_state.active_group_index =
      if s.bl_state.data_state.groups.length = 0 then invalid_index
      else if s.view_state.active_group_index ≠ invalid_index ∧
          s.bl_state.data_state.groups.length ≤ s.view_state.active_group_index then
        s.bl_state.data_state.groups.length - 1
      else s.view_state.active_group_index
  group_valid :
    s'.view_state.active_group_index ≠ invalid_index →
      s.bl_state.data_state.groups[s'.view_state.active_group_index]? =
        some s'.view_state.selected_group_state
  group_invalid :
    s'.view_state.active_group_index = invalid_index →
      s'.view_state.selected_group_state = s.view_state.selected_group_state
  event_index :
    s'.view_state.active_event_index =
      if s.bl_state.data_state.events.length = 0 then invalid_index
      else s.view_state.active_event_index
  event_invalid :
    s'.view_state.active_event_index = invalid_index →
      s'.view_state.event_state_name = s.view_state.event_state_name ∧
      s'.view_state.active_action_index = s.view_state.active_action_index ∧
      s'.view_state.active_action = s.view_state.active_action
  event_valid :
    s'.view_state.active_event_index ≠ invalid_index →
      ∃ event, s.bl_state.data_state.events[s'.view_state.active_event_index]? = some event ∧
        s'.view_state.event_state_name = snprintf_s event_state_name_size event.name ∧
        (event.actions = [] →
          s'.view_state.active_action_index = s.view_state.active_action_index ∧
          s'.view_state.active_action = s.view_state.active_action) ∧
        (event.actions ≠ [] →
          s'.view_state.active_action_index =
            (if event.actions.length ≤ s.view_state.active_action_index then
              event.actions.length - 1
            else s.view_state.active_action_index) ∧
          event.actions[s'.view_state.active_action_index]? =
            some s'.view_state.active_action)
  filtered : filter_events s' = s'

/-! ## Sample states, for evaluating the definitions -/

/-- A node action with nothing requested. -/
def no_node_action : node_action_data_t :=
  { action := view_action_type_e.NONE, node_desc := invalid_node_desc,
    parent_node_desc := invalid_node_desc, node_index := 0, repeat_count := 0,
    action_add := false, action_remove := false, action_assign_sound := false,
    action_switch_loop := false, action_switch_stream := false }

/-- A document with two groups and three events. -/
def sample_data : data_state_t :=
  { groups :=
      [{ name := "music".toList, volume := 0, cross_fade_time := 0, output_bus_index := 0,
         node := ⟨NodeType.None, 0⟩ },
       { name := "sfx".toList, volume := 0, cross_fade_time := 0, output_bus_index := 0,
         node := ⟨NodeType.File, 0⟩ }]
    events :=
      [{ name := "boom".toList, actions := [⟨1, 0, 0⟩] },
       { name := "bang".toList, actions := [⟨1, 1, 0⟩, ⟨2, 0, 0⟩] },
       { name := "zap".toList, actions := [] }]
    output_buses := [{ name := "master".toList }]
    nodes_file := [{ filename := "a.wav".toList, loop := false, stream := false }]
    nodes_random := []
    nodes_sequence := []
    nodes_repeat := [] }

/-- A view state whose selections are stale for `sample_data`: the group index is past the
end, the action index is too large, and the selected group snapshot holds an uncommitted
edit. -/
def sample_view : view_state_t :=
  { has_save := false, has_undo := false, has_redo := false, has_wav_playing := false
    active_group_index := 5, action_group_index := 5
    selected_group_state :=
      { name := "draft".toList, volume := 0, cross_fade_time := 0, output_bus_index := 0,
        node := ⟨NodeType.None, 0⟩ }
    event_filter_str := "b".toList
    event_filter_group_index := 0
    groups_size_on_event_filter_group := 2
    select_events_tab := false
    filtered_event_indices := [2, 2]
    event_list_index := 0
    active_event_index := 1
    event_state_name := []
    active_action_index := 7
    active_action := ⟨0, 0, 0⟩
    node_action := no_node_action
    add_node_target := invalid_node_desc
    add_node_type := NodeType.None
    bus_edit_state_index := 0
    bus_edit_state_name := []
    output_bus_volumes := [100]
    selected_sound_file_index := invalid_index }

/-- An application state over `sample_data` and `sample_view`. -/
def sample_state : app_state_t :=
  { view_state := sample_view
    data_file_path := "data.json".toList
    wav_path := "wav".toList
    wav_files := ["wav/a.wav".toList]
    wav_files_u8_names := ["a.wav".toList]
    runtime_ctx := []
    bank := none
    bank_cmd_index := 0
    bl_state := { data_state := sample_data, cmds := { undo_stack := [], redo_stack := [] } }
    save_cmd_index := 0
    logic_calls := [] }

/-- The state `sample_state` after one pass of the synchronizer. -/
def sample_state_synced : app_state_t :=
  { sample_state with
    view_state :=
      { sample_view with
        active_group_index := 1
        selected_group_state :=
          { name := "sfx".toList, volume := 0, cross_fade_time := 0, output_bus_index := 0,
            node := ⟨NodeType.File, 0⟩ }
        event_state_name := "bang".toList
        active_action_index := 1
        active_action := ⟨2, 0, 0⟩
        filtered_event_indices := [0, 1]
        event_list_index := 1 } }

/-! ## A model of `app_logic`, for evaluating the reducer

`app_logic.cpp` is not among the sources. The reducer is embedded over an arbitrary `app_logic`;
the model below follows the specification and serves to run the reducer on sample states. -/

/-- Modelled from the spec: `apply(command)` of the Undo/Redo Stack (`app_logic`/`cmd_stack`, not
among the sources): the mutation is executed, recorded on the history, and the undone tail is
discarded. -/
def apply_command (bl_state : logic_state_t) (data_state : data_state_t) : logic_state_t :=
  { data_state := data_state
    cmds := { undo_stack := bl_state.data_state :: bl_state.cmds.undo_stack, redo_stack := [] } }

/-- Replace the element at `i` by its image under `f`; `none` when `i` is out of range. -/
def update_at {α : Type} (l : List α) (i : Nat) (f : α → α) : Option (List α) :=
  match l[i]? with
  | some a => some (l.set i (f a))
  | none => none

/-- Modelled from the spec: a newly created node of the given kind is stored in the arena of
its kind and addressed by the descriptor returned (`app_logic`, not among the sources). -/
def alloc_node (data_state : data_state_t) (type : NodeType) : data_state_t × node_desc_t :=
  match type with
  | NodeType.None => (data_state, invalid_node_desc)
  | NodeType.File =>
    ({ data_state with
        nodes_file := data_state.nodes_file ++ [{ filename := [], loop := false, stream := false }] },
      ⟨NodeType.File, data_state.nodes_file.length⟩)
  | NodeType.Random =>
    ({ data_state with nodes_random := data_state.nodes_random ++ [[]] },
      ⟨NodeType.Random, data_state.nodes_random.length⟩)
  | NodeType.Sequence =>
    ({ data_state with nodes_sequence := data_state.nodes_sequence ++ [[]] },
      ⟨NodeType.Sequence, data_state.nodes_sequence.length⟩)
  | NodeType.Repeat =>
    ({ data_state with
        nodes_repeat := data_state.nodes_repeat ++ [{ repeat_count := 0, node := invalid_node_desc }] },
      ⟨NodeType.Repeat, data_state.nodes_repeat.length⟩)

/-- Modelled from the spec: the document after a document operation of `app_logic` (not among
the sources), `none` when the operation is the no-op the specification prescribes for a
malformed or stale index or a mismatched node kind. The second component is the value the call
returns. Group, event and action edits act at the given position; node insertion replaces a
group's root, replaces the single child slot of a Repeat node (a Repeat node never has more than
one child: the attempt to add a second child is rejected), or appends to the child list of a
Sequence or Random node; node removal resets a group's root to None or removes the child at the
given index. -/
def model_operation (data_state : data_state_t) : logic_call → Option (data_state_t × Nat)
  | logic_call.create_group i =>
    if i ≤ data_state.groups.length then
      some ({ data_state with
                groups :=
                  data_state.groups.take i ++
                    [{ name := [], volume := 0, cross_fade_time := 0, output_bus_index := 0,
                       node := invalid_node_desc }] ++ data_state.groups.drop i }, 0)
    else none
  | logic_call.remove_group i =>
    if i < data_state.groups.length then
      some ({ data_state with groups := data_state.groups.eraseIdx i }, 0)
    else none
  | logic_call.apply_group_update i group =>
    (update_at data_state.groups i (fun _ => group)).map
      (fun groups => ({ data_state with groups := groups }, 0))
  | logic_call.create_event i =>
    if i ≤ data_state.events.length then
      some ({ data_state with
                events :=
                  data_state.events.take i ++ [{ name := [], actions := [] }] ++
                    data_state.events.drop i }, 0)
    else none
  | logic_call.remove_event i =>
    if i < data_state.events.length then
      some ({ data_state with events := data_state.events.eraseIdx i }, 0)
    else none
  | logic_call.update_event i name =>
    (update_at data_state.events i (fun event => { event with name := name })).map
      (fun events => ({ data_state with events := events }, 0))
  | logic_call.update_event_action i a action => do
    let event ← data_state.events[i]?
    let actions ← update_at event.actions a (fun _ => action)
    some ({ data_state with events := data_state.events.set i { event with actions := actions } },
      0)
  | logic_call.remove_event_action i a => do
    let event ← data_state.events[i]?
    if a < event.actions.length then
      some ({ data_state with
                events := data_state.events.set i { event with actions := event.actions.eraseIdx a } },
        0)
    else none
  | logic_call.add_event_action i g => do
    let event ← data_state.events[i]?
    some ({ data_state with
              events :=
                data_state.events.set i
                  { event with
                    actions :=
                      event.actions ++ [{ type := 1, target_group_index := g, fade_time := 0 }] } },
      event.actions.length)
  | logic_call.create_root_node g type => do
    let (data_state, node_desc) := alloc_node data_state type
    let groups ← update_at data_state.groups g (fun group => { group with node := node_desc })
    some ({ data_state with groups := groups }, 0)
  | logic_call.create_repeat_node target type =>
    if target.type = NodeType.Repeat then do
      let node ← data_state.nodes_repeat[target.id]?
      -- a second child is rejected
      if node.node.type = NodeType.None then
        let (data_state, node_desc) := alloc_node data_state type
        some ({ data_state with
                  nodes_repeat := data_state.nodes_repeat.set target.id { node with node := node_desc } },
          0)
      else none
    else none
  | logic_call.create_node target type =>
    let (data_state, node_desc) := alloc_node data_state type
    match target.type with
    | NodeType.Sequence =>
      (update_at data_state.nodes_sequence target.id (fun l => l ++ [node_desc])).map
        (fun nodes => ({ data_state with nodes_sequence := nodes }, 0))
    | NodeType.Random =>
      (update_at data_state.nodes_random target.id (fun l => l ++ [node_desc])).map
        (fun nodes => ({ data_state with nodes_random := nodes }, 0))
    | _ => none
  | logic_call.update_repeat_node_times target times =>
    if target.type = NodeType.Repeat then
      (update_at data_state.nodes_repeat target.id
          (fun node => { node with repeat_count := times })).map
        (fun nodes => ({ data_state with nodes_repeat := nodes }, 0))
    else none
  | logic_call.rename_bus i name =>
    (update_at data_state.output_buses i (fun _ => { name := name })).map
      (fun buses => ({ data_state with output_buses := buses }, 0))
  | logic_call.remove_root_node g =>
    (update_at data_state.groups g (fun group => { group with node := invalid_node_desc })).map
      (fun groups => ({ data_state with groups := groups }, 0))
  | logic_call.remove_node parent i =>
    match parent.type with
    | NodeType.Sequence =>
      (update_at data_state.nodes_sequence parent.id (fun l => l.eraseIdx i)).map
        (fun nodes => ({ data_state with nodes_sequence := nodes }, 0))
    | NodeType.Random =>
      (update_at data_state.nodes_random parent.id (fun l => l.eraseIdx i)).map
        (fun nodes => ({ data_state with nodes_random := nodes }, 0))
    | NodeType.Repeat =>
      (update_at data_state.nodes_repeat parent.id
          (fun node => { node with node := invalid_node_desc })).map
        (fun nodes => ({ data_state with nodes_repeat := nodes }, 0))
    | _ => none
  | logic_call.assign_file_node_file target filename =>
    if target.type = NodeType.File then
      (update_at data_state.nodes_file target.id
          (fun node => { node with filename := filename })).map
        (fun nodes => ({ data_state with nodes_file := nodes }, 0))
    else none
  | logic_call.switch_file_node_loop target =>
    if target.type = NodeType.File then
      (update_at data_state.nodes_file target.id (fun node => { node with loop := !node.loop })).map
        (fun nodes => ({ data_state with nodes_file := nodes }, 0))
    else none
  | logic_call.switch_file_node_stream target =>
    if target.type = NodeType.File then
      (update_at data_state.nodes_file target.id
          (fun node => { node with stream := !node.stream })).map
        (fun nodes => ({ data_state with nodes_file := nodes }, 0))
    else none
  | logic_call.save_store_json _ => none
  | logic_call.apply_undo_chain => none
  | logic_call.apply_redo_chain => none

/-- Modelled from the spec: the document an undo or redo returns to. The recorded document is
restored; output buses are only ever appended, and appending one is not recorded as a command
(`add_output_bus`: "todo: add cmd"), so reversing a command leaves the buses appended since
then in place: the document keeps as many buses as it has. -/
def restore_document (current recorded : data_state_t) : data_state_t :=
  { recorded with
    output_buses :=
      recorded.output_buses.take current.output_buses.length ++
        current.output_buses.drop recorded.output_buses.length }

/-- Modelled from the spec: the calls into `app_logic` (not among the sources). A document
operation is applied through the Undo/Redo Stack, or is a silent no-op; `undo` reverses the
most recently applied command if there is one, `redo` re-applies the most recently undone one;
saving leaves the logic state as it is. -/
def model_run (call : logic_call) (bl_state : logic_state_t) : Option (logic_state_t × Nat) :=
  match call with
  | logic_call.save_store_json _ => some (bl_state, 0)
  | logic_call.apply_undo_chain =>
    match bl_state.cmds.undo_stack with
    | [] => some (bl_state, 0)
    | data_state :: rest =>
      some ({ data_state := restore_document bl_state.data_state data_state
              cmds :=
                { undo_stack := rest
                  redo_stack := bl_state.data_state :: bl_state.cmds.redo_stack } }, 1)
  | logic_call.apply_redo_chain =>
    match bl_state.cmds.redo_stack with
    | [] => some (bl_state, 0)
    | data_state :: rest =>
      some ({ data_state := restore_document bl_state.data_state data_state
              cmds :=
                { undo_stack := bl_state.data_state :: bl_state.cmds.undo_stack
                  redo_stack := rest } }, 1)
  | call =>
    match model_operation bl_state.data_state call with
    | some (data_state, result) => some (apply_command bl_state data_state, result)
    | none => some (bl_state, 0)

/-- Modelled from the spec: `app_logic` (not among the sources); `applied_count()` is the number
of currently applied commands. The persistence adapter is out of scope: serialization gives
an empty buffer and loading leaves the document as it is. -/
def model_logic : app_logic :=
  { run := model_run
    get_undo_size := fun cmds => cmds.undo_stack.length
    has_undo := fun cmds => !cmds.undo_stack.isEmpty
    has_redo := fun cmds => !cmds.redo_stack.isEmpty
    save_store_fb_buffer := fun _ => []
    load_store_json := fun data_state _ => data_state }

/-- Collaborators for a frame in which the widget pass returns `action` and changes the view
state by `edit`, on top of the assignments `build_view` always makes (`app_view.cpp`, lines
310-311, 423 and 440, 643); the runtime plays no file and loads every bank as handle 1. -/
def model_externals (action : view_action_type_e) (edit : view_state_t → view_state_t) :
    externals :=
  { logic := model_logic
    is_file_playing := fun _ => false
    load_events_bank_from_buffer := fun _ _ => some 1
    directory_iterator := fun _ => []
    build_view := fun view_state _ =>
      some (action,
        edit
          { view_state with
            action_group_index := view_state.active_group_index
            node_action := no_node_action
            add_node_type := NodeType.None }) }

/-- The synchronized sample state with the last event, "zap", selected; it has no actions and
does not pass the filter. -/
def sample_state_last_event : app_state_t :=
  { sample_state_synced with
    view_state :=
      { sample_state_synced.view_state with
        active_event_index := 2
        event_state_name := "zap".toList
        event_list_index := invalid_index } }

/-- The synchronized sample state with no event selected. -/
def sample_state_no_event : app_state_t :=
  { sample_state_synced with
    view_state :=
      { sample_state_synced.view_state with
        active_event_index := invalid_index
        event_list_index := invalid_index } }

/-- The sample state as it is once the last-positioned event of a list of four has been
removed while selected: three events remain and `active_event_index` is still 3. -/
def sample_state_stale_event : app_state_t :=
  { sample_state_synced with
    view_state := { sample_state_synced.view_state with active_event_index := 3 } }

/-- The sample state with a group filter on group 1 that was set when the document had three
groups. -/
def sample_state_groups_changed : app_state_t :=
  { sample_state with
    view_state :=
      { sample_view with
        event_filter_group_index := 1
        groups_size_on_event_filter_group := 3 } }

/-- The synchronized sample state with the first group, "music", selected; its root is None. -/
def sample_state_first_group : app_state_t :=
  { sample_state_synced with
    view_state :=
      { sample_state_synced.view_state with
        active_group_index := 0
        selected_group_state :=
          { name := "music".toList, volume := 0, cross_fade_time := 0, output_bus_index := 0,
            node := ⟨NodeType.None, 0⟩ } } }

/-- The synchronized sample state with the group filter on group 1 and the first event,
"boom", selected; only "bang" targets group 1. -/
def sample_state_filter_group_1 : app_state_t :=
  { sample_state_synced with
    view_state :=
      { sample_state_synced.view_state with
        event_filter_group_index := 1
        filtered_event_indices := [1]
        event_list_index := invalid_index
        active_event_index := 0
        event_state_name := "boom".toList
        active_action_index := 0
        active_action := ⟨1, 0, 0⟩ } }

/-- The widget pass in which the button "<<<" of the selected action is pressed (`app_view.cpp`,
lines 510-513): the working copy of the action is aimed at the active group. -/
def press_assign_active_group (view_state : view_state_t) : view_state_t :=
  { view_state with
    active_action :=
      { view_state.active_action with target_group_index := view_state.active_group_index } }

/-- The widget pass in which the name of the selected group has been typed over and the button
"<<<" of the selected action is pressed: the group edit stays uncommitted in the working copy. -/
def type_group_name_and_press_assign (view_state : view_state_t) : view_state_t :=
  press_assign_active_group
    { view_state with
      selected_group_state := { view_state.selected_group_state with name := "draft".toList } }

/-- The widget pass in which "File" is chosen in the popup opened by "Add..." on the root of the
selected group (`app_view.cpp`, lines 126-129 and 639-649). -/
def choose_file_for_root (view_state : view_state_t) : view_state_t :=
  { view_state with
    add_node_target := view_state.selected_group_state.node
    add_node_type := NodeType.File }

/-- The state `sample_state_groups_changed` after one pass of the synchronizer: the group
filter is reset. -/
def sample_state_groups_changed_synced : app_state_t :=
  { sample_state_synced with
    view_state :=
      { sample_state_synced.view_state with
        event_filter_group_index := invalid_index
        groups_size_on_event_filter_group := 3 } }

/-- The state at the end of the frame that removes the selected group "sfx" from
`sample_state_synced`. -/
def sample_state_group_removed : app_state_t :=
  { sample_state_synced with
    runtime_ctx := [hlea_call.process_active_groups]
    logic_calls := [logic_call.remove_group 1]
    bl_state :=
      { data_state := { sample_data with groups := sample_data.groups.take 1 }
        cmds := { undo_stack := [sample_data], redo_stack := [] } }
    view_state :=
      { sample_state_synced.view_state with
        action_group_index := 1
        active_group_index := 0
        selected_group_state :=
          { name := "music".toList, volume := 0, cross_fade_time := 0, output_bus_index := 0,
            node := ⟨NodeType.None, 0⟩ }
        event_filter_group_index := invalid_index } }

/-- The state at the end of the frame that aims the selected action of "bang" at group 1,
starting from `sample_state_synced`. -/
def sample_state_action_retargeted : app_state_t :=
  { sample_state_synced with
    runtime_ctx := [hlea_call.process_active_groups]
    logic_calls := [logic_call.update_event_action 1 1 ⟨2, 1, 0⟩]
    bl_state :=
      { data_state :=
          { sample_data with
            events :=
              [{ name := "boom".toList, actions := [⟨1, 0, 0⟩] },
               { name := "bang".toList, actions := [⟨1, 1, 0⟩, ⟨2, 1, 0⟩] },
               { name := "zap".toList, actions := [] }] }
        cmds := { undo_stack := [sample_data], redo_stack := [] } }
    view_state :=
      { sample_state_synced.view_state with
        action_group_index := 1
        active_action := ⟨2, 1, 0⟩ } }

/-- The sample document with a third group, "ui". -/
def sample_data_three_groups : data_state_t :=
  { sample_data with
    groups :=
      sample_data.groups ++
        [{ name := "ui".toList, volume := 0, cross_fade_time := 0, output_bus_index := 0,
           node := ⟨NodeType.None, 0⟩ }] }

/-- A synchronized state over `sample_data_three_groups` with the second group, "sfx",
selected; the button "+" of its row asks for a group at position 2. -/
def sample_state_three_groups : app_state_t :=
  { sample_state_synced with
    bl_state :=
      { data_state := sample_data_three_groups, cmds := { undo_stack := [], redo_stack := [] } }
    view_state :=
      { sample_state_synced.view_state with
        action_group_index := 1
        groups_size_on_event_filter_group := 3 } }

/-- The state at the end of the frame that adds a group at position 2 of
`sample_state_three_groups`. -/
def sample_state_group_added : app_state_t :=
  { sample_state_three_groups with
    runtime_ctx := [hlea_call.process_active_groups]
    logic_calls := [logic_call.create_group 2]
    bl_state :=
      { data_state :=
          { sample_data_three_groups with
            groups :=
              [{ name := "music".toList, volume := 0, cross_fade_time := 0, output_bus_index := 0,
                 node := ⟨NodeType.None, 0⟩ },
               { name := "sfx".toList, volume := 0, cross_fade_time := 0, output_bus_index := 0,
                 node := ⟨NodeType.File, 0⟩ },
               { name := [], volume := 0, cross_fade_time := 0, output_bus_index := 0,
                 node := invalid_node_desc },
               { name := "ui".toList, volume := 0, cross_fade_time := 0, output_bus_index := 0,
                 node := ⟨NodeType.None, 0⟩ }] }
        cmds := { undo_stack := [sample_data_three_groups], redo_stack := [] } }
    view_state :=
      { sample_state_three_groups.view_state with
        active_group_index := 2
        selected_group_state :=
          { name := [], volume := 0, cross_fade_time := 0, output_bus_index := 0,
            node := invalid_node_desc }
        event_filter_group_index := invalid_index } }

/-- A synchronized state over a document with the single event "boom", which is selected and
listed. -/
def sample_state_one_event : app_state_t :=
  { sample_state_synced with
    bl_state :=
      { data_state := { sample_data with events := sample_data.events.take 1 }
        cmds := { undo_stack := [], redo_stack := [] } }
    view_state :=
      { sample_state_synced.view_state with
        filtered_event_indices := [0]
        event_list_index := 0
        active_event_index := 0
        event_state_name := "boom".toList
        active_action_index := 0
        active_action := ⟨1, 0, 0⟩ } }

/-- The state at the end of the frame that removes the only event of
`sample_state_one_event`. -/
def sample_state_event_removed : app_state_t :=
  { sample_state_one_event with
    runtime_ctx := [hlea_call.process_active_groups]
    logic_calls := [logic_call.remove_event 0]
    bl_state :=
      { data_state := { sample_data with events := [] }
        cmds := { undo_stack := [{ sample_data with events := sample_data.events.take 1 }],
                  redo_stack := [] } }
    view_state :=
      { sample_state_one_event.view_state with
        action_group_index := 1
        filtered_event_indices := []
        event_list_index := invalid_index
        active_event_index := invalid_index } }

/-- The bank handling that opens `fire_event` (lines 229-237): a cached bank whose stored counter
differs from the current undo size is unloaded, and a missing bank is compiled (serialized and
loaded) and stamped with the current undo size. -/
def fire_event_bank (E : externals) (state : app_state_t) : app_state_t :=
  let state :=
    match state.bank with
    | some bank =>
      if state.bank_cmd_index ≠ E.logic.get_undo_size state.bl_state.cmds then
        { hlea state (hlea_call.unload_events_bank bank) with bank := none }
      else state
    | none => state
  if state.bank = none then
    let fb_buffer := E.logic.save_store_fb_buffer state.bl_state.data_state
    let bank := E.load_events_bank_from_buffer state.runtime_ctx fb_buffer
    { hlea state (hlea_call.load_events_bank_from_buffer fb_buffer) with
      bank := bank
      bank_cmd_index := E.logic.get_undo_size state.bl_state.cmds }
  else state

/-- Whether a runtime request compiles a bank (loads it from a serialized buffer). -/
def is_bank_compile : hlea_call → Bool
  | hlea_call.load_events_bank_from_buffer _ => true
  | _ => false

/-- The number of bank compilations among the requests the runtime has received. -/
def compile_count (runtime_ctx : List hlea_call) : Nat := runtime_ctx.countP is_bank_compile

/-- The document operation the specification prescribes for a node insertion: none when no
kind is chosen; for target kind None the root of the active group is replaced; for target kind
Repeat its single child slot is replaced; for any other target the node is appended to the
target's child list. -/
def node_add_call (view_state : view_state_t) : Option logic_call :=
  if view_state.add_node_type = NodeType.None then none
  else
    match view_state.add_node_target.type with
    | NodeType.None =>
      some (logic_call.create_root_node view_state.active_group_index view_state.add_node_type)
    | NodeType.Repeat =>
      some (logic_call.create_repeat_node view_state.add_node_target view_state.add_node_type)
    | _ => some (logic_call.create_node view_state.add_node_target view_state.add_node_type)

/-- The sample document with a Repeat node as root of "music"; the Repeat node already has a
File child. -/
def sample_data_repeat : data_state_t :=
  { sample_data with
    groups :=
      [{ name := "music".toList, volume := 0, cross_fade_time := 0, output_bus_index := 0,
         node := ⟨NodeType.Repeat, 0⟩ },
       { name := "sfx".toList, volume := 0, cross_fade_time := 0, output_bus_index := 0,
         node := ⟨NodeType.File, 0⟩ }]
    nodes_repeat := [{ repeat_count := 2, node := ⟨NodeType.File, 0⟩ }] }

/-- A synchronized state over `sample_data_repeat` with "music" selected. -/
def sample_state_repeat : app_state_t :=
  { sample_state_synced with
    bl_state :=
      { data_state := sample_data_repeat, cmds := { undo_stack := [], redo_stack := [] } }
    view_state :=
      { sample_state_synced.view_state with
        active_group_index := 0
        selected_group_state :=
          { name := "music".toList, volume := 0, cross_fade_time := 0, output_bus_index := 0,
            node := ⟨NodeType.Repeat, 0⟩ } } }

/-- The widget pass in which "File" is chosen in the node popup while the popup's target is the
Repeat node 0. -/
def choose_file_for_repeat (view_state : view_state_t) : view_state_t :=
  { view_state with
    add_node_target := ⟨NodeType.Repeat, 0⟩
    add_node_type := NodeType.File }

/-- The state at the end of the frame that adds a File root to "music" in
`sample_state_first_group`. -/
def sample_state_root_added : app_state_t :=
  { sample_state_first_group with
    runtime_ctx := [hlea_call.process_active_groups]
    logic_calls := [logic_call.create_root_node 0 NodeType.File]
    bl_state :=
      { data_state :=
          { sample_data with
            groups :=
              [{ name := "music".toList, volume := 0, cross_fade_time := 0, output_bus_index := 0,
                 node := ⟨NodeType.File, 1⟩ },
               { name := "sfx".toList, volume := 0, cross_fade_time := 0, output_bus_index := 0,
                 node := ⟨NodeType.File, 0⟩ }]
            nodes_file :=
              [{ filename := "a.wav".toList, loop := false, stream := false },
               { filename := [], loop := false, stream := false }] }
        cmds := { undo_stack := [sample_data], redo_stack := [] } }
    view_state :=
      { sample_state_first_group.view_state with
        action_group_index := 0
        add_node_target := ⟨NodeType.None, 0⟩
        add_node_type := NodeType.File } }

/-- Whether a call into the logic layer is a node removal. -/
def is_removal : logic_call → Bool
  | logic_call.remove_root_node _ => true
  | logic_call.remove_node _ _ => true
  | _ => false

/-- The removal the specification prescribes for the frame's `node_action`: none when no
removal is requested; the root of the active group is detached when the recorded parent has
kind None; otherwise the child at the recorded index is removed from the parent. -/
def node_removal_call (view_state : view_state_t) : Option logic_call :=
  if view_state.node_action.action_remove = true then
    if view_state.node_action.parent_node_desc.type = NodeType.None then
      some (logic_call.remove_root_node view_state.active_group_index)
    else
      some (logic_call.remove_node view_state.node_action.parent_node_desc
        view_state.node_action.node_index)
  else none

/-- The calls `calls` were added to the record of logic calls between `s` and `s'`, none of
them a removal (used to organise the proofs). -/
def added_no_removal (s s' : app_state_t) : Prop :=
  ∃ calls, s'.logic_calls = s.logic_calls ++ calls ∧ ∀ c ∈ calls, is_removal c = false

/-- The widget pass in which the button "-" of the root node of the selected group is pressed
(`app_view.cpp`, lines 130-134 and 286): the recorded parent is `invalid_node_desc`. -/
def press_remove_root (view_state : view_state_t) : view_state_t :=
  { view_state with
    node_action :=
      { no_node_action with
        parent_node_desc := invalid_node_desc, node_index := 0, action_remove := true } }

/-- The state at the end of the frame that removes the root of "sfx" in
`sample_state_synced`. -/
def sample_state_root_removed : app_state_t :=
  { sample_state_synced with
    runtime_ctx := [hlea_call.process_active_groups]
    logic_calls := [logic_call.remove_root_node 1]
    bl_state :=
      { data_state :=
          { sample_data with
            groups :=
              [{ name := "music".toList, volume := 0, cross_fade_time := 0, output_bus_index := 0,
                 node := ⟨NodeType.None, 0⟩ },
               { name := "sfx".toList, volume := 0, cross_fade_time := 0, output_bus_index := 0,
                 node := invalid_node_desc }] }
        cmds := { undo_stack := [sample_data], redo_stack := [] } }
    view_state :=
      press_remove_root { sample_state_synced.view_state with action_group_index := 1 } }

/-- The state `sample_state_synced` in which the three file requests of `node_action` are set
on a node that is a Sequence. -/
def sample_state_sequence_requests : app_state_t :=
  { sample_state_synced with
    view_state :=
      { sample_state_synced.view_state with
        node_action :=
          { no_node_action with
            node_desc := ⟨NodeType.Sequence, 0⟩
            action_assign_sound := true
            action_switch_loop := true
            action_switch_stream := true } } }

/-! ## The widget pass (`app_view.cpp`): the type combo of an action row -/

/-- The type combo of an action row in `build_view` (`app_view.cpp`, lines 475-487):
`current_index` is the value the call of `ImGui::Combo` left, `action_ptr` the action of the row
in the document. The result is the view state and the action of the pass after the
fragment. -/
def action_type_combo (current_index : Nat) (action_ptr : action_t)
    (mut_view_state : view_state_t) (action : view_action_type_e) :
    view_state_t × view_action_type_e :=
  if current_index ≠ action_ptr.type then
    let mut_view_state :=
      { mut_view_state with
        active_action := { mut_view_state.active_action with type := current_index } }
    -- remove when none is selected
    if mut_view_state.active_action.type = ActionType_none then
      (mut_view_state, view_action_type_e.EVENT_REMOVE_ACTION)
    else (mut_view_state, view_action_type_e.EVENT_UPDATE_ACTION)
  else (mut_view_state, action)

/-- The state `sample_state_synced` after "none" is chosen in the type combo of the selected
action (the second action of "bang"). -/
def sample_state_type_none : app_state_t :=
  { sample_state_synced with
    view_state :=
      (action_type_combo ActionType_none ⟨2, 0, 0⟩ sample_state_synced.view_state
        view_action_type_e.NONE).1 }

/-- The logic state after the second action of "bang" is removed from `sample_data`. -/
def sample_logic_action_removed : logic_state_t :=
  { data_state :=
      { sample_data with
        events :=
          [{ name := "boom".toList, actions := [⟨1, 0, 0⟩] },
           { name := "bang".toList, actions := [⟨1, 1, 0⟩] },
           { name := "zap".toList, actions := [] }] }
    cmds := { undo_stack := [sample_data], redo_stack := [] } }

/-- The requests the specification asks of `BUS_VOLUME_CHANGED`, with the bus index as the
8-bit counter holds it and the value as `float` arithmetic gives it: for each position `i` of
the volume vector, in order, one request for bus `i % 256` with the value
`(float)volumes[i] / 100`. -/
def bus_volume_requests (volumes : List Int) : List hlea_call :=
  (List.range volumes.length).map
    (fun i => hlea_call.set_bus_volume (i % 256) (bus_volume_value (volumes.getD i 0)))

/-- The state `sample_state_synced` with its one bus at 33 percent. -/
def sample_state_volume_33 : app_state_t :=
  { sample_state_synced with
    view_state := { sample_state_synced.view_state with output_bus_volumes := [33] } }

/-- The state `sample_state_synced` with 257 output buses, all at 100 percent (the vectors are
as 256 dispatches of `BUS_ADD` leave them). -/
def sample_state_many_buses : app_state_t :=
  { sample_state_synced with
    bl_state :=
      { sample_state_synced.bl_state with
        data_state :=
          { sample_data with
            output_buses :=
              { name := "master".toList } ::
                List.replicate 256 { name := "<bus name>".toList } } }
    view_state :=
      { sample_state_synced.view_state with output_bus_volumes := List.replicate 257 100 } }

/-! ## The widget pass (`app_view.cpp`): the output buses -/

/-- What the user does in the row of one output bus during a widget pass: whether the button
".." is pressed, and the value the slider writes when it is moved. -/
structure bus_row_input where
  edit_pressed : Bool
  slider : Option Int
  deriving DecidableEq, Repr

/-- The button ".." of a bus row (`app_view.cpp`, lines 573-579). `name_size` is
`sizeof(bus_edit_state.name)`, declared in `app_view.h`, which is not among the sources. -/
def bus_row_edit (name_size : Nat) (pressed : Bool) (bus : output_bus_t) (index : Nat)
    (mut_view_state : view_state_t) (open_bus_popup : Bool) : view_state_t × Bool :=
  if pressed = true then
    ({ mut_view_state with
        bus_edit_state_index := index
        bus_edit_state_name := snprintf_s name_size bus.name }, true)
  else (mut_view_state, open_bus_popup)

/-- The slider of a bus row (`app_view.cpp`, lines 581-584): it addresses
`output_bus_volumes[index]`, out of range when `index` is not below the length, and writes the
new value through that address when it is moved. -/
def bus_row_slider (slider : Option Int) (index : Nat) (mut_view_state : view_state_t)
    (action : view_action_type_e) : Option (view_state_t × view_action_type_e) :=
  match mut_view_state.output_bus_volumes[index]? with
  | none => none
  | some _ =>
    match slider with
    | some volume =>
      some ({ mut_view_state with
              output_bus_volumes := mut_view_state.output_bus_volumes.set index volume },
        view_action_type_e.BUS_VOLUME_CHANGED)
    | none => some (mut_view_state, action)

/-- The loop over `data_state.output_buses` in `build_view` (`app_view.cpp`, lines 570-587),
from the row `index` on, over the buses not yet visited; the result is the view state, the
action of the pass and `open_bus_popup`. -/
def build_bus_rows (name_size : Nat) (input : Nat → bus_row_input) :
    List output_bus_t → Nat → view_state_t → view_action_type_e → Bool →
      Option (view_state_t × view_action_type_e × Bool)
  | [], _, mut_view_state, action, open_bus_popup => some (mut_view_state, action, open_bus_popup)
  | bus :: rest, index, mut_view_state, action, open_bus_popup =>
    match
      bus_row_slider (input index).slider index
        (bus_row_edit name_size (input index).edit_pressed bus index mut_view_state
          open_bus_popup).1 action with
    | none => none
    | some (view_state, action) =>
      build_bus_rows name_size input rest (index + 1) view_state action
        (bus_row_edit name_size (input index).edit_pressed bus index mut_view_state
          open_bus_popup).2

/-- The header "Output buses" of `build_view` (`app_view.cpp`, lines 563-593): the rows of the
buses and the button "Add bus", built when the header is open. -/
def build_output_buses (name_size : Nat) (header_open : Bool) (input : Nat → bus_row_input)
    (add_bus_pressed : Bool) (data_state : data_state_t) (mut_view_state : view_state_t)
    (action : view_action_type_e) : Option (view_state_t × view_action_type_e × Bool) :=
  -- bus edit data
  let open_bus_popup := false
  if header_open = true then
    match build_bus_rows name_size input data_state.output_buses 0 mut_view_state action
        open_bus_popup with
    | none => none
    | some (mut_view_state, action, open_bus_popup) =>
      if add_bus_pressed = true then
        some (mut_view_state, view_action_type_e.BUS_ADD, open_bus_popup)
      else some (mut_view_state, action, open_bus_popup)
  else some (mut_view_state, action, open_bus_popup)

/-! ## The bus volumes of the view and the buses of the document -/

/-- The frames of a session: `process_frame` once per element, each with the collaborators
(the user's input among them) of that frame. -/
def run_frames : List externals → app_state_t → Option app_state_t
  | [], state => some state
  | E :: rest, state => (process_frame E state).bind (run_frames rest)

/-- The contract on `app_logic` (not among the sources) that the bus invariant rests on: no
call changes the number of output buses of the document. -/
def logic_keeps_bus_count (L : app_logic) : Prop :=
  ∀ (call : logic_call) (bl_state bl_state' : logic_state_t) (result : Nat),
    L.run call bl_state = some (bl_state', result) →
      bl_state'.data_state.output_buses.length = bl_state.data_state.output_buses.length

/-- The widget pass writes the entries of `output_bus_volumes` (the sliders) but does not
change their number. -/
def view_keeps_volume_count (E : externals) : Prop :=
  ∀ (view_state view_state' : view_state_t) (data_state : data_state_t)
    (action : view_action_type_e),
    E.build_view view_state data_state = some (action, view_state') →
      view_state'.output_bus_volumes.length = view_state.output_bus_volumes.length

/-- A session on the modelled `app_logic`: a group is added, a bus is added, and the group
addition is undone. -/
def sample_session : List externals :=
  [model_externals view_action_type_e.GROUP_ADD id,
   model_externals view_action_type_e.BUS_ADD id,
   model_externals view_action_type_e.UNDO id]

/-- From `s` to `s'` the number of volume entries of the view and the number of buses of the
document have moved by the same amount. -/
def bus_counts_related (s s' : app_state_t) : Prop :=
  s'.view_state.output_bus_volumes.length + s.bl_state.data_state.output_buses.length =
    s.view_state.output_bus_volumes.length + s'.bl_state.data_state.output_buses.length

/-! ## Lemmas: substring search -/

theorem string_find_from_ne_none (needle : List Char) :
    ∀ (s : List Char) (pos : Nat), string_find_from needle s pos ≠ none ↔ needle <:+: s := by
  intro s
  induction s with
  | nil =>
    intro pos
    simp [string_find_from]
  | cons c rest ih =>
    intro pos
    rw [string_find_from, List.infix_cons_iff]
    by_cases h : needle.isPrefixOf (c :: rest) = true
    · simp only [h, if_true]
      have hp : needle <+: c :: rest := List.isPrefixOf_iff_prefix.mp h
      simp [hp]
    · simp only [h]
      have hp : ¬ needle <+: c :: rest := fun hp => h (List.isPrefixOf_iff_prefix.mpr hp)
      simp only [Bool.false_eq_true, if_false, hp, false_or]
      exact ih (pos + 1)

theorem string_find_eq_none (s needle : List Char) :
    string_find s needle = none ↔ ¬ needle <:+: s := by
  rw [← string_find_from_ne_none needle s 0, string_find]
  simp

/-! ## Lemmas: the filter loop -/

theorem filter_step_iff (filter_str : List Char) (grp : Nat) (event : event_t) :
    (¬ string_find event.name filter_str = none ∧
      ¬ (grp ≠ invalid_index ∧ ¬ is_event_target_group event grp = true)) ↔
      event_filter_predicate filter_str grp event := by
  unfold event_filter_predicate
  rw [string_find_eq_none]
  by_cases h1 : grp = invalid_index <;> by_cases h2 : is_event_target_group event grp = true <;>
    simp [h1, h2]

theorem filter_events_loop_cons_pass (vs : view_state_t) (event : event_t) (rest : List event_t)
    (k : Nat)
    (h : event_filter_predicate vs.event_filter_str vs.event_filter_group_index event) :
    filter_events_loop vs (event :: rest) k =
      filter_events_loop
        { vs with
          filtered_event_indices := vs.filtered_event_indices ++ [k]
          event_list_index :=
            if vs.active_event_index = k then vs.filtered_event_indices.length
            else vs.event_list_index } rest (k + 1) := by
  have h' := (filter_step_iff _ _ _).mpr h
  rw [filter_events_loop]
  rw [if_neg h'.1, if_neg h'.2]
  by_cases ha : vs.active_event_index = k
  · simp [ha]
  · simp [ha]

theorem filter_events_loop_cons_skip (vs : view_state_t) (event : event_t) (rest : List event_t)
    (k : Nat)
    (h : ¬ event_filter_predicate vs.event_filter_str vs.event_filter_group_index event) :
    filter_events_loop vs (event :: rest) k = filter_events_loop vs rest (k + 1) := by
  have h' : ¬ (¬ string_find event.name vs.event_filter_str = none ∧
      ¬ (vs.event_filter_group_index ≠ invalid_index ∧
        ¬ is_event_target_group event vs.event_filter_group_index = true)) :=
    fun hh => h ((filter_step_iff _ _ _).mp hh)
  rw [filter_events_loop]
  by_cases h1 : string_find event.name vs.event_filter_str = none
  · rw [if_pos h1]
  · rw [if_neg h1]
    by_cases h2 : vs.event_filter_group_index ≠ invalid_index ∧
        ¬ is_event_target_group event vs.event_filter_group_index = true
    · rw [if_pos h2]
    · exact absurd ⟨h1, h2⟩ h'

theorem filter_events_loop_frame :
    ∀ (events : List event_t) (k : Nat) (vs : view_state_t),
      filter_events_loop vs events k =
        { vs with
          filtered_event_indices := (filter_events_loop vs events k).filtered_event_indices
          event_list_index := (filter_events_loop vs events k).event_list_index } := by
  intro events
  induction events with
  | nil => intro k vs; rfl
  | cons event rest ih =>
    intro k vs
    by_cases h : event_filter_predicate vs.event_filter_str vs.event_filter_group_index event
    · rw [filter_events_loop_cons_pass vs event rest k h]
      exact (ih (k + 1) _).trans rfl
    · rw [filter_events_loop_cons_skip vs event rest k h]
      exact ih (k + 1) vs

theorem filter_events_loop_filtered :
    ∀ (events : List event_t) (k : Nat) (vs : view_state_t),
      (filter_events_loop vs events k).filtered_event_indices =
        vs.filtered_event_indices ++
          ((List.range events.length).filter (fun j =>
            match events[j]? with
            | some event =>
              decide (event_filter_predicate vs.event_filter_str vs.event_filter_group_index event)
            | none => false)).map (fun j => j + k) := by
  intro events
  induction events with
  | nil => intro k vs; simp [filter_events_loop]
  | cons event rest ih =>
    intro k vs
    rw [List.length_cons, List.range_succ_eq_map, List.filter_cons, List.filter_map]
    by_cases h : event_filter_predicate vs.event_filter_str vs.event_filter_group_index event
    · rw [filter_events_loop_cons_pass vs event rest k h, ih]
      simp [h, Function.comp_def, Nat.add_assoc, Nat.add_comm 1 k]
    · rw [filter_events_loop_cons_skip vs event rest k h, ih]
      simp [h, Function.comp_def, Nat.add_assoc, Nat.add_comm 1 k]

theorem filter_events_loop_list_index :
    ∀ (events : List event_t) (k : Nat) (vs : view_state_t),
      ((vs.active_event_index ∈ vs.filtered_event_indices →
          vs.filtered_event_indices[vs.event_list_index]? = some vs.active_event_index) ∧
        (vs.active_event_index ∉ vs.filtered_event_indices →
          vs.event_list_index = invalid_index)) →
      ((filter_events_loop vs events k).active_event_index ∈
            (filter_events_loop vs events k).filtered_event_indices →
          (filter_events_loop vs events k).filtered_event_indices[
            (filter_events_loop vs events k).event_list_index]? =
              some (filter_events_loop vs events k).active_event_index) ∧
        ((filter_events_loop vs events k).active_event_index ∉
            (filter_events_loop vs events k).filtered_event_indices →
          (filter_events_loop vs events k).event_list_index = invalid_index) := by
  intro events
  induction events with
  | nil => intro k vs h; exact h
  | cons event rest ih =>
    intro k vs hinv
    by_cases h : event_filter_predicate vs.event_filter_str vs.event_filter_group_index event
    · rw [filter_events_loop_cons_pass vs event rest k h]
      apply ih
      by_cases ha : vs.active_event_index = k
      · simp [ha]
      · constructor
        · intro hmem
          have hmem' : vs.active_event_index ∈ vs.filtered_event_indices := by
            simpa [ha] using hmem
          have hget := hinv.1 hmem'
          have hlt : vs.event_list_index < vs.filtered_event_indices.length := by
            by_contra hge
            rw [List.getElem?_eq_none (Nat.le_of_not_lt hge)] at hget
            exact Option.noConfusion hget
          simp only [ha, if_false]
          rw [List.getElem?_append_left hlt]
          exact hget
        · intro hmem
          have hmem' : vs.active_event_index ∉ vs.filtered_event_indices := by
            intro hh
            exact hmem (by simp [hh])
          simpa [ha] using hinv.2 hmem'
    · rw [filter_events_loop_cons_skip vs event rest k h]
      exact ih (k + 1) vs hinv

/-! ## Lemmas: `filter_events` -/

theorem filter_events_frame (state : app_state_t) :
    filter_events state =
      { state with
        view_state :=
          { state.view_state with
            filtered_event_indices := (filter_events state).view_state.filtered_event_indices
            event_list_index := (filter_events state).view_state.event_list_index } } := by
  unfold filter_events
  exact congrArg (fun vs => { state with view_state := vs })
    ((filter_events_loop_frame state.bl_state.data_state.events 0 _).trans rfl)

theorem filter_events_filtered (state : app_state_t) :
    (filter_events state).view_state.filtered_event_indices =
      filtered_indices_spec state.bl_state.data_state state.view_state.event_filter_str
        state.view_state.event_filter_group_index := by
  unfold filter_events filtered_indices_spec
  simp only [filter_events_loop_filtered, List.nil_append, Nat.add_zero, List.map_id']
  rfl

theorem filter_events_list_index (state : app_state_t) :
    (state.view_state.active_event_index ∈ (filter_events state).view_state.filtered_event_indices →
        (filter_events state).view_state.filtered_event_indices[
          (filter_events state).view_state.event_list_index]? =
            some state.view_state.active_event_index) ∧
      (state.view_state.active_event_index ∉
          (filter_events state).view_state.filtered_event_indices →
        (filter_events state).view_state.event_list_index = invalid_index) := by
  have hframe : (filter_events state).view_state.active_event_index =
      state.view_state.active_event_index := by
    rw [filter_events_frame]
  have h := filter_events_loop_list_index state.bl_state.data_state.events 0
    { state.view_state with filtered_event_indices := [], event_list_index := invalid_index }
    ⟨fun hmem => absurd hmem (List.not_mem_nil _), fun _ => rfl⟩
  rw [← hframe]
  exact h

theorem filter_events_idem (state : app_state_t) :
    filter_events (filter_events state) = filter_events state := by
  have h : filter_events (filter_events state) =
      filter_events
        { state with
          view_state :=
            { state.view_state with
              filtered_event_indices := (filter_events state).view_state.filtered_event_indices
              event_list_index := (filter_events state).view_state.event_list_index } } :=
    congrArg filter_events (filter_events_frame state)
  rw [h]
  rfl

/-! ## Lemmas: the steps of the synchronizer -/

theorem update_active_group_eq_some (state state' : app_state_t) (g : Nat) :
    update_active_group state g = some state' ↔
      (g = invalid_index ∧
          state' = { state with view_state := { state.view_state with active_group_index := g } }) ∨
        (g ≠ invalid_index ∧ ∃ group, state.bl_state.data_state.groups[g]? = some group ∧
          state' =
            { state with
              view_state :=
                { state.view_state with
                  active_group_index := g, selected_group_state := group } }) := by
  unfold update_active_group get_group
  by_cases hg : g = invalid_index
  · simp only [hg, if_true, true_and, ne_eq, not_true_eq_false, false_and, or_false,
      Option.some.injEq]
    exact eq_comm
  · simp only [hg, if_false, false_and, false_or, ne_eq, not_false_eq_true, true_and]
    cases hopt : state.bl_state.data_state.groups[g]? with
    | none => simp
    | some group =>
      simp only [Option.bind_eq_bind, Option.some_bind, Option.some.injEq, exists_eq_left']
      exact eq_comm

theorem update_selected_event_action_eq_some (state state' : app_state_t) (a : Nat) :
    update_selected_event_action state a = some state' ↔
      (state.view_state.active_event_index = invalid_index ∧ state' = state) ∨
        (state.view_state.active_event_index ≠ invalid_index ∧
          ∃ event,
            state.bl_state.data_state.events[state.view_state.active_event_index]? = some event ∧
            ((event.actions = [] ∧ state' = state) ∨
              (event.actions ≠ [] ∧
                ∃ action,
                  event.actions[if event.actions.length ≤ a then event.actions.length - 1 else a]? =
                    some action ∧
                  state' =
                    { state with
                      view_state :=
                        { state.view_state with
                          active_action_index :=
                            if event.actions.length ≤ a then event.actions.length - 1 else a
                          active_action := action } }))) := by
  unfold update_selected_event_action
  by_cases he : state.view_state.active_event_index = invalid_index
  · simp [he, eq_comm]
  · simp only [he, if_false, false_and, false_or, ne_eq, not_false_eq_true, true_and,
      Option.bind_eq_bind, Option.bind_eq_some]
    constructor
    · rintro ⟨event, hev, h⟩
      refine ⟨event, hev, ?_⟩
      by_cases hl : event.actions.length = 0
      · left
        simp only [hl, not_true_eq_false, if_false] at h
        exact ⟨List.length_eq_zero.mp hl, (Option.some.inj h).symm⟩
      · right
        simp only [hl, not_false_eq_true, if_true, Option.bind_eq_some] at h
        obtain ⟨action, hact, h⟩ := h
        exact ⟨fun hn => hl (by simp [hn]), action, hact, (Option.some.inj h).symm⟩
    · rintro ⟨event, hev, h⟩
      refine ⟨event, hev, ?_⟩
      rcases h with ⟨hnil, h⟩ | ⟨hne, action, hact, h⟩
      · simp [hnil, h]
      · have hl : event.actions.length ≠ 0 := fun hl => hne (List.length_eq_zero.mp hl)
        simp only [hl, not_false_eq_true, if_true, Option.bind_eq_some]
        exact ⟨action, hact, by rw [h]⟩

theorem update_active_event_eq_some (state state' : app_state_t) (i : Nat) :
    update_active_event state i = some state' ↔
      (i = invalid_index ∧
          state' = { state with view_state := { state.view_state with active_event_index := i } }) ∨
        (i ≠ invalid_index ∧ ∃ event, state.bl_state.data_state.events[i]? = some event ∧
          update_selected_event_action
            { state with
              view_state :=
                { state.view_state with
                  active_event_index := i
                  event_state_name := snprintf_s event_state_name_size event.name } } 0 =
            some state') := by
  unfold update_active_event
  by_cases hi : i = invalid_index
  · simp [hi, eq_comm]
  · simp [hi, Option.bind_eq_some]

theorem update_mutable_view_state_eq_some (state state' : app_state_t) :
    update_mutable_view_state state = some state' ↔
      ∃ s1 s2 s3,
        update_active_group
            (if state.view_state.groups_size_on_event_filter_group ≠
                state.bl_state.data_state.groups.length then
              { state with
                view_state :=
                  { state.view_state with event_filter_group_index := invalid_index } }
            else state)
            (if state.bl_state.data_state.groups.length = 0 then invalid_index
            else if state.view_state.active_group_index ≠ invalid_index ∧
                state.bl_state.data_state.groups.length ≤ state.view_state.active_group_index then
              state.bl_state.data_state.groups.length - 1
            else state.view_state.active_group_index) = some s1 ∧
        update_active_event s1
            (if s1.bl_state.data_state.events.length = 0 then invalid_index
            else s1.view_state.active_event_index) = some s2 ∧
        update_selected_event_action s2 s1.view_state.active_action_index = some s3 ∧
        state' = filter_events s3 := by
  unfold update_mutable_view_state
  simp only [Option.bind_eq_bind, Option.bind_eq_some, Option.some.injEq]
  constructor
  · rintro ⟨s1, h1, s2, h2, s3, h3, h4⟩
    refine ⟨s1, s2, s3, ?_, h2, h3, h4.symm⟩
    convert h1 using 2
    by_cases hgs : state.view_state.groups_size_on_event_filter_group =
        state.bl_state.data_state.groups.length <;> simp [hgs]
  · rintro ⟨s1, s2, s3, h1, h2, h3, h4⟩
    refine ⟨s1, ?_, s2, h2, s3, h3, h4.symm⟩
    convert h1 using 2
    by_cases hgs : state.view_state.groups_size_on_event_filter_group =
        state.bl_state.data_state.groups.length <;> simp [hgs]

theorem update_active_group_fields (s s' : app_state_t) (g : Nat)
    (h : update_active_group s g = some s') :
    s' = { s with view_state := s'.view_state } ∧
      s'.view_state.active_group_index = g ∧
      (g ≠ invalid_index →
        s.bl_state.data_state.groups[g]? = some s'.view_state.selected_group_state) ∧
      (g = invalid_index → s'.view_state.selected_group_state = s.view_state.selected_group_state) ∧
      s'.view_state.groups_size_on_event_filter_group =
        s.view_state.groups_size_on_event_filter_group ∧
      s'.view_state.event_filter_group_index = s.view_state.event_filter_group_index ∧
      s'.view_state.event_filter_str = s.view_state.event_filter_str ∧
      s'.view_state.active_event_index = s.view_state.active_event_index ∧
      s'.view_state.event_state_name = s.view_state.event_state_name ∧
      s'.view_state.active_action_index = s.view_state.active_action_index ∧
      s'.view_state.active_action = s.view_state.active_action := by
  rcases (update_active_group_eq_some s s' g).mp h with ⟨hg, rfl⟩ | ⟨hg, group, hgroup, rfl⟩
  · exact ⟨rfl, rfl, fun hne => absurd hg hne, fun _ => rfl, rfl, rfl, rfl, rfl, rfl, rfl, rfl⟩
  · exact ⟨rfl, rfl, fun _ => hgroup, fun he => absurd he hg, rfl, rfl, rfl, rfl, rfl, rfl, rfl⟩

theorem update_selected_event_action_fields (s s' : app_state_t) (a : Nat)
    (h : update_selected_event_action s a = some s') :
    s' = { s with view_state := s'.view_state } ∧
      s'.view_state.active_group_index = s.view_state.active_group_index ∧
      s'.view_state.selected_group_state = s.view_state.selected_group_state ∧
      s'.view_state.groups_size_on_event_filter_group =
        s.view_state.groups_size_on_event_filter_group ∧
      s'.view_state.event_filter_group_index = s.view_state.event_filter_group_index ∧
      s'.view_state.event_filter_str = s.view_state.event_filter_str ∧
      s'.view_state.active_event_index = s.view_state.active_event_index ∧
      s'.view_state.event_state_name = s.view_state.event_state_name ∧
      (s.view_state.active_event_index = invalid_index → s' = s) ∧
      (s.view_state.active_event_index ≠ invalid_index →
        ∃ event, s.bl_state.data_state.events[s.view_state.active_event_index]? = some event ∧
          (event.actions = [] → s' = s) ∧
          (event.actions ≠ [] →
            s'.view_state.active_action_index =
              (if event.actions.length ≤ a then event.actions.length - 1 else a) ∧
            event.actions[s'.view_state.active_action_index]? =
              some s'.view_state.active_action)) := by
  rcases (update_selected_event_action_eq_some s s' a).mp h with
    ⟨hi, rfl⟩ | ⟨hi, event, hev, ⟨hnil, rfl⟩ | ⟨hne, action, hact, rfl⟩⟩
  · exact ⟨rfl, rfl, rfl, rfl, rfl, rfl, rfl, rfl, fun _ => rfl, fun hne => absurd hi hne⟩
  · exact ⟨rfl, rfl, rfl, rfl, rfl, rfl, rfl, rfl, fun _ => rfl,
      fun _ => ⟨event, hev, fun _ => rfl, fun hne => absurd hnil hne⟩⟩
  · exact ⟨rfl, rfl, rfl, rfl, rfl, rfl, rfl, rfl, fun he => absurd he hi,
      fun _ => ⟨event, hev, fun hnil => absurd hnil hne, fun _ => ⟨rfl, hact⟩⟩⟩

theorem update_active_event_fields (s s' : app_state_t) (i : Nat)
    (h : update_active_event s i = some s') :
    s' = { s with view_state := s'.view_state } ∧
      s'.view_state.active_group_index = s.view_state.active_group_index ∧
      s'.view_state.selected_group_state = s.view_state.selected_group_state ∧
      s'.view_state.groups_size_on_event_filter_group =
        s.view_state.groups_size_on_event_filter_group ∧
      s'.view_state.event_filter_group_index = s.view_state.event_filter_group_index ∧
      s'.view_state.event_filter_str = s.view_state.event_filter_str ∧
      s'.view_state.active_event_index = i ∧
      (i = invalid_index →
        s'.view_state.event_state_name = s.view_state.event_state_name ∧
        s'.view_state.active_action_index = s.view_state.active_action_index ∧
        s'.view_state.active_action = s.view_state.active_action) ∧
      (i ≠ invalid_index →
        ∃ event, s.bl_state.data_state.events[i]? = some event ∧
          s'.view_state.event_state_name = snprintf_s event_state_name_size event.name ∧
          (event.actions = [] →
            s'.view_state.active_action_index = s.view_state.active_action_index ∧
            s'.view_state.active_action = s.view_state.active_action) ∧
          (event.actions ≠ [] →
            event.actions[s'.view_state.active_action_index]? =
              some s'.view_state.active_action)) := by
  rcases (update_active_event_eq_some s s' i).mp h with ⟨hi, rfl⟩ | ⟨hi, event, hev, h2⟩
  · exact ⟨rfl, rfl, rfl, rfl, rfl, rfl, rfl, fun _ => ⟨rfl, rfl, rfl⟩, fun hne => absurd hi hne⟩
  · obtain ⟨e1, e2, e3, e4, e5, e6, e7, e8, _, e10⟩ :=
      update_selected_event_action_fields _ s' 0 h2
    obtain ⟨event', hev', hnil, hne⟩ := e10 hi
    have hee : event' = event := Option.some.inj (hev'.symm.trans hev)
    subst hee
    refine ⟨?_, e2, e3, e4, e5, e6, e7, fun he => absurd he hi, fun _ => ⟨event', hev, e8, ?_, ?_⟩⟩
    · rw [e1]
    · intro hn
      rw [hnil hn]
      exact ⟨rfl, rfl⟩
    · intro hn
      exact (hne hn).2

theorem filter_events_fields (s : app_state_t) :
    (filter_events s).bl_state = s.bl_state ∧
      (filter_events s).view_state.active_group_index = s.view_state.active_group_index ∧
      (filter_events s).view_state.selected_group_state = s.view_state.selected_group_state ∧
      (filter_events s).view_state.groups_size_on_event_filter_group =
        s.view_state.groups_size_on_event_filter_group ∧
      (filter_events s).view_state.event_filter_group_index =
        s.view_state.event_filter_group_index ∧
      (filter_events s).view_state.event_filter_str = s.view_state.event_filter_str ∧
      (filter_events s).view_state.active_event_index = s.view_state.active_event_index ∧
      (filter_events s).view_state.event_state_name = s.view_state.event_state_name ∧
      (filter_events s).view_state.active_action_index = s.view_state.active_action_index ∧
      (filter_events s).view_state.active_action = s.view_state.active_action := by
  refine ⟨?_, ?_, ?_, ?_, ?_, ?_, ?_, ?_, ?_, ?_⟩ <;> rw [filter_events_frame]

theorem update_mutable_view_state_post (s s' : app_state_t)
    (h : update_mutable_view_state s = some s') : sync_post s s' := by
  obtain ⟨s1, s2, s3, h1, h2, h3, rfl⟩ := (update_mutable_view_state_eq_some s s').mp h
  obtain ⟨a1, a2, a3, a4, a5, a6, a7, a8, a9, a10, a11⟩ := update_active_group_fields _ _ _ h1
  obtain ⟨b1, b2, b3, b4, b5, b6, b7, b8, b9⟩ := update_active_event_fields _ _ _ h2
  obtain ⟨c1, c2, c3, c4, c5, c6, c7, c8, c9, c10⟩ :=
    update_selected_event_action_fields _ _ _ h3
  obtain ⟨f1, f2, f3, f4, f5, f6, f7, f8, f9, f10⟩ := filter_events_fields s3
  -- the state after the reset of the group filter
  have r1 : ∀ (t : app_state_t), t =
      (if s.view_state.groups_size_on_event_filter_group ≠ s.bl_state.data_state.groups.length then
        { s with
          view_state := { s.view_state with event_filter_group_index := invalid_index } }
      else s) →
      t.bl_state = s.bl_state ∧
      t.view_state.groups_size_on_event_filter_group =
        s.view_state.groups_size_on_event_filter_group ∧
      t.view_state.event_filter_str = s.view_state.event_filter_str ∧
      t.view_state.event_filter_group_index =
        (if s.view_state.groups_size_on_event_filter_group ≠
            s.bl_state.data_state.groups.length then invalid_index
          else s.view_state.event_filter_group_index) ∧
      t.view_state.selected_group_state = s.view_state.selected_group_state ∧
      t.view_state.active_event_index = s.view_state.active_event_index ∧
      t.view_state.event_state_name = s.view_state.event_state_name ∧
      t.view_state.active_action_index = s.view_state.active_action_index ∧
      t.view_state.active_action = s.view_state.active_action ∧
      t = { s with view_state := t.view_state } := by
    intro t ht
    by_cases hgs : s.view_state.groups_size_on_event_filter_group =
        s.bl_state.data_state.groups.length
    · simp only [hgs, ne_eq, not_true_eq_false, if_false] at ht ⊢
      subst ht
      exact ⟨rfl, hgs, rfl, rfl, rfl, rfl, rfl, rfl, rfl, rfl⟩
    · simp only [hgs, ne_eq, not_false_eq_true, if_true] at ht ⊢
      subst ht
      exact ⟨rfl, rfl, rfl, rfl, rfl, rfl, rfl, rfl, rfl, rfl⟩
  generalize hs0 :
    (if s.view_state.groups_size_on_event_filter_group ≠ s.bl_state.data_state.groups.length then
        { s with
          view_state := { s.view_state with event_filter_group_index := invalid_index } }
      else s) = s0 at h1 a1 a3 a4 a5 a6 a7 a8 a9 a10 a11
  obtain ⟨r_bl, r_gs, r_fs, r_fg, r_sg, r_ei, r_en, r_ai, r_aa, r_fr⟩ := r1 s0 hs0.symm
  have bl1 : s1.bl_state = s.bl_state := by rw [a1]; exact r_bl
  have bl2 : s2.bl_state = s.bl_state := by rw [b1]; exact bl1
  have bl3 : s3.bl_state = s.bl_state := by rw [c1]; exact bl2
  have hei : s3.view_state.active_event_index =
      if s.bl_state.data_state.events.length = 0 then invalid_index
      else s.view_state.active_event_index := by
    rw [c7, b7, bl1, a8, r_ei]
  refine
    { frame := ?_, groups_size := ?_, filter_str := ?_, filter_group := ?_, group_index := ?_,
      group_valid := ?_, group_invalid := ?_, event_index := ?_, event_invalid := ?_,
      event_valid := ?_, filtered := filter_events_idem s3 }
  · rw [filter_events_frame, c1, b1, a1, r_fr]
  · rw [f4, c4, b4, a5, r_gs]
  · rw [f6, c6, b6, a7, r_fs]
  · rw [f5, c5, b5, a6, r_fg]
  · rw [f2, c2, b2, a2]
  · rw [f2, f3, c2, c3, b2, b3, a2]
    rw [r_bl] at a3
    exact a3
  · rw [f2, f3, c2, c3, b2, b3, a2]
    intro hg
    rw [a4 hg, r_sg]
  · rw [f7]
    exact hei
  · rw [f7, f8, f9, f10]
    intro hinv
    have hs3 : s3 = s2 := c9 (c7 ▸ hinv)
    rw [hs3] at hinv ⊢
    obtain ⟨d1, d2, d3⟩ := b8 (b7 ▸ hinv)
    rw [d1, d2, d3, a9, a10, a11, r_en, r_ai, r_aa]
    exact ⟨rfl, rfl, rfl⟩
  · rw [f7, f8, f9, f10]
    intro hval
    have hval2 : s2.view_state.active_event_index ≠ invalid_index := c7 ▸ hval
    obtain ⟨event, hev, hnil, hne⟩ := c10 hval2
    obtain ⟨event', hev', hname, hnil', hne'⟩ := b9 (b7 ▸ hval2)
    rw [bl2, ← c7] at hev
    rw [← b7, bl1, ← c7] at hev'
    have hee : event' = event := Option.some.inj (hev'.symm.trans hev)
    subst hee
    refine ⟨event', hev, ?_, ?_, ?_⟩
    · rw [c8, hname]
    · intro hn
      rw [hnil hn]
      obtain ⟨d1, d2⟩ := hnil' hn
      rw [d1, d2, a10, a11, r_ai, r_aa]
      exact ⟨rfl, rfl⟩
    · intro hn
      obtain ⟨d1, d2⟩ := hne hn
      rw [a10, r_ai] at d1
      exact ⟨d1, d2⟩

theorem getElem?_some_lt {α : Type} (l : List α) (i : Nat) (a : α) (h : l[i]? = some a) :
    i < l.length := by
  by_contra hge
  rw [List.getElem?_eq_none (Nat.le_of_not_lt hge)] at h
  exact Option.noConfusion h

theorem update_mutable_view_state_fixed (s : app_state_t)
    (h1 : s.view_state.groups_size_on_event_filter_group ≠ s.bl_state.data_state.groups.length →
      s.view_state.event_filter_group_index = invalid_index)
    (h2 : s.bl_state.data_state.groups.length = 0 →
      s.view_state.active_group_index = invalid_index)
    (h3 : s.view_state.active_group_index ≠ invalid_index →
      s.bl_state.data_state.groups[s.view_state.active_group_index]? =
        some s.view_state.selected_group_state)
    (h4 : s.bl_state.data_state.events.length = 0 →
      s.view_state.active_event_index = invalid_index)
    (h5 : s.view_state.active_event_index ≠ invalid_index →
      ∃ event, s.bl_state.data_state.events[s.view_state.active_event_index]? = some event ∧
        s.view_state.event_state_name = snprintf_s event_state_name_size event.name ∧
        (event.actions ≠ [] →
          event.actions[s.view_state.active_action_index]? = some s.view_state.active_action))
    (h6 : filter_events s = s) :
    update_mutable_view_state s = some s := by
  have e0 :
      (if s.view_state.groups_size_on_event_filter_group ≠ s.bl_state.data_state.groups.length then
        { s with
          view_state := { s.view_state with event_filter_group_index := invalid_index } }
      else s) = s := by
    by_cases hgs : s.view_state.groups_size_on_event_filter_group =
        s.bl_state.data_state.groups.length
    · simp only [hgs, ne_eq, not_true_eq_false, if_false]
    · simp only [hgs, ne_eq, not_false_eq_true, if_true]
      rw [← h1 hgs]
  have eg :
      (if s.bl_state.data_state.groups.length = 0 then invalid_index
      else if s.view_state.active_group_index ≠ invalid_index ∧
          s.bl_state.data_state.groups.length ≤ s.view_state.active_group_index then
        s.bl_state.data_state.groups.length - 1
      else s.view_state.active_group_index) = s.view_state.active_group_index := by
    by_cases hn : s.bl_state.data_state.groups.length = 0
    · rw [if_pos hn, h2 hn]
    · rw [if_neg hn]
      by_cases hc : s.view_state.active_group_index ≠ invalid_index ∧
          s.bl_state.data_state.groups.length ≤ s.view_state.active_group_index
      · have hlt := getElem?_some_lt _ _ _ (h3 hc.1)
        omega
      · rw [if_neg hc]
  have ee :
      (if s.bl_state.data_state.events.length = 0 then invalid_index
      else s.view_state.active_event_index) = s.view_state.active_event_index := by
    by_cases hn : s.bl_state.data_state.events.length = 0
    · rw [if_pos hn, h4 hn]
    · rw [if_neg hn]
  have hs1 : update_active_group s s.view_state.active_group_index = some s := by
    rw [update_active_group_eq_some]
    by_cases hg : s.view_state.active_group_index = invalid_index
    · exact Or.inl ⟨hg, rfl⟩
    · exact Or.inr ⟨hg, _, h3 hg, rfl⟩
  rw [update_mutable_view_state_eq_some]
  by_cases hei : s.view_state.active_event_index = invalid_index
  · refine ⟨s, s, s, ?_, ?_, ?_, h6.symm⟩
    · rw [e0, eg]; exact hs1
    · rw [ee, update_active_event_eq_some]
      exact Or.inl ⟨hei, rfl⟩
    · rw [update_selected_event_action_eq_some]
      exact Or.inl ⟨hei, rfl⟩
  · obtain ⟨event, hev, hname, hact⟩ := h5 hei
    have hstate :
        ({ s with
            view_state :=
              { s.view_state with
                active_event_index := s.view_state.active_event_index
                event_state_name := snprintf_s event_state_name_size event.name } } :
          app_state_t) = s := by
      rw [← hname]
    by_cases hnil : event.actions = []
    · refine ⟨s, s, s, ?_, ?_, ?_, h6.symm⟩
      · rw [e0, eg]; exact hs1
      · rw [ee, update_active_event_eq_some]
        refine Or.inr ⟨hei, event, hev, ?_⟩
        rw [hstate, update_selected_event_action_eq_some]
        exact Or.inr ⟨hei, event, hev, Or.inl ⟨hnil, rfl⟩⟩
      · rw [update_selected_event_action_eq_some]
        exact Or.inr ⟨hei, event, hev, Or.inl ⟨hnil, rfl⟩⟩
    · have hlen : 0 < event.actions.length := List.length_pos.mpr hnil
      have hlt := getElem?_some_lt _ _ _ (hact hnil)
      have hidx0 : (if event.actions.length ≤ 0 then event.actions.length - 1 else 0) = 0 := by
        rw [if_neg (by omega)]
      have hidx :
          (if event.actions.length ≤ s.view_state.active_action_index then
            event.actions.length - 1
          else s.view_state.active_action_index) = s.view_state.active_action_index := by
        rw [if_neg (by omega)]
      refine
        ⟨s,
          { s with
            view_state :=
              { s.view_state with
                active_action_index := 0
                active_action := event.actions.get ⟨0, hlen⟩ } },
          s, ?_, ?_, ?_, h6.symm⟩
      · rw [e0, eg]; exact hs1
      · rw [ee, update_active_event_eq_some]
        refine Or.inr ⟨hei, event, hev, ?_⟩
        rw [hstate, update_selected_event_action_eq_some]
        refine Or.inr ⟨hei, event, hev, Or.inr ⟨hnil, event.actions.get ⟨0, hlen⟩, ?_, ?_⟩⟩
        · rw [hidx0]
          exact List.getElem?_eq_getElem hlen
        · rw [hidx0]
      · rw [update_selected_event_action_eq_some]
        refine Or.inr ⟨hei, event, hev, Or.inr ⟨hnil, s.view_state.active_action, ?_, ?_⟩⟩
        · rw [hidx]
          exact hact hnil
        · rw [hidx]

theorem update_mutable_view_state_post_fixed (s s' : app_state_t)
    (h : update_mutable_view_state s = some s') : update_mutable_view_state s' = some s' := by
  have p := update_mutable_view_state_post s s' h
  have hbl : s'.bl_state = s.bl_state := by rw [p.frame]
  apply update_mutable_view_state_fixed
  · intro hgs
    rw [p.groups_size, hbl] at hgs
    rw [p.filter_group, if_pos hgs]
  · intro hn
    rw [hbl] at hn
    rw [p.group_index, if_pos hn]
  · intro hg
    rw [hbl]
    exact p.group_valid hg
  · intro hn
    rw [hbl] at hn
    rw [p.event_index, if_pos hn]
  · intro he
    obtain ⟨event, hev, hname, _, hne⟩ := p.event_valid he
    rw [hbl]
    exact ⟨event, hev, hname, fun hn => (hne hn).2⟩
  · exact p.filtered

/-! ## Lemmas: when the synchronizer returns -/

theorem update_active_group_returns (s : app_state_t) (g : Nat)
    (hg : g = invalid_index ∨ g < s.bl_state.data_state.groups.length) :
    ∃ s', update_active_group s g = some s' := by
  by_cases h : g = invalid_index
  · exact ⟨_, (update_active_group_eq_some s _ g).mpr (Or.inl ⟨h, rfl⟩)⟩
  · have hlt : g < s.bl_state.data_state.groups.length := hg.resolve_left h
    exact ⟨_, (update_active_group_eq_some s _ g).mpr
      (Or.inr ⟨h, _, List.getElem?_eq_getElem hlt, rfl⟩)⟩

theorem update_selected_event_action_returns (s : app_state_t) (a : Nat)
    (he : s.view_state.active_event_index = invalid_index ∨
      s.view_state.active_event_index < s.bl_state.data_state.events.length) :
    ∃ s', update_selected_event_action s a = some s' := by
  by_cases h : s.view_state.active_event_index = invalid_index
  · exact ⟨_, (update_selected_event_action_eq_some s _ a).mpr (Or.inl ⟨h, rfl⟩)⟩
  · have hlt := he.resolve_left h
    by_cases hnil : (s.bl_state.data_state.events.get ⟨_, hlt⟩).actions = []
    · exact ⟨_, (update_selected_event_action_eq_some s _ a).mpr
        (Or.inr ⟨h, _, List.getElem?_eq_getElem hlt, Or.inl ⟨hnil, rfl⟩⟩)⟩
    · have hlen := List.length_pos.mpr hnil
      have hidx :
          (if (s.bl_state.data_state.events.get ⟨_, hlt⟩).actions.length ≤ a then
            (s.bl_state.data_state.events.get ⟨_, hlt⟩).actions.length - 1
          else a) < (s.bl_state.data_state.events.get ⟨_, hlt⟩).actions.length := by
        split <;> omega
      exact ⟨_, (update_selected_event_action_eq_some s _ a).mpr
        (Or.inr ⟨h, _, List.getElem?_eq_getElem hlt,
          Or.inr ⟨hnil, _, List.getElem?_eq_getElem hidx, rfl⟩⟩)⟩

theorem update_active_event_returns (s : app_state_t) (i : Nat)
    (hi : i = invalid_index ∨ i < s.bl_state.data_state.events.length) :
    ∃ s', update_active_event s i = some s' := by
  by_cases h : i = invalid_index
  · exact ⟨_, (update_active_event_eq_some s _ i).mpr (Or.inl ⟨h, rfl⟩)⟩
  · have hlt := hi.resolve_left h
    obtain ⟨s', hs'⟩ := update_selected_event_action_returns
      { s with
        view_state :=
          { s.view_state with
            active_event_index := i
            event_state_name :=
              snprintf_s event_state_name_size (s.bl_state.data_state.events.get ⟨i, hlt⟩).name } }
      0 (Or.inr hlt)
    exact ⟨s', (update_active_event_eq_some s _ i).mpr
      (Or.inr ⟨h, _, List.getElem?_eq_getElem hlt, hs'⟩)⟩

theorem update_mutable_view_state_returns_iff (s : app_state_t) :
    (∃ s', update_mutable_view_state s = some s') ↔
      (s.bl_state.data_state.events.length = 0 ∨
        s.view_state.active_event_index = invalid_index ∨
        s.view_state.active_event_index < s.bl_state.data_state.events.length) := by
  constructor
  · rintro ⟨s', h⟩
    have p := update_mutable_view_state_post s s' h
    by_cases hn : s.bl_state.data_state.events.length = 0
    · exact Or.inl hn
    · right
      by_cases hi : s.view_state.active_event_index = invalid_index
      · exact Or.inl hi
      · right
        have hidx := p.event_index
        rw [if_neg hn] at hidx
        obtain ⟨event, hev, _⟩ := p.event_valid (hidx ▸ hi)
        rw [hidx] at hev
        exact getElem?_some_lt _ _ _ hev
  · intro hcond
    obtain ⟨s1, h1⟩ := update_active_group_returns
      (if s.view_state.groups_size_on_event_filter_group ≠ s.bl_state.data_state.groups.length then
        { s with
          view_state := { s.view_state with event_filter_group_index := invalid_index } }
      else s)
      (if s.bl_state.data_state.groups.length = 0 then invalid_index
      else if s.view_state.active_group_index ≠ invalid_index ∧
          s.bl_state.data_state.groups.length ≤ s.view_state.active_group_index then
        s.bl_state.data_state.groups.length - 1
      else s.view_state.active_group_index)
      (by
        have hbl :
            (if s.view_state.groups_size_on_event_filter_group ≠
                s.bl_state.data_state.groups.length then
              { s with
                view_state := { s.view_state with event_filter_group_index := invalid_index } }
            else s).bl_state = s.bl_state := by
          split <;> rfl
        rw [hbl]
        by_cases hn : s.bl_state.data_state.groups.length = 0
        · left; rw [if_pos hn]
        · rw [if_neg hn]
          by_cases hc : s.view_state.active_group_index ≠ invalid_index ∧
              s.bl_state.data_state.groups.length ≤ s.view_state.active_group_index
          · rw [if_pos hc]; right; omega
          · rw [if_neg hc]
            by_cases hg : s.view_state.active_group_index = invalid_index
            · exact Or.inl hg
            · right
              have : ¬ s.bl_state.data_state.groups.length ≤ s.view_state.active_group_index :=
                fun hle => hc ⟨hg, hle⟩
              omega)
    obtain ⟨a1, _, _, _, _, _, _, a8, _, _, _⟩ := update_active_group_fields _ _ _ h1
    have hbl0 :
        (if s.view_state.groups_size_on_event_filter_group ≠
            s.bl_state.data_state.groups.length then
          { s with
            view_state := { s.view_state with event_filter_group_index := invalid_index } }
        else s).bl_state = s.bl_state := by
      split <;> rfl
    have hei0 :
        (if s.view_state.groups_size_on_event_filter_group ≠
            s.bl_state.data_state.groups.length then
          { s with
            view_state := { s.view_state with event_filter_group_index := invalid_index } }
        else s).view_state.active_event_index = s.view_state.active_event_index := by
      split <;> rfl
    have bl1 : s1.bl_state = s.bl_state := by rw [a1]; exact hbl0
    have ei1 : s1.view_state.active_event_index = s.view_state.active_event_index := by
      rw [a8, hei0]
    have hidx :
        (if s1.bl_state.data_state.events.length = 0 then invalid_index
          else s1.view_state.active_event_index) = invalid_index ∨
        (if s1.bl_state.data_state.events.length = 0 then invalid_index
          else s1.view_state.active_event_index) < s1.bl_state.data_state.events.length := by
      rw [bl1, ei1]
      by_cases hn : s.bl_state.data_state.events.length = 0
      · left; rw [if_pos hn]
      · rw [if_neg hn]
        rcases hcond with h | h | h
        · exact absurd h hn
        · exact Or.inl h
        · exact Or.inr h
    obtain ⟨s2, h2⟩ := update_active_event_returns s1 _ hidx
    obtain ⟨b1, _, _, _, _, _, b7, _, _⟩ := update_active_event_fields _ _ _ h2
    have bl2 : s2.bl_state = s1.bl_state := by rw [b1]
    obtain ⟨s3, h3⟩ := update_selected_event_action_returns s2 s1.view_state.active_action_index
      (by rw [b7, bl2]; exact hidx)
    exact ⟨filter_events s3,
      (update_mutable_view_state_eq_some s _).mpr ⟨s1, s2, s3, h1, h2, h3, rfl⟩⟩

/-! ## Lemmas: the list the specification asks for -/

theorem filtered_indices_spec_sorted (data_state : data_state_t) (filter_str : List Char)
    (grp : Nat) : List.Sorted (· < ·) (filtered_indices_spec data_state filter_str grp) :=
  (List.sorted_lt_range data_state.events.length).filter _

theorem mem_filtered_indices_spec (data_state : data_state_t) (filter_str : List Char)
    (grp : Nat) (i : Nat) :
    i ∈ filtered_indices_spec data_state filter_str grp ↔
      ∃ event, data_state.events[i]? = some event ∧ filter_str <:+: event.name ∧
        (grp = invalid_index ∨ is_event_target_group event grp = true) := by
  unfold filtered_indices_spec event_index_passes
  rw [List.mem_filter, List.mem_range]
  constructor
  · rintro ⟨hlt, hp⟩
    rw [List.getElem?_eq_getElem hlt] at hp
    exact ⟨_, List.getElem?_eq_getElem hlt, of_decide_eq_true hp⟩
  · rintro ⟨event, hev, hp⟩
    refine ⟨getElem?_some_lt _ _ _ hev, ?_⟩
    rw [hev]
    exact decide_eq_true hp

theorem sorted_position_unique (l : List Nat) (hl : List.Sorted (· < ·) l) (p q a : Nat)
    (hp : l[p]? = some a) (hq : l[q]? = some a) : p = q := by
  have hpl := getElem?_some_lt _ _ _ hp
  have hql := getElem?_some_lt _ _ _ hq
  rw [List.getElem?_eq_getElem hpl] at hp
  rw [List.getElem?_eq_getElem hql] at hq
  exact (hl.nodup.getElem_inj_iff).mp ((Option.some.inj hp).trans (Option.some.inj hq).symm)

theorem filtered_list_of_result (state state' : app_state_t)
    (h : state' = filter_events state ∨ update_mutable_view_state state = some state') :
    state'.view_state.filtered_event_indices =
      filtered_indices_spec state'.bl_state.data_state state'.view_state.event_filter_str
        state'.view_state.event_filter_group_index := by
  have key : ∀ t : app_state_t,
      (filter_events t).view_state.filtered_event_indices =
        filtered_indices_spec (filter_events t).bl_state.data_state
          (filter_events t).view_state.event_filter_str
          (filter_events t).view_state.event_filter_group_index := by
    intro t
    obtain ⟨f1, _, _, _, f5, f6, _⟩ := filter_events_fields t
    rw [f1, f5, f6]
    exact filter_events_filtered t
  rcases h with rfl | h
  · exact key state
  · have p := update_mutable_view_state_post state state' h
    rw [← p.filtered]
    exact key state'

theorem list_index_of_result (state state' : app_state_t)
    (h : state' = filter_events state ∨ update_mutable_view_state state = some state') :
    (state'.view_state.active_event_index ∈ state'.view_state.filtered_event_indices →
        state'.view_state.filtered_event_indices[state'.view_state.event_list_index]? =
          some state'.view_state.active_event_index) ∧
      (state'.view_state.active_event_index ∉ state'.view_state.filtered_event_indices →
        state'.view_state.event_list_index = invalid_index) := by
  have key : ∀ t : app_state_t,
      ((filter_events t).view_state.active_event_index ∈
            (filter_events t).view_state.filtered_event_indices →
          (filter_events t).view_state.filtered_event_indices[
            (filter_events t).view_state.event_list_index]? =
              some (filter_events t).view_state.active_event_index) ∧
        ((filter_events t).view_state.active_event_index ∉
            (filter_events t).view_state.filtered_event_indices →
          (filter_events t).view_state.event_list_index = invalid_index) := by
    intro t
    have hae : (filter_events t).view_state.active_event_index =
        t.view_state.active_event_index := (filter_events_fields t).2.2.2.2.2.2.1
    rw [hae]
    exact filter_events_list_index t
  have hfix : ∃ t, state' = filter_events t := by
    rcases h with h | h
    · exact ⟨state, h⟩
    · exact ⟨state', (update_mutable_view_state_post state state' h).filtered.symm⟩
  obtain ⟨t, rfl⟩ := hfix
  exact key t

/-! ## The synchronizer: the claims -/

/-- C1: after `filter_events`, and hence after `update_mutable_view_state`, the document and the
filter text are as before and `filtered_event_indices` is the list of the specification: in
ascending order without duplicates, exactly the indices of the events whose name contains
`event_filter_str` as a literal substring and for which `event_filter_group_index` is invalid
or `is_event_target_group` holds. `filter_events` itself leaves the group filter as it is. -/
theorem filter_events_correct (state state' : app_state_t)
    (h : state' = filter_events state ∨ update_mutable_view_state state = some state') :
    state'.bl_state = state.bl_state ∧
      state'.view_state.event_filter_str = state.view_state.event_filter_str ∧
      (state' = filter_events state →
        state'.view_state.event_filter_group_index =
          state.view_state.event_filter_group_index) ∧
      state'.view_state.filtered_event_indices =
        filtered_indices_spec state'.bl_state.data_state state'.view_state.event_filter_str
          state'.view_state.event_filter_group_index ∧
      List.Sorted (· < ·) state'.view_state.filtered_event_indices ∧
      ∀ i, i ∈ state'.view_state.filtered_event_indices ↔
        ∃ event, state'.bl_state.data_state.events[i]? = some event ∧
          state'.view_state.event_filter_str <:+: event.name ∧
          (state'.view_state.event_filter_group_index = invalid_index ∨
            is_event_target_group event state'.view_state.event_filter_group_index = true) := by
  have key : ∀ t : app_state_t,
      (filter_events t).view_state.filtered_event_indices =
        filtered_indices_spec (filter_events t).bl_state.data_state
          (filter_events t).view_state.event_filter_str
          (filter_events t).view_state.event_filter_group_index := by
    intro t
    obtain ⟨f1, _, _, _, f5, f6, _⟩ := filter_events_fields t
    rw [f1, f5, f6]
    exact filter_events_filtered t
  have hlist : state'.view_state.filtered_event_indices =
      filtered_indices_spec state'.bl_state.data_state state'.view_state.event_filter_str
        state'.view_state.event_filter_group_index := by
    rcases h with rfl | h
    · exact key state
    · have p := update_mutable_view_state_post state state' h
      rw [← p.filtered]
      exact key state'
  have hdoc : state'.bl_state = state.bl_state ∧
      state'.view_state.event_filter_str = state.view_state.event_filter_str := by
    rcases h with rfl | h
    · obtain ⟨f1, _, _, _, _, f6, _⟩ := filter_events_fields state
      exact ⟨f1, f6⟩
    · have p := update_mutable_view_state_post state state' h
      refine ⟨?_, p.filter_str⟩
      rw [p.frame]
  refine ⟨hdoc.1, hdoc.2, ?_, hlist, ?_, ?_⟩
  · rintro rfl
    exact (filter_events_fields state).2.2.2.2.1
  · rw [hlist]
    exact filtered_indices_spec_sorted _ _ _
  · intro i
    rw [hlist]
    exact mem_filtered_indices_spec _ _ _ i

theorem filter_events_correct_witness :
    update_mutable_view_state sample_state = some sample_state_synced ∧
      sample_state_synced.view_state.filtered_event_indices = [0, 1] ∧
      sample_state_synced.view_state.filtered_event_indices =
        filtered_indices_spec sample_data "b".toList 0 :=
  ⟨by decide, by decide,
    (filter_events_correct sample_state sample_state_synced (Or.inr (by decide))).2.2.2.1⟩

/-- C2: `update_mutable_view_state` is idempotent: a second pass over the state a first pass
returned gives back that very state, every field of the view state included. -/
theorem update_mutable_view_state_idempotent (state state' : app_state_t)
    (h : update_mutable_view_state state = some state') :
    update_mutable_view_state state' = some state' :=
  update_mutable_view_state_post_fixed state state' h

theorem update_mutable_view_state_idempotent_witness :
    update_mutable_view_state sample_state = some sample_state_synced ∧
      sample_state ≠ sample_state_synced ∧
      update_mutable_view_state sample_state_synced = some sample_state_synced :=
  ⟨by decide, by decide,
    update_mutable_view_state_idempotent sample_state sample_state_synced (by decide)⟩

/-- C3: after `update_mutable_view_state` on a document with `n` groups and previous
`active_group_index` `p`, the index is invalid if `n = 0`; `p` if `p` is invalid or `p < n`;
`n - 1` if `p` is not invalid and `n ≤ p` (with `n` not zero); so it is invalid or below `n`. -/
theorem active_group_index_clamped (state state' : app_state_t)
    (h : update_mutable_view_state state = some state') :
    state'.bl_state.data_state.groups.length = state.bl_state.data_state.groups.length ∧
      (state.bl_state.data_state.groups.length = 0 →
        state'.view_state.active_group_index = invalid_index) ∧
      (state.view_state.active_group_index = invalid_index ∨
          state.view_state.active_group_index < state.bl_state.data_state.groups.length →
        state'.view_state.active_group_index = state.view_state.active_group_index) ∧
      (state.bl_state.data_state.groups.length ≠ 0 →
        state.view_state.active_group_index ≠ invalid_index →
        state.bl_state.data_state.groups.length ≤ state.view_state.active_group_index →
        state'.view_state.active_group_index = state.bl_state.data_state.groups.length - 1) ∧
      (state'.view_state.active_group_index = invalid_index ∨
        state'.view_state.active_group_index < state.bl_state.data_state.groups.length) := by
  have p := update_mutable_view_state_post state state' h
  have hidx := p.group_index
  refine ⟨by rw [p.frame], ?_, ?_, ?_, ?_⟩
  · intro hn
    rw [hidx, if_pos hn]
  · intro hp
    rw [hidx]
    by_cases hn : state.bl_state.data_state.groups.length = 0
    · rw [if_pos hn]
      rcases hp with hp | hp
      · exact hp.symm
      · omega
    · rw [if_neg hn]
      by_cases hc : state.view_state.active_group_index ≠ invalid_index ∧
          state.bl_state.data_state.groups.length ≤ state.view_state.active_group_index
      · rcases hp with hp | hp
        · exact absurd hp hc.1
        · omega
      · rw [if_neg hc]
  · intro hn hp hle
    rw [hidx, if_neg hn, if_pos ⟨hp, hle⟩]
  · by_cases hg : state'.view_state.active_group_index = invalid_index
    · exact Or.inl hg
    · exact Or.inr (getElem?_some_lt _ _ _ (p.group_valid hg))

theorem active_group_index_clamped_witness :
    sample_state.view_state.active_group_index = 5 ∧
      sample_state.bl_state.data_state.groups.length = 2 ∧
      sample_state_synced.view_state.active_group_index = 2 - 1 :=
  ⟨by decide, by decide,
    (active_group_index_clamped sample_state sample_state_synced (by decide)).2.2.2.1
      (by decide) (by decide) (by decide)⟩

/-- C4: the code does not clamp a stale `active_event_index`. With three events and
`active_event_index = 3`, `update_mutable_view_state` calls `update_active_event` with 3, which
reads `events[3]` out of range: the pass has no result. A frame that removes the selected last
event of the sample document ends that way. In general the pass fails exactly when the document
has events and `active_event_index` is neither invalid nor below their number; the index is set
to invalid only when there are no events. -/
theorem stale_active_event_index_out_of_range :
    sample_state_stale_event.bl_state.data_state.events.length = 3 ∧
      sample_state_stale_event.view_state.active_event_index = 3 ∧
      update_active_event sample_state_stale_event 3 = none ∧
      update_mutable_view_state sample_state_stale_event = none ∧
      update_mutable_view_state sample_state_last_event = some sample_state_last_event ∧
      process_frame (model_externals view_action_type_e.EVENT_REMOVE id)
        sample_state_last_event = none ∧
      ∀ state : app_state_t,
        update_mutable_view_state state = none ↔
          (state.bl_state.data_state.events.length ≠ 0 ∧
            state.view_state.active_event_index ≠ invalid_index ∧
            state.bl_state.data_state.events.length ≤ state.view_state.active_event_index) := by
  refine ⟨by decide, by decide, by decide, by decide, by decide, by decide, ?_⟩
  intro state
  have h := update_mutable_view_state_returns_iff state
  constructor
  · intro hnone
    have hno : ¬ ∃ s', update_mutable_view_state state = some s' := by
      rintro ⟨s', hs'⟩
      rw [hnone] at hs'
      exact Option.noConfusion hs'
    rw [h] at hno
    push_neg at hno
    exact ⟨hno.1, hno.2.1, hno.2.2⟩
  · rintro ⟨h1, h2, h3⟩
    cases hres : update_mutable_view_state state with
    | none => rfl
    | some s' =>
      rcases h.mp ⟨s', hres⟩ with h' | h' | h'
      · exact absurd h' h1
      · exact absurd h' h2
      · omega

/-- C5 fails on the code as stated: the pass never writes the invalid sentinel into
`active_action_index`. With the action-less event "zap" selected, and with no event selected,
the pass returns and `active_action_index` is still 1. -/
theorem active_action_index_not_invalidated :
    update_mutable_view_state sample_state_last_event = some sample_state_last_event ∧
      sample_state_last_event.view_state.active_event_index = 2 ∧
      sample_state_last_event.bl_state.data_state.events[2]? =
        some { name := "zap".toList, actions := [] } ∧
      sample_state_last_event.view_state.active_action_index = 1 ∧
      sample_state_last_event.view_state.active_action_index ≠ invalid_index ∧
      update_mutable_view_state sample_state_no_event = some sample_state_no_event ∧
      sample_state_no_event.view_state.active_event_index = invalid_index ∧
      sample_state_no_event.view_state.active_action_index ≠ invalid_index := by
  decide

/-- C5, amended: after `update_mutable_view_state`, if there is an active event and it has at
least one action, `active_action_index` is the previous index, or the last position
`actions.length - 1` when the previous index was not below the number of actions, so it is
within the action list of that event, and `active_action` is a copy of the action at that
index; otherwise (the active event has no actions, or there is no active event)
`active_action_index` and `active_action` are left as they were. -/
theorem active_action_resynchronized (state state' : app_state_t)
    (h : update_mutable_view_state state = some state') :
    (state'.view_state.active_event_index ≠ invalid_index →
        ∃ event,
          state'.bl_state.data_state.events[state'.view_state.active_event_index]? = some event ∧
          (event.actions ≠ [] →
            state'.view_state.active_action_index =
              (if event.actions.length ≤ state.view_state.active_action_index then
                event.actions.length - 1
              else state.view_state.active_action_index) ∧
            state'.view_state.active_action_index < event.actions.length ∧
            event.actions[state'.view_state.active_action_index]? =
              some state'.view_state.active_action) ∧
          (event.actions = [] →
            state'.view_state.active_action_index = state.view_state.active_action_index ∧
            state'.view_state.active_action = state.view_state.active_action)) ∧
      (state'.view_state.active_event_index = invalid_index →
        state'.view_state.active_action_index = state.view_state.active_action_index ∧
        state'.view_state.active_action = state.view_state.active_action) := by
  have p := update_mutable_view_state_post state state' h
  have hbl : state'.bl_state = state.bl_state := by rw [p.frame]
  constructor
  · intro he
    obtain ⟨event, hev, _, hnil, hne⟩ := p.event_valid he
    refine ⟨event, by rw [hbl]; exact hev, ?_, hnil⟩
    intro hn
    exact ⟨(hne hn).1, getElem?_some_lt _ _ _ (hne hn).2, (hne hn).2⟩
  · intro he
    exact (p.event_invalid he).2

theorem active_action_resynchronized_witness :
    sample_state.view_state.active_action_index = 7 ∧
      sample_state_synced.view_state.active_action_index = 1 ∧
      ∃ event,
        sample_state_synced.bl_state.data_state.events[
          sample_state_synced.view_state.active_event_index]? = some event ∧
        (event.actions ≠ [] →
          sample_state_synced.view_state.active_action_index =
            (if event.actions.length ≤ sample_state.view_state.active_action_index then
              event.actions.length - 1
            else sample_state.view_state.active_action_index) ∧
          sample_state_synced.view_state.active_action_index < event.actions.length ∧
          event.actions[sample_state_synced.view_state.active_action_index]? =
            some sample_state_synced.view_state.active_action) ∧
        (event.actions = [] →
          sample_state_synced.view_state.active_action_index =
            sample_state.view_state.active_action_index ∧
          sample_state_synced.view_state.active_action = sample_state.view_state.active_action) :=
  ⟨by decide, by decide,
    (active_action_resynchronized sample_state sample_state_synced (by decide)).1 (by decide)⟩

/-- C6: after `update_mutable_view_state`, whenever the resulting `active_group_index` is valid,
`selected_group_state` is the document's group at that index, whatever the working copy held
before; when the resulting index is invalid, `selected_group_state` is left as it was. -/
theorem selected_group_state_resnapshot (state state' : app_state_t)
    (h : update_mutable_view_state state = some state') :
    state'.bl_state = state.bl_state ∧
      (state'.view_state.active_group_index ≠ invalid_index →
        state'.bl_state.data_state.groups[state'.view_state.active_group_index]? =
          some state'.view_state.selected_group_state) ∧
      (state'.view_state.active_group_index = invalid_index →
        state'.view_state.selected_group_state = state.view_state.selected_group_state) := by
  have p := update_mutable_view_state_post state state' h
  have hbl : state'.bl_state = state.bl_state := by rw [p.frame]
  refine ⟨hbl, ?_, p.group_invalid⟩
  intro hg
  rw [hbl]
  exact p.group_valid hg

theorem selected_group_state_resnapshot_witness :
    sample_state.view_state.selected_group_state.name = "draft".toList ∧
      sample_state_synced.view_state.active_group_index = 1 ∧
      sample_data.groups[1]? = some sample_state_synced.view_state.selected_group_state :=
  ⟨by decide, by decide,
    (selected_group_state_resnapshot sample_state sample_state_synced (by decide)).2.1
      (by decide)⟩

/-- C7: after `filter_events` (and after `update_mutable_view_state`, which ends with it): if
`active_event_index` occurs in `filtered_event_indices`, then `event_list_index` is the one
position of the list that holds it; otherwise `event_list_index` is the invalid sentinel. -/
theorem event_list_index_position (state state' : app_state_t)
    (h : state' = filter_events state ∨ update_mutable_view_state state = some state') :
    (state'.view_state.active_event_index ∈ state'.view_state.filtered_event_indices →
        state'.view_state.event_list_index < state'.view_state.filtered_event_indices.length ∧
        state'.view_state.filtered_event_indices[state'.view_state.event_list_index]? =
          some state'.view_state.active_event_index ∧
        ∀ p, state'.view_state.filtered_event_indices[p]? =
            some state'.view_state.active_event_index →
          p = state'.view_state.event_list_index) ∧
      (state'.view_state.active_event_index ∉ state'.view_state.filtered_event_indices →
        state'.view_state.event_list_index = invalid_index) := by
  have key : ∀ t : app_state_t,
      ((filter_events t).view_state.active_event_index ∈
            (filter_events t).view_state.filtered_event_indices →
          (filter_events t).view_state.filtered_event_indices[
            (filter_events t).view_state.event_list_index]? =
              some (filter_events t).view_state.active_event_index) ∧
        ((filter_events t).view_state.active_event_index ∉
            (filter_events t).view_state.filtered_event_indices →
          (filter_events t).view_state.event_list_index = invalid_index) := by
    intro t
    have hae : (filter_events t).view_state.active_event_index =
        t.view_state.active_event_index := (filter_events_fields t).2.2.2.2.2.2.1
    rw [hae]
    exact filter_events_list_index t
  have hfix : ∃ t, state' = filter_events t := by
    rcases h with h | h
    · exact ⟨state, h⟩
    · exact ⟨state', (update_mutable_view_state_post state state' h).filtered.symm⟩
  obtain ⟨t, rfl⟩ := hfix
  have hsorted : List.Sorted (· < ·) (filter_events t).view_state.filtered_event_indices := by
    rw [filtered_list_of_result t (filter_events t) (Or.inl rfl)]
    exact filtered_indices_spec_sorted _ _ _
  refine ⟨fun hmem => ?_, (key t).2⟩
  have hget := (key t).1 hmem
  exact ⟨getElem?_some_lt _ _ _ hget, hget,
    fun p hp => sorted_position_unique _ hsorted _ _ _ hp hget⟩

theorem event_list_index_position_witness :
    sample_state_synced.view_state.filtered_event_indices = [0, 1] ∧
      sample_state_synced.view_state.active_event_index = 1 ∧
      sample_state_synced.view_state.event_list_index = 1 ∧
      sample_state_synced.view_state.filtered_event_indices[
        sample_state_synced.view_state.event_list_index]? =
          some sample_state_synced.view_state.active_event_index :=
  ⟨by decide, by decide, by decide,
    ((event_list_index_position sample_state sample_state_synced (Or.inr (by decide))).1
      (by decide)).2.1⟩

/-- C8: if `groups_size_on_event_filter_group` differs from the number of groups when
`update_mutable_view_state` runs, then after the pass `event_filter_group_index` is the invalid
sentinel and `filtered_event_indices` is computed with no group filter (exactly the indices of
the events whose name contains the filter text); if the two sizes are equal,
`event_filter_group_index` is left unchanged. -/
theorem event_filter_group_reset (state state' : app_state_t)
    (h : update_mutable_view_state state = some state') :
    (state.view_state.groups_size_on_event_filter_group ≠
          state.bl_state.data_state.groups.length →
        state'.view_state.event_filter_group_index = invalid_index ∧
        state'.view_state.filtered_event_indices =
          filtered_indices_spec state.bl_state.data_state state.view_state.event_filter_str
            invalid_index ∧
        ∀ i, i ∈ state'.view_state.filtered_event_indices ↔
          ∃ event, state.bl_state.data_state.events[i]? = some event ∧
            state.view_state.event_filter_str <:+: event.name) ∧
      (state.view_state.groups_size_on_event_filter_group =
          state.bl_state.data_state.groups.length →
        state'.view_state.event_filter_group_index =
          state.view_state.event_filter_group_index) := by
  have p := update_mutable_view_state_post state state' h
  have hbl : state'.bl_state = state.bl_state := by rw [p.frame]
  have hlist := filtered_list_of_result state state' (Or.inr h)
  constructor
  · intro hgs
    have hfg : state'.view_state.event_filter_group_index = invalid_index := by
      rw [p.filter_group, if_pos hgs]
    rw [hbl, p.filter_str, hfg] at hlist
    refine ⟨hfg, hlist, ?_⟩
    intro i
    rw [hlist, mem_filtered_indices_spec]
    constructor
    · rintro ⟨event, hev, hsub, _⟩
      exact ⟨event, hev, hsub⟩
    · rintro ⟨event, hev, hsub⟩
      exact ⟨event, hev, hsub, Or.inl rfl⟩
  · intro hgs
    rw [p.filter_group, if_neg (fun hne => hne hgs)]

theorem event_filter_group_reset_witness :
    sample_state_groups_changed.view_state.groups_size_on_event_filter_group = 3 ∧
      sample_state_groups_changed.bl_state.data_state.groups.length = 2 ∧
      sample_state_groups_changed.view_state.event_filter_group_index = 1 ∧
      filtered_indices_spec sample_data "b".toList 1 = [1] ∧
      sample_state_groups_changed_synced.view_state.filtered_event_indices = [0, 1] ∧
      sample_state_groups_changed_synced.view_state.event_filter_group_index = invalid_index ∧
      sample_state_groups_changed_synced.view_state.filtered_event_indices =
        filtered_indices_spec sample_data "b".toList invalid_index :=
  ⟨by decide, by decide, by decide, by decide, by decide,
    ((event_filter_group_reset sample_state_groups_changed sample_state_groups_changed_synced
      (by decide)).1 (by decide)).1,
    ((event_filter_group_reset sample_state_groups_changed sample_state_groups_changed_synced
      (by decide)).1 (by decide)).2.1⟩

/-! ## Lemmas: the reducer -/

theorem update_active_group_untouched (s s' : app_state_t) (g : Nat)
    (h : update_active_group s g = some s') :
    s'.view_state.node_action = s.view_state.node_action ∧
      s'.view_state.filtered_event_indices = s.view_state.filtered_event_indices := by
  rcases (update_active_group_eq_some s s' g).mp h with ⟨_, rfl⟩ | ⟨_, _, _, rfl⟩ <;>
    exact ⟨rfl, rfl⟩

theorem update_selected_event_action_untouched (s s' : app_state_t) (a : Nat)
    (h : update_selected_event_action s a = some s') :
    s'.view_state.node_action = s.view_state.node_action ∧
      s'.view_state.filtered_event_indices = s.view_state.filtered_event_indices := by
  rcases (update_selected_event_action_eq_some s s' a).mp h with
    ⟨_, rfl⟩ | ⟨_, _, _, ⟨_, rfl⟩ | ⟨_, _, _, rfl⟩⟩ <;> exact ⟨rfl, rfl⟩

theorem update_active_event_untouched (s s' : app_state_t) (i : Nat)
    (h : update_active_event s i = some s') :
    s'.view_state.node_action = s.view_state.node_action ∧
      s'.view_state.filtered_event_indices = s.view_state.filtered_event_indices := by
  rcases (update_active_event_eq_some s s' i).mp h with ⟨_, rfl⟩ | ⟨_, _, _, h2⟩
  · exact ⟨rfl, rfl⟩
  · have h3 := update_selected_event_action_untouched _ _ _ h2
    exact h3

theorem update_mutable_view_state_node_action (s s' : app_state_t)
    (h : update_mutable_view_state s = some s') :
    s'.view_state.node_action = s.view_state.node_action := by
  obtain ⟨s1, s2, s3, h1, h2, h3, rfl⟩ := (update_mutable_view_state_eq_some s s').mp h
  have e0 :
      (if s.view_state.groups_size_on_event_filter_group ≠ s.bl_state.data_state.groups.length then
        { s with
          view_state := { s.view_state with event_filter_group_index := invalid_index } }
      else s).view_state.node_action = s.view_state.node_action := by
    split <;> rfl
  have e4 : (filter_events s3).view_state.node_action = s3.view_state.node_action := by
    rw [filter_events_frame]
  rw [e4, (update_selected_event_action_untouched _ _ _ h3).1,
    (update_active_event_untouched _ _ _ h2).1, (update_active_group_untouched _ _ _ h1).1, e0]

theorem invoke_eq_some (L : app_logic) (call : logic_call) (s s' : app_state_t) (r : Nat)
    (h : invoke L call s = some (s', r)) :
    ∃ bl_state, L.run call s.bl_state = some (bl_state, r) ∧
      s' = { s with bl_state := bl_state, logic_calls := s.logic_calls ++ [call] } := by
  unfold invoke at h
  cases hrun : L.run call s.bl_state with
  | none =>
    rw [hrun] at h
    exact Option.noConfusion h
  | some res =>
    obtain ⟨bl_state, result⟩ := res
    rw [hrun] at h
    simp only [Option.bind_eq_bind, Option.some_bind, Option.some.injEq, Prod.mk.injEq] at h
    obtain ⟨h1, h2⟩ := h
    subst h2
    exact ⟨bl_state, rfl, h1.symm⟩

theorem invoke_view_state (L : app_logic) (call : logic_call) (s s' : app_state_t) (r : Nat)
    (h : invoke L call s = some (s', r)) : s'.view_state = s.view_state := by
  obtain ⟨bl_state, _, rfl⟩ := invoke_eq_some L call s s' r h
  rfl

theorem invoke_map_view_state (L : app_logic) (call : logic_call) (s s' : app_state_t)
    (h : (do let (state, _) ← invoke L call s; some state) = some s') :
    s'.view_state = s.view_state := by
  simp only [Option.bind_eq_bind, Option.bind_eq_some, Option.some.injEq] at h
  obtain ⟨⟨s1, r⟩, h1, h2⟩ := h
  subst h2
  exact invoke_view_state L call s s1 r h1

theorem node_action_remove_view_state (E : externals) (s s' : app_state_t)
    (h : node_action_remove E s = some s') : s'.view_state = s.view_state := by
  unfold node_action_remove at h
  by_cases c : s.view_state.node_action.action_remove = true
  · by_cases c2 : s.view_state.node_action.parent_node_desc.type = NodeType.None
    · simp only [c, c2, if_true] at h
      exact invoke_map_view_state _ _ _ _ h
    · simp only [c, c2, if_true, if_false] at h
      exact invoke_map_view_state _ _ _ _ h
  · simp only [c, if_false] at h
    rw [← Option.some.inj h]

theorem node_action_assign_sound_view_state (E : externals) (s s' : app_state_t)
    (h : node_action_assign_sound E s = some s') : s'.view_state = s.view_state := by
  unfold node_action_assign_sound at h
  by_cases c : s.view_state.node_action.action_assign_sound = true ∧
      s.view_state.node_action.node_desc.type = NodeType.File
  · simp only [c, and_self, if_true, Option.bind_eq_bind, Option.bind_eq_some,
      Option.some.injEq] at h
    obtain ⟨_, _, ⟨sx, r⟩, hx, rfl⟩ := h
    exact invoke_view_state _ _ _ _ _ hx
  · simp only [c, if_false] at h
    rw [← Option.some.inj h]

theorem node_action_switch_loop_view_state (E : externals) (s s' : app_state_t)
    (h : node_action_switch_loop E s = some s') : s'.view_state = s.view_state := by
  unfold node_action_switch_loop at h
  by_cases c : s.view_state.node_action.action_switch_loop = true ∧
      s.view_state.node_action.node_desc.type = NodeType.File
  · simp only [c, and_self, if_true] at h
    exact invoke_map_view_state _ _ _ _ h
  · simp only [c, if_false] at h
    rw [← Option.some.inj h]

theorem node_action_switch_stream_view_state (E : externals) (s s' : app_state_t)
    (h : node_action_switch_stream E s = some s') : s'.view_state = s.view_state := by
  unfold node_action_switch_stream at h
  by_cases c : s.view_state.node_action.action_switch_stream = true ∧
      s.view_state.node_action.node_desc.type = NodeType.File
  · simp only [c, and_self, if_true] at h
    exact invoke_map_view_state _ _ _ _ h
  · simp only [c, if_false] at h
    rw [← Option.some.inj h]

theorem process_node_action_view_state (E : externals) (s s' : app_state_t)
    (h : process_node_action E s = some s') : s'.view_state = s.view_state := by
  unfold process_node_action at h
  simp only [Option.bind_eq_bind, Option.bind_eq_some] at h
  obtain ⟨s1, h1, s2, h2, s3, h3, h4⟩ := h
  rw [node_action_switch_stream_view_state E s3 s' h4,
    node_action_switch_loop_view_state E s2 s3 h3,
    node_action_assign_sound_view_state E s1 s2 h2, node_action_remove_view_state E s s1 h1]

theorem process_node_action_idle (E : externals) (s : app_state_t)
    (h1 : s.view_state.node_action.action_remove = false)
    (h2 : s.view_state.node_action.action_assign_sound = false)
    (h3 : s.view_state.node_action.action_switch_loop = false)
    (h4 : s.view_state.node_action.action_switch_stream = false) :
    process_node_action E s = some s := by
  unfold process_node_action node_action_remove node_action_assign_sound node_action_switch_loop
    node_action_switch_stream
  simp [h1, h2, h3, h4]

theorem select_group_untouched (prev : Nat) (s s' : app_state_t)
    (h : select_group prev s = some s') :
    s'.bl_state = s.bl_state ∧ s'.view_state.node_action = s.view_state.node_action ∧
      s'.view_state.filtered_event_indices = s.view_state.filtered_event_indices := by
  unfold select_group at h
  split at h
  · have h1 := update_active_group_fields _ _ _ h
    have h2 := update_active_group_untouched _ _ _ h
    exact ⟨by rw [h1.1], h2.1, h2.2⟩
  · rw [← Option.some.inj h]
    exact ⟨rfl, rfl, rfl⟩

theorem select_event_untouched (prev : Nat) (s s' : app_state_t)
    (h : select_event prev s = some s') :
    s'.bl_state = s.bl_state ∧ s'.view_state.node_action = s.view_state.node_action ∧
      s'.view_state.filtered_event_indices = s.view_state.filtered_event_indices := by
  unfold select_event at h
  split at h
  · simp only [Option.bind_eq_bind, Option.bind_eq_some] at h
    obtain ⟨i, _, h⟩ := h
    have h1 := update_active_event_fields _ _ _ h
    have h2 := update_active_event_untouched _ _ _ h
    exact ⟨by rw [h1.1], h2.1, h2.2⟩
  · rw [← Option.some.inj h]
    exact ⟨rfl, rfl, rfl⟩

theorem select_action_untouched (prev : Nat) (s s' : app_state_t)
    (h : select_action prev s = some s') :
    s'.bl_state = s.bl_state ∧ s'.view_state.node_action = s.view_state.node_action ∧
      s'.view_state.filtered_event_indices = s.view_state.filtered_event_indices := by
  unfold select_action at h
  split at h
  · have h1 := update_selected_event_action_fields _ _ _ h
    have h2 := update_selected_event_action_untouched _ _ _ h
    exact ⟨by rw [h1.1], h2.1, h2.2⟩
  · rw [← Option.some.inj h]
    exact ⟨rfl, rfl, rfl⟩

/-- What `process_frame` is made of: the widget pass on the flagged view state, then the
selection steps, the dispatch and the node action handling. -/
theorem process_frame_eq_some (E : externals) (state state' : app_state_t) :
    process_frame E state = some state' ↔
      ∃ action view_state s1 s2 s3 s4,
        E.build_view (view_flags E (hlea state hlea_call.process_active_groups))
            state.bl_state.data_state = some (action, view_state) ∧
        select_group state.view_state.active_group_index
            { hlea state hlea_call.process_active_groups with view_state := view_state } =
          some s1 ∧
        select_event state.view_state.event_list_index s1 = some s2 ∧
        select_action state.view_state.active_action_index s2 = some s3 ∧
        dispatch E action s3 = some s4 ∧
        process_node_action E s4 = some state' := by
  unfold process_frame process_view_result
  simp only [Option.bind_eq_bind, Option.bind_eq_some]
  constructor
  · rintro ⟨⟨action, view_state⟩, hv, s1, h1, s2, h2, s3, h3, s4, h4, h5⟩
    exact ⟨action, view_state, s1, s2, s3, s4, hv, h1, h2, h3, h4, h5⟩
  · rintro ⟨action, view_state, s1, s2, s3, s4, hv, h1, h2, h3, h4, h5⟩
    exact ⟨⟨action, view_state⟩, hv, s1, h1, s2, h2, s3, h3, s4, h4, h5⟩

theorem dispatch_event_action_filtered (E : externals) (action : view_action_type_e)
    (s s' : app_state_t)
    (ha : action = view_action_type_e.EVENT_UPDATE_ACTION ∨
      action = view_action_type_e.EVENT_REMOVE_ACTION ∨
      action = view_action_type_e.EVENT_APPEND_ACTION)
    (h : dispatch E action s = some s') :
    s'.view_state.filtered_event_indices = s.view_state.filtered_event_indices := by
  rcases ha with rfl | rfl | rfl
  · simp only [dispatch] at h
    rw [invoke_map_view_state _ _ _ _ h]
  · simp only [dispatch, Option.bind_eq_bind, Option.bind_eq_some] at h
    obtain ⟨⟨s1, r⟩, h1, h2⟩ := h
    rw [(update_selected_event_action_untouched _ _ _ h2).2, invoke_view_state _ _ _ _ _ h1]
  · simp only [dispatch, Option.bind_eq_bind, Option.bind_eq_some] at h
    obtain ⟨⟨s1, r⟩, h1, h2⟩ := h
    rw [(update_selected_event_action_untouched _ _ _ h2).2, invoke_view_state _ _ _ _ _ h1]

theorem dispatch_ends_with_pass (E : externals) (action : view_action_type_e)
    (s s' : app_state_t)
    (ha : action = view_action_type_e.GROUP_ADD ∨ action = view_action_type_e.GROUP_REMOVE ∨
      action = view_action_type_e.APPLY_SELECTED_GROUP_UPDATE ∨
      action = view_action_type_e.EVENT_ADD ∨ action = view_action_type_e.EVENT_REMOVE ∨
      action = view_action_type_e.EVENT_UPDATE)
    (h : dispatch E action s = some s') :
    ∃ x, update_mutable_view_state x = some s' ∧
      x.view_state.node_action = s.view_state.node_action := by
  rcases ha with rfl | rfl | rfl | rfl | rfl | rfl
  · simp only [dispatch, Option.bind_eq_bind, Option.bind_eq_some] at h
    obtain ⟨⟨s1, _⟩, h1, x, hx, h2⟩ := h
    exact ⟨x, h2, by
      rw [(update_active_group_untouched _ _ _ hx).1, invoke_view_state _ _ _ _ _ h1]⟩
  · simp only [dispatch, Option.bind_eq_bind, Option.bind_eq_some] at h
    obtain ⟨⟨x, _⟩, h1, h2⟩ := h
    exact ⟨x, h2, by rw [invoke_view_state _ _ _ _ _ h1]⟩
  · simp only [dispatch, Option.bind_eq_bind, Option.bind_eq_some] at h
    obtain ⟨⟨x, _⟩, h1, h2⟩ := h
    exact ⟨x, h2, by rw [invoke_view_state _ _ _ _ _ h1]⟩
  · simp only [dispatch, Option.bind_eq_bind, Option.bind_eq_some] at h
    obtain ⟨⟨s1, _⟩, h1, x, hx, h2⟩ := h
    exact ⟨x, h2, by
      rw [(update_active_event_untouched _ _ _ hx).1, invoke_view_state _ _ _ _ _ h1]⟩
  · simp only [dispatch, Option.bind_eq_bind, Option.bind_eq_some] at h
    obtain ⟨⟨x, _⟩, h1, h2⟩ := h
    exact ⟨x, h2, by rw [invoke_view_state _ _ _ _ _ h1]⟩
  · simp only [dispatch, Option.bind_eq_bind, Option.bind_eq_some] at h
    obtain ⟨⟨x, _⟩, h1, h2⟩ := h
    exact ⟨x, h2, by rw [invoke_view_state _ _ _ _ _ h1]⟩

theorem dispatch_undo_redo_ends_with_pass (E : externals) (action : view_action_type_e)
    (s s' : app_state_t)
    (ha : (action = view_action_type_e.UNDO ∧
        ∃ bl r, E.logic.run logic_call.apply_undo_chain s.bl_state = some (bl, r) ∧ r ≠ 0) ∨
      (action = view_action_type_e.REDO ∧
        ∃ bl r, E.logic.run logic_call.apply_redo_chain s.bl_state = some (bl, r) ∧ r ≠ 0))
    (h : dispatch E action s = some s') :
    ∃ x, update_mutable_view_state x = some s' ∧
      x.view_state.node_action = s.view_state.node_action := by
  rcases ha with ⟨rfl, bl, r, hrun, hr⟩ | ⟨rfl, bl, r, hrun, hr⟩
  · simp only [dispatch, perform_undo, Option.bind_eq_bind, Option.bind_eq_some] at h
    obtain ⟨⟨x, applied⟩, h1, h2⟩ := h
    obtain ⟨bl', hrun', _⟩ := invoke_eq_some _ _ _ _ _ h1
    rw [hrun] at hrun'
    have hap : applied = r := (Prod.mk.inj (Option.some.inj hrun')).2.symm
    subst hap
    simp only [ne_eq, hr, not_false_eq_true, if_true] at h2
    exact ⟨x, h2, by rw [invoke_view_state _ _ _ _ _ h1]⟩
  · simp only [dispatch, perform_redo, Option.bind_eq_bind, Option.bind_eq_some] at h
    obtain ⟨⟨x, applied⟩, h1, h2⟩ := h
    obtain ⟨bl', hrun', _⟩ := invoke_eq_some _ _ _ _ _ h1
    rw [hrun] at hrun'
    have hap : applied = r := (Prod.mk.inj (Option.some.inj hrun')).2.symm
    subst hap
    simp only [ne_eq, hr, not_false_eq_true, if_true] at h2
    exact ⟨x, h2, by rw [invoke_view_state _ _ _ _ _ h1]⟩

/-! ## The reducer: the claims -/

/-- C9 fails on the code as stated: only some dispatch cases end with a synchronizer pass. In a
frame that dispatches `EVENT_UPDATE_ACTION` while the working copy of the selected group holds
an uncommitted name, the document is mutated and at the end of the frame
`selected_group_state` ("draft") differs from the document's group at the valid
`active_group_index` ("sfx"). In a frame that dispatches `NODE_ADD` for the None root of the
selected group, the document's group gets the new File root while `selected_group_state` still
has the None root. -/
theorem dispatch_without_resynchronization :
    update_mutable_view_state sample_state_synced = some sample_state_synced ∧
      (process_frame
          (model_externals view_action_type_e.EVENT_UPDATE_ACTION type_group_name_and_press_assign)
          sample_state_synced).map
        (fun s =>
          (s.logic_calls, s.view_state.active_group_index,
            s.view_state.selected_group_state.name,
            (s.bl_state.data_state.groups[s.view_state.active_group_index]?).map
              (fun group => group.name))) =
        some ([logic_call.update_event_action 1 1 ⟨2, 1, 0⟩], 1, "draft".toList,
          some "sfx".toList) ∧
      update_mutable_view_state sample_state_first_group = some sample_state_first_group ∧
      (process_frame (model_externals view_action_type_e.NODE_ADD choose_file_for_root)
          sample_state_first_group).map
        (fun s =>
          (s.logic_calls, s.view_state.active_group_index,
            s.view_state.selected_group_state.node,
            (s.bl_state.data_state.groups[s.view_state.active_group_index]?).map
              (fun group => group.node))) =
        some ([logic_call.create_root_node 0 NodeType.File], 0, ⟨NodeType.None, 0⟩,
          some ⟨NodeType.File, 1⟩) := by
  decide

/-- C9, amended: after `process_frame` dispatches `GROUP_ADD`, `GROUP_REMOVE`,
`APPLY_SELECTED_GROUP_UPDATE`, `EVENT_ADD`, `EVENT_REMOVE` or `EVENT_UPDATE`, or an `UNDO` or
`REDO` whose chain call reports that it applied something, in a frame whose `node_action`
requests no removal, sound assignment or loop or stream switch, the view state has been
re-synchronized (it is a fixed point of `update_mutable_view_state`): whenever
`active_group_index` is valid, `selected_group_state` is value-equal to the document's group at
that index at the end of the frame. -/
theorem process_frame_resynchronizes (E : externals) (state state' : app_state_t)
    (action : view_action_type_e) (view_state : view_state_t)
    (hv : E.build_view (view_flags E (hlea state hlea_call.process_active_groups))
      state.bl_state.data_state = some (action, view_state))
    (ha : (action = view_action_type_e.GROUP_ADD ∨ action = view_action_type_e.GROUP_REMOVE ∨
        action = view_action_type_e.APPLY_SELECTED_GROUP_UPDATE ∨
        action = view_action_type_e.EVENT_ADD ∨ action = view_action_type_e.EVENT_REMOVE ∨
        action = view_action_type_e.EVENT_UPDATE) ∨
      (action = view_action_type_e.UNDO ∧
        ∃ bl r, E.logic.run logic_call.apply_undo_chain state.bl_state = some (bl, r) ∧ r ≠ 0) ∨
      (action = view_action_type_e.REDO ∧
        ∃ bl r, E.logic.run logic_call.apply_redo_chain state.bl_state = some (bl, r) ∧ r ≠ 0))
    (hn : view_state.node_action.action_remove = false ∧
      view_state.node_action.action_assign_sound = false ∧
      view_state.node_action.action_switch_loop = false ∧
      view_state.node_action.action_switch_stream = false)
    (h : process_frame E state = some state') :
    update_mutable_view_state state' = some state' ∧
      (state'.view_state.active_group_index ≠ invalid_index →
        state'.bl_state.data_state.groups[state'.view_state.active_group_index]? =
          some state'.view_state.selected_group_state) := by
  obtain ⟨action', view_state', s1, s2, s3, s4, hv', h1, h2, h3, h4, h5⟩ :=
    (process_frame_eq_some E state state').mp h
  rw [hv] at hv'
  obtain ⟨rfl, rfl⟩ := Prod.mk.inj (Option.some.inj hv')
  obtain ⟨b1, n1, _⟩ := select_group_untouched _ _ _ h1
  obtain ⟨b2, n2, _⟩ := select_event_untouched _ _ _ h2
  obtain ⟨b3, n3, _⟩ := select_action_untouched _ _ _ h3
  have hbl : s3.bl_state = state.bl_state := by rw [b3, b2, b1]; rfl
  have hna : s3.view_state.node_action = view_state.node_action := by rw [n3, n2, n1]
  have hpass : ∃ x, update_mutable_view_state x = some s4 ∧
      x.view_state.node_action = s3.view_state.node_action := by
    rcases ha with ha | ha
    · exact dispatch_ends_with_pass E action s3 s4 ha h4
    · rw [← hbl] at ha
      exact dispatch_undo_redo_ends_with_pass E action s3 s4 ha h4
  obtain ⟨x, hx, hxn⟩ := hpass
  have hn4 : s4.view_state.node_action = view_state.node_action := by
    rw [update_mutable_view_state_node_action x s4 hx, hxn, hna]
  have hidle : process_node_action E s4 = some s4 := by
    apply process_node_action_idle <;> rw [hn4]
    · exact hn.1
    · exact hn.2.1
    · exact hn.2.2.1
    · exact hn.2.2.2
  rw [hidle] at h5
  obtain rfl := Option.some.inj h5
  have p := update_mutable_view_state_post x s4 hx
  refine ⟨update_mutable_view_state_post_fixed x s4 hx, ?_⟩
  intro hg
  have hbl4 : s4.bl_state = x.bl_state := by rw [p.frame]
  rw [hbl4]
  exact p.group_valid hg

theorem process_frame_resynchronizes_witness :
    process_frame (model_externals view_action_type_e.GROUP_REMOVE id) sample_state_synced =
        some sample_state_group_removed ∧
      sample_state_group_removed.view_state.active_group_index = 0 ∧
      update_mutable_view_state sample_state_group_removed = some sample_state_group_removed ∧
      sample_state_group_removed.bl_state.data_state.groups[0]? =
        some sample_state_group_removed.view_state.selected_group_state :=
  ⟨by decide, by decide,
    (process_frame_resynchronizes (model_externals view_action_type_e.GROUP_REMOVE id)
      sample_state_synced sample_state_group_removed view_action_type_e.GROUP_REMOVE _ rfl
      (Or.inl (Or.inr (Or.inl rfl))) (by decide) (by decide)).1,
    (process_frame_resynchronizes (model_externals view_action_type_e.GROUP_REMOVE id)
      sample_state_synced sample_state_group_removed view_action_type_e.GROUP_REMOVE _ rfl
      (Or.inl (Or.inr (Or.inl rfl))) (by decide) (by decide)).2 (by decide)⟩

/-- C10 fails on the code as stated: the three action cases do not recompute the filtered list.
With the group filter on group 0, retargeting or removing the only action of "bang" that
targets group 0 leaves `filtered_event_indices` at `[0, 1]` although only event 0 satisfies
the predicate over the updated document; with the group filter on group 1, appending to "boom"
an action that targets group 1 leaves it at `[1]` although events 0 and 1 satisfy it. -/
theorem event_action_dispatch_stale_filtered_list :
    update_mutable_view_state sample_state_synced = some sample_state_synced ∧
      sample_state_synced.view_state.event_filter_group_index = 0 ∧
      (process_frame
          (model_externals view_action_type_e.EVENT_UPDATE_ACTION press_assign_active_group)
          sample_state_synced).map
        (fun s =>
          (s.logic_calls, s.view_state.filtered_event_indices,
            filtered_indices_spec s.bl_state.data_state s.view_state.event_filter_str
              s.view_state.event_filter_group_index)) =
        some ([logic_call.update_event_action 1 1 ⟨2, 1, 0⟩], [0, 1], [0]) ∧
      (process_frame (model_externals view_action_type_e.EVENT_REMOVE_ACTION id)
          sample_state_synced).map
        (fun s =>
          (s.logic_calls, s.view_state.filtered_event_indices,
            filtered_indices_spec s.bl_state.data_state s.view_state.event_filter_str
              s.view_state.event_filter_group_index)) =
        some ([logic_call.remove_event_action 1 1], [0, 1], [0]) ∧
      update_mutable_view_state sample_state_filter_group_1 =
        some sample_state_filter_group_1 ∧
      sample_state_filter_group_1.view_state.event_filter_group_index = 1 ∧
      (process_frame (model_externals view_action_type_e.EVENT_APPEND_ACTION id)
          sample_state_filter_group_1).map
        (fun s =>
          (s.logic_calls, s.view_state.filtered_event_indices,
            filtered_indices_spec s.bl_state.data_state s.view_state.event_filter_str
              s.view_state.event_filter_group_index)) =
        some ([logic_call.add_event_action 0 1], [1], [0, 1]) := by
  decide

/-- C10, amended: the filtered event list is recomputed by `filter_events` (in every
synchronizer pass and on `EVENT_FILTER`), not after an action mutation: after `process_frame`
dispatches `EVENT_UPDATE_ACTION`, `EVENT_REMOVE_ACTION` or `EVENT_APPEND_ACTION`,
`filtered_event_indices` is the list the widget pass left in the view state; running
`filter_events` on the resulting state gives the list of the event indices that satisfy the
filter predicate over the updated document. -/
theorem event_action_dispatch_keeps_filtered_list (E : externals) (state state' : app_state_t)
    (action : view_action_type_e) (view_state : view_state_t)
    (hv : E.build_view (view_flags E (hlea state hlea_call.process_active_groups))
      state.bl_state.data_state = some (action, view_state))
    (ha : action = view_action_type_e.EVENT_UPDATE_ACTION ∨
      action = view_action_type_e.EVENT_REMOVE_ACTION ∨
      action = view_action_type_e.EVENT_APPEND_ACTION)
    (h : process_frame E state = some state') :
    state'.view_state.filtered_event_indices = view_state.filtered_event_indices ∧
      (filter_events state').view_state.filtered_event_indices =
        filtered_indices_spec state'.bl_state.data_state state'.view_state.event_filter_str
          state'.view_state.event_filter_group_index := by
  obtain ⟨action', view_state', s1, s2, s3, s4, hv', h1, h2, h3, h4, h5⟩ :=
    (process_frame_eq_some E state state').mp h
  rw [hv] at hv'
  obtain ⟨rfl, rfl⟩ := Prod.mk.inj (Option.some.inj hv')
  refine ⟨?_, filter_events_filtered state'⟩
  rw [process_node_action_view_state E s4 state' h5,
    dispatch_event_action_filtered E action s3 s4 ha h4,
    (select_action_untouched _ _ _ h3).2.2, (select_event_untouched _ _ _ h2).2.2,
    (select_group_untouched _ _ _ h1).2.2]

theorem event_action_dispatch_keeps_filtered_list_witness :
    process_frame
          (model_externals view_action_type_e.EVENT_UPDATE_ACTION press_assign_active_group)
          sample_state_synced = some sample_state_action_retargeted ∧
      sample_state_synced.view_state.filtered_event_indices = [0, 1] ∧
      sample_state_action_retargeted.view_state.filtered_event_indices = [0, 1] :=
  ⟨by decide, by decide,
    (event_action_dispatch_keeps_filtered_list
      (model_externals view_action_type_e.EVENT_UPDATE_ACTION press_assign_active_group)
      sample_state_synced sample_state_action_retargeted view_action_type_e.EVENT_UPDATE_ACTION
      _ rfl (Or.inl rfl) (by decide)).1⟩

/-! ## Lemmas: calls into the logic layer -/

theorem invoke_of_run (L : app_logic) (call : logic_call) (s : app_state_t)
    (bl_state : logic_state_t) (r : Nat) (h : L.run call s.bl_state = some (bl_state, r)) :
    invoke L call s =
      some ({ s with bl_state := bl_state, logic_calls := s.logic_calls ++ [call] }, r) := by
  unfold invoke
  rw [h]
  rfl

theorem update_mutable_view_state_frame (s s' : app_state_t)
    (h : update_mutable_view_state s = some s') : s' = { s with view_state := s'.view_state } :=
  (update_mutable_view_state_post s s' h).frame

/-- C11: when `create_group` puts the new group at the position it is given, dispatching
`GROUP_ADD` with `action_group_index = k` and `k + 1 ≤ n` (the sum in `size_t` arithmetic), on a
document with `n` groups (fewer than the largest `size_t`, as every vector), calls
`create_group` for position `k + 1` once, leaves the document as `create_group` made it, and
ends with `active_group_index = k + 1` and `selected_group_state` equal to the new group. The
dispatch returns whenever the event selection is invalid or in range. -/
theorem group_add_selects_new_group (E : externals) (state : app_state_t)
    (bl_state : logic_state_t) (result : Nat) (group : named_group_t)
    (hk : (state.view_state.action_group_index + 1) % (size_max + 1) ≤
      state.bl_state.data_state.groups.length)
    (hsize : state.bl_state.data_state.groups.length < invalid_index)
    (hrun : E.logic.run
        (logic_call.create_group ((state.view_state.action_group_index + 1) % (size_max + 1)))
        state.bl_state = some (bl_state, result))
    (hgroups : bl_state.data_state.groups =
      state.bl_state.data_state.groups.take
          ((state.view_state.action_group_index + 1) % (size_max + 1)) ++ [group] ++
        state.bl_state.data_state.groups.drop
          ((state.view_state.action_group_index + 1) % (size_max + 1)))
    (hevents : bl_state.data_state.events.length = 0 ∨
      state.view_state.active_event_index = invalid_index ∨
      state.view_state.active_event_index < bl_state.data_state.events.length) :
    ∃ state', dispatch E view_action_type_e.GROUP_ADD state = some state' ∧
      state'.bl_state = bl_state ∧
      state'.logic_calls =
        state.logic_calls ++
          [logic_call.create_group ((state.view_state.action_group_index + 1) % (size_max + 1))] ∧
      state'.bl_state.data_state.groups[
          (state.view_state.action_group_index + 1) % (size_max + 1)]? = some group ∧
      state'.view_state.active_group_index =
        (state.view_state.action_group_index + 1) % (size_max + 1) ∧
      state'.view_state.selected_group_state = group := by
  generalize hidx : (state.view_state.action_group_index + 1) % (size_max + 1) = idx at *
  have hne : idx ≠ invalid_index := by omega
  have hget : bl_state.data_state.groups[idx]? = some group := by
    rw [hgroups, List.append_assoc, List.getElem?_append_right (by simp)]
    simp [Nat.min_eq_left hk]
  have hlen : idx < bl_state.data_state.groups.length := getElem?_some_lt _ _ _ hget
  -- the state after `create_group` and `update_active_group`
  have h2 : update_active_group
      { state with
        bl_state := bl_state
        logic_calls := state.logic_calls ++ [logic_call.create_group idx] } idx =
      some
        { state with
          bl_state := bl_state
          logic_calls := state.logic_calls ++ [logic_call.create_group idx]
          view_state :=
            { state.view_state with active_group_index := idx, selected_group_state := group } } :=
    (update_active_group_eq_some _ _ idx).mpr (Or.inr ⟨hne, group, hget, rfl⟩)
  obtain ⟨state', h3⟩ := (update_mutable_view_state_returns_iff
    { state with
      bl_state := bl_state
      logic_calls := state.logic_calls ++ [logic_call.create_group idx]
      view_state :=
        { state.view_state with active_group_index := idx, selected_group_state := group } }).mpr
    hevents
  have p := update_mutable_view_state_post _ state' h3
  have hfr := p.frame
  have hagi : state'.view_state.active_group_index = idx := by
    have hi := p.group_index
    simp only at hi
    rw [hi, if_neg (by omega), if_neg (by omega)]
  have hbl : state'.bl_state = bl_state := by rw [hfr]
  have hlog : state'.logic_calls = state.logic_calls ++ [logic_call.create_group idx] := by
    rw [hfr]
  refine ⟨state', ?_, hbl, hlog, by rw [hbl]; exact hget, hagi, ?_⟩
  · simp only [dispatch, hidx, invoke_of_run E.logic _ state bl_state result hrun,
      Option.bind_eq_bind, Option.some_bind, h2]
    exact h3
  · have hv := p.group_valid (by rw [hagi]; exact hne)
    simp only at hv
    rw [hagi, hget] at hv
    exact (Option.some.inj hv).symm

theorem group_add_selects_new_group_witness :
    sample_state_three_groups.bl_state.data_state.groups.length = 3 ∧
      (sample_state_three_groups.view_state.action_group_index + 1) % (size_max + 1) = 2 ∧
      process_frame (model_externals view_action_type_e.GROUP_ADD id) sample_state_three_groups =
        some sample_state_group_added ∧
      sample_state_group_added.view_state.active_group_index = 2 ∧
      ∃ state',
        dispatch (model_externals view_action_type_e.GROUP_ADD id) view_action_type_e.GROUP_ADD
            sample_state_three_groups = some state' ∧
          state'.bl_state = sample_state_group_added.bl_state ∧
          state'.logic_calls = [logic_call.create_group 2] ∧
          state'.bl_state.data_state.groups[2]? =
            some { name := [], volume := 0, cross_fade_time := 0, output_bus_index := 0,
                   node := invalid_node_desc } ∧
          state'.view_state.active_group_index = 2 ∧
          state'.view_state.selected_group_state =
            { name := [], volume := 0, cross_fade_time := 0, output_bus_index := 0,
              node := invalid_node_desc } :=
  ⟨by decide, by decide, by decide, by decide,
    group_add_selects_new_group (model_externals view_action_type_e.GROUP_ADD id)
      sample_state_three_groups sample_state_group_added.bl_state 0
      { name := [], volume := 0, cross_fade_time := 0, output_bus_index := 0,
        node := invalid_node_desc }
      (by decide) (by decide) (by decide) (by decide) (by decide)⟩

/-- C12: when `remove_event` removes the event at the index it is given, dispatching
`EVENT_REMOVE` on a document whose only event is the active one calls `remove_event` once,
returns, and ends with `active_event_index` and `event_list_index` invalid and
`filtered_event_indices` empty, whatever the filter text and the group filter are. -/
theorem event_remove_last_event (E : externals) (state : app_state_t)
    (bl_state : logic_state_t) (result : Nat)
    (hone : state.bl_state.data_state.events.length = 1)
    (hactive : state.view_state.active_event_index = 0)
    (hrun : E.logic.run (logic_call.remove_event state.view_state.active_event_index)
      state.bl_state = some (bl_state, result))
    (hevents : bl_state.data_state.events =
      state.bl_state.data_state.events.eraseIdx state.view_state.active_event_index) :
    ∃ state', dispatch E view_action_type_e.EVENT_REMOVE state = some state' ∧
      state'.bl_state = bl_state ∧
      state'.logic_calls =
        state.logic_calls ++ [logic_call.remove_event state.view_state.active_event_index] ∧
      state'.bl_state.data_state.events = [] ∧
      state'.view_state.active_event_index = invalid_index ∧
      state'.view_state.event_list_index = invalid_index ∧
      state'.view_state.filtered_event_indices = [] := by
  have hnil : bl_state.data_state.events = [] := by
    rw [hevents, hactive]
    cases hev : state.bl_state.data_state.events with
    | nil => rfl
    | cons e rest =>
      rw [hev] at hone
      have hrest : rest = [] := List.length_eq_zero.mp (by simpa using hone)
      rw [hrest]
      rfl
  have hlen : bl_state.data_state.events.length = 0 := by rw [hnil]; rfl
  obtain ⟨state', h3⟩ := (update_mutable_view_state_returns_iff
    { state with
      bl_state := bl_state
      logic_calls :=
        state.logic_calls ++ [logic_call.remove_event state.view_state.active_event_index] }).mpr
    (Or.inl hlen)
  have p := update_mutable_view_state_post _ state' h3
  have hfr := p.frame
  have hbl : state'.bl_state = bl_state := by rw [hfr]
  have hei : state'.view_state.active_event_index = invalid_index := by
    have hi := p.event_index
    simp only at hi
    rw [hi, if_pos hlen]
  have hlist : state'.view_state.filtered_event_indices = [] := by
    have hl := filtered_list_of_result _ state' (Or.inr h3)
    rw [hl, hbl]
    unfold filtered_indices_spec
    rw [hlen]
    rfl
  have hpos : state'.view_state.event_list_index = invalid_index := by
    refine (list_index_of_result _ state' (Or.inr h3)).2 ?_
    rw [hlist]
    exact List.not_mem_nil _
  refine ⟨state', ?_, hbl, by rw [hfr], by rw [hbl]; exact hnil, hei, hpos, hlist⟩
  simp only [dispatch, invoke_of_run E.logic _ state bl_state result hrun, Option.bind_eq_bind,
    Option.some_bind]
  exact h3

theorem event_remove_last_event_witness :
    sample_state_one_event.bl_state.data_state.events.length = 1 ∧
      process_frame (model_externals view_action_type_e.EVENT_REMOVE id) sample_state_one_event =
        some sample_state_event_removed ∧
      ∃ state',
        dispatch (model_externals view_action_type_e.EVENT_REMOVE id)
            view_action_type_e.EVENT_REMOVE sample_state_one_event = some state' ∧
          state'.bl_state = sample_state_event_removed.bl_state ∧
          state'.logic_calls = [logic_call.remove_event 0] ∧
          state'.bl_state.data_state.events = [] ∧
          state'.view_state.active_event_index = invalid_index ∧
          state'.view_state.event_list_index = invalid_index ∧
          state'.view_state.filtered_event_indices = [] :=
  ⟨by decide, by decide,
    event_remove_last_event (model_externals view_action_type_e.EVENT_REMOVE id)
      sample_state_one_event sample_state_event_removed.bl_state 0
      (by decide) (by decide) (by decide) (by decide)⟩

/-! ## Lemmas: `fire_event` -/

theorem fire_event_eq (E : externals) (state : app_state_t) :
    fire_event E state =
      (state.bl_state.data_state.events[state.view_state.active_event_index]?).map
        (fun event =>
          hlea (fire_event_bank E state)
            (hlea_call.fire_event (fire_event_bank E state).bank (c_str event.name) 0)) := by
  have hbl : (fire_event_bank E state).bl_state = state.bl_state := by
    unfold fire_event_bank hlea
    cases state.bank <;> simp only <;> repeat' split
    all_goals rfl
  have hv : (fire_event_bank E state).view_state = state.view_state := by
    unfold fire_event_bank hlea
    cases state.bank <;> simp only <;> repeat' split
    all_goals rfl
  have h : fire_event E state =
      ((fire_event_bank E state).bl_state.data_state.events[
          (fire_event_bank E state).view_state.active_event_index]?).bind
        (fun event =>
          some (hlea (fire_event_bank E state)
            (hlea_call.fire_event (fire_event_bank E state).bank (c_str event.name) 0))) := rfl
  rw [h, hbl, hv]
  cases state.bl_state.data_state.events[state.view_state.active_event_index]? <;> rfl

theorem fire_event_bank_none (E : externals) (state : app_state_t) (h : state.bank = none) :
    fire_event_bank E state =
      { state with
        runtime_ctx :=
          state.runtime_ctx ++
            [hlea_call.load_events_bank_from_buffer
              (E.logic.save_store_fb_buffer state.bl_state.data_state)]
        bank :=
          E.load_events_bank_from_buffer state.runtime_ctx
            (E.logic.save_store_fb_buffer state.bl_state.data_state)
        bank_cmd_index := E.logic.get_undo_size state.bl_state.cmds } := by
  unfold fire_event_bank hlea
  simp only [h, if_true]

theorem fire_event_bank_stale (E : externals) (state : app_state_t) (bank : Nat)
    (h : state.bank = some bank)
    (hs : state.bank_cmd_index ≠ E.logic.get_undo_size state.bl_state.cmds) :
    fire_event_bank E state =
      { state with
        runtime_ctx :=
          state.runtime_ctx ++
            [hlea_call.unload_events_bank bank,
             hlea_call.load_events_bank_from_buffer
              (E.logic.save_store_fb_buffer state.bl_state.data_state)]
        bank :=
          E.load_events_bank_from_buffer
            (state.runtime_ctx ++ [hlea_call.unload_events_bank bank])
            (E.logic.save_store_fb_buffer state.bl_state.data_state)
        bank_cmd_index := E.logic.get_undo_size state.bl_state.cmds } := by
  unfold fire_event_bank hlea
  simp only [h, hs, ne_eq, not_false_eq_true, if_true, List.append_assoc, List.singleton_append]

theorem fire_event_bank_fresh (E : externals) (state : app_state_t) (bank : Nat)
    (h : state.bank = some bank)
    (hs : state.bank_cmd_index = E.logic.get_undo_size state.bl_state.cmds) :
    fire_event_bank E state = state := by
  unfold fire_event_bank hlea
  simp only [h, hs, ne_eq, not_true_eq_false, if_false]
  simp [h]

theorem compile_count_append (a b : List hlea_call) :
    compile_count (a ++ b) = compile_count a + compile_count b := by
  unfold compile_count
  exact List.countP_append _ _ _

theorem dispatch_apply_keeps_runtime (E : externals) (s s' : app_state_t)
    (h : dispatch E view_action_type_e.APPLY_SELECTED_GROUP_UPDATE s = some s') :
    s'.runtime_ctx = s.runtime_ctx ∧ s'.bank = s.bank ∧ s'.bank_cmd_index = s.bank_cmd_index := by
  simp only [dispatch, Option.bind_eq_bind, Option.bind_eq_some] at h
  obtain ⟨⟨x, r⟩, h1, h2⟩ := h
  obtain ⟨bl, _, rfl⟩ := invoke_eq_some _ _ _ _ _ h1
  have hfr := update_mutable_view_state_frame _ s' h2
  exact ⟨by rw [hfr], by rw [hfr], by rw [hfr]⟩

theorem fire_event_bank_props (E : externals) (state : app_state_t) :
    (fire_event_bank E state).bl_state = state.bl_state ∧
      (fire_event_bank E state).view_state = state.view_state ∧
      (fire_event_bank E state).bank_cmd_index = E.logic.get_undo_size state.bl_state.cmds ∧
      compile_count (fire_event_bank E state).runtime_ctx =
        compile_count state.runtime_ctx +
          (if state.bank = none ∨
              state.bank_cmd_index ≠ E.logic.get_undo_size state.bl_state.cmds then 1
            else 0) := by
  cases hb : state.bank with
  | none =>
    rw [fire_event_bank_none E state hb]
    refine ⟨rfl, rfl, rfl, ?_⟩
    simp only [true_or, if_true]
    rw [compile_count_append]
    rfl
  | some bank =>
    by_cases hs : state.bank_cmd_index = E.logic.get_undo_size state.bl_state.cmds
    · rw [fire_event_bank_fresh E state bank hb hs]
      refine ⟨rfl, rfl, hs, ?_⟩
      simp [hs]
    · rw [fire_event_bank_stale E state bank hb hs]
      refine ⟨rfl, rfl, rfl, ?_⟩
      simp only [hs, ne_eq, not_false_eq_true, or_true, if_true]
      rw [compile_count_append]
      rfl

/-- C13: `fire_event`, on a state whose active event exists, returns; it compiles the bank
(one `load_events_bank_from_buffer` request) exactly when no bank is cached or the stored
`bank_cmd_index` differs from `get_undo_size`, and afterwards the stored counter is the current
one. When it leaves a non-null bank cached, a second `fire_event` with nothing in between adds
only the fire request (so two dispatches compile once if the first one had to compile), and
after an `APPLY_SELECTED_GROUP_UPDATE` that changes the undo size the next `fire_event` unloads
the cached bank, compiles again and then fires. -/
theorem fire_event_bank_cache (E : externals) (state : app_state_t) (event : event_t)
    (hev : state.bl_state.data_state.events[state.view_state.active_event_index]? =
      some event) :
    ∃ s1, fire_event E state = some s1 ∧
      s1.bl_state = state.bl_state ∧ s1.view_state = state.view_state ∧
      s1.bank_cmd_index = E.logic.get_undo_size state.bl_state.cmds ∧
      compile_count s1.runtime_ctx =
        compile_count state.runtime_ctx +
          (if state.bank = none ∨
              state.bank_cmd_index ≠ E.logic.get_undo_size state.bl_state.cmds then 1
            else 0) ∧
      ∀ bank, s1.bank = some bank →
        (∃ s2, fire_event E s1 = some s2 ∧
          s2.runtime_ctx =
            s1.runtime_ctx ++ [hlea_call.fire_event (some bank) (c_str event.name) 0] ∧
          compile_count s2.runtime_ctx = compile_count s1.runtime_ctx ∧
          s2.bank = some bank) ∧
        ∀ s2 event2,
          dispatch E view_action_type_e.APPLY_SELECTED_GROUP_UPDATE s1 = some s2 →
          E.logic.get_undo_size s2.bl_state.cmds ≠ E.logic.get_undo_size s1.bl_state.cmds →
          s2.bl_state.data_state.events[s2.view_state.active_event_index]? = some event2 →
          ∃ s3, fire_event E s2 = some s3 ∧
            s3.runtime_ctx =
              s1.runtime_ctx ++
                [hlea_call.unload_events_bank bank,
                 hlea_call.load_events_bank_from_buffer
                  (E.logic.save_store_fb_buffer s2.bl_state.data_state),
                 hlea_call.fire_event s3.bank (c_str event2.name) 0] := by
  obtain ⟨pbl, pv, pc, pn⟩ := fire_event_bank_props E state
  obtain ⟨s1, hs1⟩ : ∃ s1, s1 = hlea (fire_event_bank E state)
      (hlea_call.fire_event (fire_event_bank E state).bank (c_str event.name) 0) := ⟨_, rfl⟩
  have e_bl : s1.bl_state = state.bl_state := by rw [hs1]; exact pbl
  have e_v : s1.view_state = state.view_state := by rw [hs1]; exact pv
  have e_c : s1.bank_cmd_index = E.logic.get_undo_size state.bl_state.cmds := by
    rw [hs1]; exact pc
  have e_b : s1.bank = (fire_event_bank E state).bank := by rw [hs1]; rfl
  have e_r : s1.runtime_ctx = (fire_event_bank E state).runtime_ctx ++
      [hlea_call.fire_event (fire_event_bank E state).bank (c_str event.name) 0] := by
    rw [hs1]; rfl
  have h1 : fire_event E state = some s1 := by
    rw [fire_event_eq, hev, hs1]
    rfl
  have hcount : compile_count s1.runtime_ctx =
      compile_count state.runtime_ctx +
        (if state.bank = none ∨
            state.bank_cmd_index ≠ E.logic.get_undo_size state.bl_state.cmds then 1
          else 0) := by
    rw [e_r, compile_count_append, pn]
    rfl
  refine ⟨s1, h1, e_bl, e_v, e_c, hcount, ?_⟩
  intro bank hbank
  constructor
  · have hfresh : fire_event_bank E s1 = s1 :=
      fire_event_bank_fresh E s1 bank hbank (by rw [e_c, e_bl])
    have h2 : fire_event E s1 =
        some (hlea s1 (hlea_call.fire_event (some bank) (c_str event.name) 0)) := by
      rw [fire_event_eq, hfresh, e_bl, e_v, hev, hbank]
      rfl
    refine ⟨_, h2, rfl, ?_, hbank⟩
    show compile_count (s1.runtime_ctx ++ _) = _
    rw [compile_count_append]
    rfl
  · intro s2 event2 hd hundo hev2
    obtain ⟨d1, d2, d3⟩ := dispatch_apply_keeps_runtime E s1 s2 hd
    have hb2 : s2.bank = some bank := by rw [d2]; exact hbank
    have hs2 : s2.bank_cmd_index ≠ E.logic.get_undo_size s2.bl_state.cmds := by
      rw [d3, e_c, ← e_bl]
      exact fun heq => hundo heq.symm
    refine ⟨hlea (fire_event_bank E s2)
        (hlea_call.fire_event (fire_event_bank E s2).bank (c_str event2.name) 0), ?_, ?_⟩
    · rw [fire_event_eq, hev2]
      rfl
    · show (fire_event_bank E s2).runtime_ctx ++
          [hlea_call.fire_event (fire_event_bank E s2).bank (c_str event2.name) 0] = _
      rw [fire_event_bank_stale E s2 bank hb2 hs2, ← d1]
      show (s2.runtime_ctx ++ _) ++ _ = _
      rw [List.append_assoc]
      rfl

theorem fire_event_bank_cache_witness :
    sample_state_synced.bank = none ∧
      sample_state_synced.bl_state.data_state.events[
        sample_state_synced.view_state.active_event_index]? =
          some { name := "bang".toList, actions := [⟨1, 1, 0⟩, ⟨2, 0, 0⟩] } ∧
      ((process_frame (model_externals view_action_type_e.RUNTIME_FIRE_EVENT id)
            sample_state_synced).bind
          (process_frame (model_externals view_action_type_e.RUNTIME_FIRE_EVENT id))).map
        (fun s => s.runtime_ctx) =
        some [hlea_call.process_active_groups, hlea_call.load_events_bank_from_buffer [],
          hlea_call.fire_event (some 1) "bang".toList 0, hlea_call.process_active_groups,
          hlea_call.fire_event (some 1) "bang".toList 0] ∧
      (((process_frame (model_externals view_action_type_e.RUNTIME_FIRE_EVENT id)
              sample_state_synced).bind
            (process_frame (model_externals view_action_type_e.APPLY_SELECTED_GROUP_UPDATE id))).bind
          (process_frame (model_externals view_action_type_e.RUNTIME_FIRE_EVENT id))).map
        (fun s => s.runtime_ctx) =
        some [hlea_call.process_active_groups, hlea_call.load_events_bank_from_buffer [],
          hlea_call.fire_event (some 1) "bang".toList 0, hlea_call.process_active_groups,
          hlea_call.process_active_groups, hlea_call.unload_events_bank 1,
          hlea_call.load_events_bank_from_buffer [],
          hlea_call.fire_event (some 1) "bang".toList 0] ∧
      ∃ s1,
        fire_event (model_externals view_action_type_e.RUNTIME_FIRE_EVENT id)
            sample_state_synced = some s1 ∧
          compile_count s1.runtime_ctx = compile_count sample_state_synced.runtime_ctx + 1 :=
  ⟨by decide, by decide, by decide, by decide,
    (fire_event_bank_cache (model_externals view_action_type_e.RUNTIME_FIRE_EVENT id)
      sample_state_synced { name := "bang".toList, actions := [⟨1, 1, 0⟩, ⟨2, 0, 0⟩] }
      (by decide)).imp (fun _ h => ⟨h.1, h.2.2.2.2.1⟩)⟩

theorem invoke_fst_eq_some (L : app_logic) (call : logic_call) (s s' : app_state_t)
    (h : (do let (state, _) ← invoke L call s; some state) = some s') :
    ∃ r, L.run call s.bl_state = some (s'.bl_state, r) ∧
      s' = { s with bl_state := s'.bl_state, logic_calls := s.logic_calls ++ [call] } := by
  simp only [Option.bind_eq_bind, Option.bind_eq_some, Option.some.injEq] at h
  obtain ⟨⟨s1, r⟩, h1, h2⟩ := h
  subst h2
  obtain ⟨bl, hrun, rfl⟩ := invoke_eq_some L call s s1 r h1
  exact ⟨r, hrun, rfl⟩

/-- C15: a `NODE_ADD` dispatch with `add_node_type` None changes nothing. With another
`add_node_type` it invokes exactly one document operation, chosen by the kind of
`add_node_target`: `create_root_node` on the group at `active_group_index` for kind None,
`create_repeat_node` on the target for kind Repeat, `create_node` on the target for any other
kind; the logic state afterwards is the one that operation returned, and the view state and the
runtime are untouched. -/
theorem node_add_dispatch (E : externals) (state state' : app_state_t)
    (h : dispatch E view_action_type_e.NODE_ADD state = some state') :
    state'.view_state = state.view_state ∧ state'.runtime_ctx = state.runtime_ctx ∧
      state'.logic_calls = state.logic_calls ++ (node_add_call state.view_state).toList ∧
      (state.view_state.add_node_type = NodeType.None → state' = state) ∧
      (state.view_state.add_node_type ≠ NodeType.None →
        state.view_state.add_node_target.type = NodeType.None →
        state'.logic_calls =
          state.logic_calls ++
            [logic_call.create_root_node state.view_state.active_group_index
              state.view_state.add_node_type] ∧
        ∃ r, E.logic.run
            (logic_call.create_root_node state.view_state.active_group_index
              state.view_state.add_node_type) state.bl_state = some (state'.bl_state, r)) ∧
      (state.view_state.add_node_type ≠ NodeType.None →
        state.view_state.add_node_target.type = NodeType.Repeat →
        state'.logic_calls =
          state.logic_calls ++
            [logic_call.create_repeat_node state.view_state.add_node_target
              state.view_state.add_node_type] ∧
        ∃ r, E.logic.run
            (logic_call.create_repeat_node state.view_state.add_node_target
              state.view_state.add_node_type) state.bl_state = some (state'.bl_state, r)) ∧
      (state.view_state.add_node_type ≠ NodeType.None →
        state.view_state.add_node_target.type ≠ NodeType.None →
        state.view_state.add_node_target.type ≠ NodeType.Repeat →
        state'.logic_calls =
          state.logic_calls ++
            [logic_call.create_node state.view_state.add_node_target
              state.view_state.add_node_type] ∧
        ∃ r, E.logic.run
            (logic_call.create_node state.view_state.add_node_target
              state.view_state.add_node_type) state.bl_state = some (state'.bl_state, r)) := by
  simp only [dispatch] at h
  by_cases ht : state.view_state.add_node_type = NodeType.None
  · simp only [ht, ne_eq, not_true_eq_false, if_false] at h
    obtain rfl := Option.some.inj h
    refine ⟨rfl, rfl, ?_, fun _ => rfl, fun hne => absurd ht hne, fun hne => absurd ht hne,
      fun hne => absurd ht hne⟩
    simp [node_add_call, ht]
  · simp only [ht, ne_eq, not_false_eq_true, if_true] at h
    by_cases h1 : state.view_state.add_node_target.type = NodeType.None
    · simp only [h1, if_true] at h
      obtain ⟨r, hrun, hs⟩ := invoke_fst_eq_some _ _ _ _ h
      have hlog : state'.logic_calls = state.logic_calls ++
          [logic_call.create_root_node state.view_state.active_group_index
            state.view_state.add_node_type] := by rw [hs]
      refine ⟨by rw [hs], by rw [hs], ?_, fun hn => absurd hn ht, fun _ _ => ⟨hlog, r, hrun⟩,
        fun _ hr => ?_, fun _ hn => absurd h1 hn⟩
      · rw [hlog]
        simp [node_add_call, ht, h1]
      · rw [h1] at hr
        exact NodeType.noConfusion hr
    · by_cases h2 : state.view_state.add_node_target.type = NodeType.Repeat
      · simp only [h2, if_true] at h
        rw [if_neg (by intro hc; exact NodeType.noConfusion hc)] at h
        obtain ⟨r, hrun, hs⟩ := invoke_fst_eq_some _ _ _ _ h
        have hlog : state'.logic_calls = state.logic_calls ++
            [logic_call.create_repeat_node state.view_state.add_node_target
              state.view_state.add_node_type] := by rw [hs]
        refine ⟨by rw [hs], by rw [hs], ?_, fun hn => absurd hn ht, fun _ hn => absurd hn h1,
          fun _ _ => ⟨hlog, r, hrun⟩, fun _ _ hn => absurd h2 hn⟩
        rw [hlog]
        simp [node_add_call, ht, h2]
      · simp only [h1, h2, if_false] at h
        obtain ⟨r, hrun, hs⟩ := invoke_fst_eq_some _ _ _ _ h
        have hlog : state'.logic_calls = state.logic_calls ++
            [logic_call.create_node state.view_state.add_node_target
              state.view_state.add_node_type] := by rw [hs]
        refine ⟨by rw [hs], by rw [hs], ?_, fun hn => absurd hn ht, fun _ hn => absurd hn h1,
          fun _ hn => absurd hn h2, fun _ _ _ => ⟨hlog, r, hrun⟩⟩
        rw [hlog]
        unfold node_add_call
        rw [if_neg ht]
        cases htt : state.view_state.add_node_target.type with
        | None => exact absurd htt h1
        | Repeat => exact absurd htt h2
        | File => rfl
        | Random => rfl
        | Sequence => rfl

theorem node_add_dispatch_witness :
    process_frame (model_externals view_action_type_e.NODE_ADD choose_file_for_root)
        sample_state_first_group = some sample_state_root_added ∧
      sample_state_root_added.logic_calls = [] ++ [logic_call.create_root_node 0 NodeType.File] :=
  ⟨by decide,
    ((node_add_dispatch (model_externals view_action_type_e.NODE_ADD choose_file_for_root)
      { sample_state_root_added with
        bl_state := sample_state_first_group.bl_state
        logic_calls := [] }
      sample_state_root_added (by decide)).2.2.2.2.1 (by decide) (by decide)).1⟩

/-- C16: with `create_repeat_node` as the specification describes it (the single child slot of
a Repeat node is filled, a second child is rejected), a `NODE_ADD` whose target is a Repeat node
that already has a non-None child is passed by the reducer to `create_repeat_node` and rejected
there: the dispatch returns with the document and the undo stack unchanged, so the Repeat node
keeps its one child. -/
theorem repeat_second_child_rejected (E : externals) (state : app_state_t)
    (node : repeat_node_t) (hE : E.logic = model_logic)
    (htype : state.view_state.add_node_type ≠ NodeType.None)
    (htarget : state.view_state.add_node_target.type = NodeType.Repeat)
    (hnode : state.bl_state.data_state.nodes_repeat[state.view_state.add_node_target.id]? =
      some node)
    (hchild : node.node.type ≠ NodeType.None) :
    ∃ state', dispatch E view_action_type_e.NODE_ADD state = some state' ∧
      state'.logic_calls =
        state.logic_calls ++
          [logic_call.create_repeat_node state.view_state.add_node_target
            state.view_state.add_node_type] ∧
      state'.bl_state = state.bl_state ∧
      state'.bl_state.data_state.nodes_repeat[state.view_state.add_node_target.id]? =
        some node ∧
      state'.view_state = state.view_state := by
  have hop : model_operation state.bl_state.data_state
      (logic_call.create_repeat_node state.view_state.add_node_target
        state.view_state.add_node_type) = none := by
    simp [model_operation, htarget, hnode, hchild]
  have hrun : E.logic.run
      (logic_call.create_repeat_node state.view_state.add_node_target
        state.view_state.add_node_type) state.bl_state = some (state.bl_state, 0) := by
    rw [hE]
    show model_run
      (logic_call.create_repeat_node state.view_state.add_node_target
        state.view_state.add_node_type) state.bl_state = some (state.bl_state, 0)
    simp only [model_run, hop]
  refine ⟨{ state with
      logic_calls :=
        state.logic_calls ++
          [logic_call.create_repeat_node state.view_state.add_node_target
            state.view_state.add_node_type] }, ?_, rfl, rfl, hnode, rfl⟩
  simp only [dispatch, htype, ne_eq, not_false_eq_true, if_true, htarget]
  rw [if_neg (by intro hc; exact NodeType.noConfusion hc)]
  simp only [if_true, invoke_of_run E.logic _ state state.bl_state 0 hrun, Option.bind_eq_bind,
    Option.some_bind]

theorem repeat_second_child_rejected_witness :
    sample_state_repeat.bl_state.data_state.nodes_repeat =
        [{ repeat_count := 2, node := ⟨NodeType.File, 0⟩ }] ∧
      (process_frame (model_externals view_action_type_e.NODE_ADD choose_file_for_repeat)
          sample_state_repeat).map (fun s => s.bl_state) = some sample_state_repeat.bl_state ∧
      ∃ state',
        dispatch (model_externals view_action_type_e.NODE_ADD choose_file_for_repeat)
            view_action_type_e.NODE_ADD
            { sample_state_repeat with
              view_state := choose_file_for_repeat sample_state_repeat.view_state } =
          some state' ∧
        state'.logic_calls = [logic_call.create_repeat_node ⟨NodeType.Repeat, 0⟩ NodeType.File] ∧
        state'.bl_state = sample_state_repeat.bl_state ∧
        state'.bl_state.data_state.nodes_repeat[0]? =
          some { repeat_count := 2, node := ⟨NodeType.File, 0⟩ } ∧
        state'.view_state = choose_file_for_repeat sample_state_repeat.view_state :=
  ⟨by decide, by decide,
    repeat_second_child_rejected
      (model_externals view_action_type_e.NODE_ADD choose_file_for_repeat)
      { sample_state_repeat with
        view_state := choose_file_for_repeat sample_state_repeat.view_state }
      { repeat_count := 2, node := ⟨NodeType.File, 0⟩ } rfl (by decide) (by decide) (by decide)
      (by decide)⟩

/-! ## Lemmas: the record of logic calls -/

theorem added_no_removal_of_eq (s s' : app_state_t) (h : s'.logic_calls = s.logic_calls) :
    added_no_removal s s' :=
  ⟨[], by rw [h, List.append_nil], fun _ hc => absurd hc (List.not_mem_nil _)⟩

theorem added_no_removal_trans (s1 s2 s3 : app_state_t) (h12 : added_no_removal s1 s2)
    (h23 : added_no_removal s2 s3) : added_no_removal s1 s3 := by
  obtain ⟨c1, e1, n1⟩ := h12
  obtain ⟨c2, e2, n2⟩ := h23
  refine ⟨c1 ++ c2, by rw [e2, e1, List.append_assoc], ?_⟩
  intro c hc
  rcases List.mem_append.mp hc with hc | hc
  · exact n1 c hc
  · exact n2 c hc

theorem added_no_removal_invoke (L : app_logic) (call : logic_call) (s s' : app_state_t)
    (r : Nat) (h : invoke L call s = some (s', r)) (hcall : is_removal call = false) :
    added_no_removal s s' := by
  obtain ⟨bl, _, rfl⟩ := invoke_eq_some L call s s' r h
  exact ⟨[call], rfl, fun c hc => by rw [List.mem_singleton.mp hc]; exact hcall⟩

theorem added_no_removal_invoke_fst (L : app_logic) (call : logic_call) (s s' : app_state_t)
    (h : (do let (state, _) ← invoke L call s; some state) = some s')
    (hcall : is_removal call = false) :
    added_no_removal s s' := by
  obtain ⟨r, _, hs⟩ := invoke_fst_eq_some L call s s' h
  exact ⟨[call], by rw [hs], fun c hc => by rw [List.mem_singleton.mp hc]; exact hcall⟩

theorem update_mutable_view_state_logic_calls (s s' : app_state_t)
    (h : update_mutable_view_state s = some s') : s'.logic_calls = s.logic_calls := by
  rw [update_mutable_view_state_frame s s' h]

theorem update_active_group_logic_calls (s s' : app_state_t) (g : Nat)
    (h : update_active_group s g = some s') : s'.logic_calls = s.logic_calls := by
  rw [(update_active_group_fields s s' g h).1]

theorem update_active_event_logic_calls (s s' : app_state_t) (i : Nat)
    (h : update_active_event s i = some s') : s'.logic_calls = s.logic_calls := by
  rw [(update_active_event_fields s s' i h).1]

theorem update_selected_event_action_logic_calls (s s' : app_state_t) (a : Nat)
    (h : update_selected_event_action s a = some s') : s'.logic_calls = s.logic_calls := by
  rw [(update_selected_event_action_fields s s' a h).1]

theorem bus_volume_loop_frame :
    ∀ (volumes : List Int) (index : Nat) (s : app_state_t),
      bus_volume_loop volumes index s =
        { s with runtime_ctx := (bus_volume_loop volumes index s).runtime_ctx } := by
  intro volumes
  induction volumes with
  | nil => intro index s; rfl
  | cons v rest ih =>
    intro index s
    rw [bus_volume_loop]
    exact (ih _ _).trans rfl

theorem fire_event_logic_calls (E : externals) (s s' : app_state_t)
    (h : fire_event E s = some s') : s'.logic_calls = s.logic_calls := by
  rw [fire_event_eq] at h
  have plog : (fire_event_bank E s).logic_calls = s.logic_calls := by
    unfold fire_event_bank hlea
    cases s.bank <;> simp only <;> repeat' split
    all_goals rfl
  cases hev : s.bl_state.data_state.events[s.view_state.active_event_index]? with
  | none => rw [hev] at h; exact Option.noConfusion h
  | some event =>
    rw [hev] at h
    rw [← Option.some.inj h]
    exact plog

theorem dispatch_added_no_removal (E : externals) (action : view_action_type_e)
    (s s' : app_state_t) (h : dispatch E action s = some s') : added_no_removal s s' := by
  cases action with
  | NONE =>
    simp only [dispatch] at h
    exact added_no_removal_of_eq _ _ (by rw [← Option.some.inj h])
  | SAVE =>
    simp only [dispatch, Option.bind_eq_bind, Option.bind_eq_some, Option.some.injEq] at h
    obtain ⟨⟨s1, r⟩, h1, rfl⟩ := h
    exact added_no_removal_trans _ _ _ (added_no_removal_invoke _ _ _ _ _ h1 rfl)
      (added_no_removal_of_eq _ _ rfl)
  | UNDO =>
    simp only [dispatch, perform_undo, Option.bind_eq_bind, Option.bind_eq_some] at h
    obtain ⟨⟨s1, r⟩, h1, h2⟩ := h
    refine added_no_removal_trans _ _ _ (added_no_removal_invoke _ _ _ _ _ h1 rfl) ?_
    split at h2
    · exact added_no_removal_of_eq _ _ (update_mutable_view_state_logic_calls _ _ h2)
    · exact added_no_removal_of_eq _ _ (by rw [← Option.some.inj h2])
  | REDO =>
    simp only [dispatch, perform_redo, Option.bind_eq_bind, Option.bind_eq_some] at h
    obtain ⟨⟨s1, r⟩, h1, h2⟩ := h
    refine added_no_removal_trans _ _ _ (added_no_removal_invoke _ _ _ _ _ h1 rfl) ?_
    split at h2
    · exact added_no_removal_of_eq _ _ (update_mutable_view_state_logic_calls _ _ h2)
    · exact added_no_removal_of_eq _ _ (by rw [← Option.some.inj h2])
  | GROUP_ADD =>
    simp only [dispatch, Option.bind_eq_bind, Option.bind_eq_some] at h
    obtain ⟨⟨s1, r⟩, h1, s2, h2, h3⟩ := h
    refine added_no_removal_trans _ _ _ (added_no_removal_invoke _ _ _ _ _ h1 rfl) ?_
    exact added_no_removal_of_eq _ _ (by
      rw [update_mutable_view_state_logic_calls _ _ h3, update_active_group_logic_calls _ _ _ h2])
  | GROUP_REMOVE =>
    simp only [dispatch, Option.bind_eq_bind, Option.bind_eq_some] at h
    obtain ⟨⟨s1, r⟩, h1, h2⟩ := h
    refine added_no_removal_trans _ _ _ (added_no_removal_invoke _ _ _ _ _ h1 rfl) ?_
    exact added_no_removal_of_eq _ _ (update_mutable_view_state_logic_calls _ _ h2)
  | APPLY_SELECTED_GROUP_UPDATE =>
    simp only [dispatch, Option.bind_eq_bind, Option.bind_eq_some] at h
    obtain ⟨⟨s1, r⟩, h1, h2⟩ := h
    refine added_no_removal_trans _ _ _ (added_no_removal_invoke _ _ _ _ _ h1 rfl) ?_
    exact added_no_removal_of_eq _ _ (update_mutable_view_state_logic_calls _ _ h2)
  | EVENT_ADD =>
    simp only [dispatch, Option.bind_eq_bind, Option.bind_eq_some] at h
    obtain ⟨⟨s1, r⟩, h1, s2, h2, h3⟩ := h
    refine added_no_removal_trans _ _ _ (added_no_removal_invoke _ _ _ _ _ h1 rfl) ?_
    exact added_no_removal_of_eq _ _ (by
      rw [update_mutable_view_state_logic_calls _ _ h3, update_active_event_logic_calls _ _ _ h2])
  | EVENT_REMOVE =>
    simp only [dispatch, Option.bind_eq_bind, Option.bind_eq_some] at h
    obtain ⟨⟨s1, r⟩, h1, h2⟩ := h
    refine added_no_removal_trans _ _ _ (added_no_removal_invoke _ _ _ _ _ h1 rfl) ?_
    exact added_no_removal_of_eq _ _ (update_mutable_view_state_logic_calls _ _ h2)
  | EVENT_UPDATE =>
    simp only [dispatch, Option.bind_eq_bind, Option.bind_eq_some] at h
    obtain ⟨⟨s1, r⟩, h1, h2⟩ := h
    refine added_no_removal_trans _ _ _ (added_no_removal_invoke _ _ _ _ _ h1 rfl) ?_
    exact added_no_removal_of_eq _ _ (update_mutable_view_state_logic_calls _ _ h2)
  | EVENT_FILTER =>
    simp only [dispatch] at h
    exact added_no_removal_of_eq _ _ (by rw [← Option.some.inj h, filter_events_frame])
  | EVENT_UPDATE_ACTION =>
    simp only [dispatch] at h
    exact added_no_removal_invoke_fst _ _ _ _ h rfl
  | EVENT_REMOVE_ACTION =>
    simp only [dispatch, Option.bind_eq_bind, Option.bind_eq_some] at h
    obtain ⟨⟨s1, r⟩, h1, h2⟩ := h
    refine added_no_removal_trans _ _ _ (added_no_removal_invoke _ _ _ _ _ h1 rfl) ?_
    exact added_no_removal_of_eq _ _ (update_selected_event_action_logic_calls _ _ _ h2)
  | EVENT_APPEND_ACTION =>
    simp only [dispatch, Option.bind_eq_bind, Option.bind_eq_some] at h
    obtain ⟨⟨s1, r⟩, h1, h2⟩ := h
    refine added_no_removal_trans _ _ _ (added_no_removal_invoke _ _ _ _ _ h1 rfl) ?_
    exact added_no_removal_of_eq _ _ (update_selected_event_action_logic_calls _ _ _ h2)
  | NODE_ADD =>
    simp only [dispatch] at h
    split at h
    · split at h
      · exact added_no_removal_invoke_fst _ _ _ _ h rfl
      · split at h
        · exact added_no_removal_invoke_fst _ _ _ _ h rfl
        · exact added_no_removal_invoke_fst _ _ _ _ h rfl
    · exact added_no_removal_of_eq _ _ (by rw [← Option.some.inj h])
  | NODE_UPDATE =>
    simp only [dispatch] at h
    split at h
    · exact added_no_removal_invoke_fst _ _ _ _ h rfl
    · exact added_no_removal_of_eq _ _ (by rw [← Option.some.inj h])
  | REFRESH_WAV_LIST =>
    simp only [dispatch] at h
    exact added_no_removal_of_eq _ _ (by rw [← Option.some.inj h]; rfl)
  | BUS_ADD =>
    simp only [dispatch] at h
    refine added_no_removal_of_eq _ _ ?_
    rw [← Option.some.inj h]
    unfold add_output_bus recreate_context create_context unload_and_destroy_context hlea
    cases s.bank <;> rfl
  | BUS_RENAME =>
    simp only [dispatch] at h
    exact added_no_removal_invoke_fst _ _ _ _ h rfl
  | BUS_VOLUME_CHANGED =>
    simp only [dispatch] at h
    exact added_no_removal_of_eq _ _ (by rw [← Option.some.inj h, bus_volume_loop_frame])
  | SOUND_PLAY =>
    simp only [dispatch, Option.bind_eq_bind, Option.bind_eq_some, Option.some.injEq] at h
    obtain ⟨path, _, rfl⟩ := h
    exact added_no_removal_of_eq _ _ rfl
  | SOUND_STOP =>
    simp only [dispatch] at h
    exact added_no_removal_of_eq _ _ (by rw [← Option.some.inj h]; rfl)
  | RUNTIME_FIRE_EVENT =>
    simp only [dispatch] at h
    exact added_no_removal_of_eq _ _ (fire_event_logic_calls E s s' h)

theorem dispatch_node_action (E : externals) (action : view_action_type_e)
    (s s' : app_state_t) (h : dispatch E action s = some s') :
    s'.view_state.node_action = s.view_state.node_action := by
  cases action with
  | NONE =>
    simp only [dispatch] at h
    rw [← Option.some.inj h]
  | SAVE =>
    simp only [dispatch, Option.bind_eq_bind, Option.bind_eq_some, Option.some.injEq] at h
    obtain ⟨⟨s1, r⟩, h1, rfl⟩ := h
    have e1 := invoke_view_state _ _ _ _ _ h1
    show s1.view_state.node_action = _
    rw [e1]
  | UNDO =>
    simp only [dispatch, perform_undo, Option.bind_eq_bind, Option.bind_eq_some] at h
    obtain ⟨⟨s1, r⟩, h1, h2⟩ := h
    have e1 := invoke_view_state _ _ _ _ _ h1
    split at h2
    · rw [update_mutable_view_state_node_action _ _ h2, e1]
    · rw [← Option.some.inj h2, e1]
  | REDO =>
    simp only [dispatch, perform_redo, Option.bind_eq_bind, Option.bind_eq_some] at h
    obtain ⟨⟨s1, r⟩, h1, h2⟩ := h
    have e1 := invoke_view_state _ _ _ _ _ h1
    split at h2
    · rw [update_mutable_view_state_node_action _ _ h2, e1]
    · rw [← Option.some.inj h2, e1]
  | GROUP_ADD =>
    simp only [dispatch, Option.bind_eq_bind, Option.bind_eq_some] at h
    obtain ⟨⟨s1, r⟩, h1, s2, h2, h3⟩ := h
    rw [update_mutable_view_state_node_action _ _ h3, (update_active_group_untouched _ _ _ h2).1,
      invoke_view_state _ _ _ _ _ h1]
  | GROUP_REMOVE =>
    simp only [dispatch, Option.bind_eq_bind, Option.bind_eq_some] at h
    obtain ⟨⟨s1, r⟩, h1, h2⟩ := h
    rw [update_mutable_view_state_node_action _ _ h2, invoke_view_state _ _ _ _ _ h1]
  | APPLY_SELECTED_GROUP_UPDATE =>
    simp only [dispatch, Option.bind_eq_bind, Option.bind_eq_some] at h
    obtain ⟨⟨s1, r⟩, h1, h2⟩ := h
    rw [update_mutable_view_state_node_action _ _ h2, invoke_view_state _ _ _ _ _ h1]
  | EVENT_ADD =>
    simp only [dispatch, Option.bind_eq_bind, Option.bind_eq_some] at h
    obtain ⟨⟨s1, r⟩, h1, s2, h2, h3⟩ := h
    rw [update_mutable_view_state_node_action _ _ h3, (update_active_event_untouched _ _ _ h2).1,
      invoke_view_state _ _ _ _ _ h1]
  | EVENT_REMOVE =>
    simp only [dispatch, Option.bind_eq_bind, Option.bind_eq_some] at h
    obtain ⟨⟨s1, r⟩, h1, h2⟩ := h
    rw [update_mutable_view_state_node_action _ _ h2, invoke_view_state _ _ _ _ _ h1]
  | EVENT_UPDATE =>
    simp only [dispatch, Option.bind_eq_bind, Option.bind_eq_some] at h
    obtain ⟨⟨s1, r⟩, h1, h2⟩ := h
    rw [update_mutable_view_state_node_action _ _ h2, invoke_view_state _ _ _ _ _ h1]
  | EVENT_FILTER =>
    simp only [dispatch] at h
    rw [← Option.some.inj h, filter_events_frame]
  | EVENT_UPDATE_ACTION =>
    simp only [dispatch] at h
    rw [invoke_map_view_state _ _ _ _ h]
  | EVENT_REMOVE_ACTION =>
    simp only [dispatch, Option.bind_eq_bind, Option.bind_eq_some] at h
    obtain ⟨⟨s1, r⟩, h1, h2⟩ := h
    rw [(update_selected_event_action_untouched _ _ _ h2).1, invoke_view_state _ _ _ _ _ h1]
  | EVENT_APPEND_ACTION =>
    simp only [dispatch, Option.bind_eq_bind, Option.bind_eq_some] at h
    obtain ⟨⟨s1, r⟩, h1, h2⟩ := h
    rw [(update_selected_event_action_untouched _ _ _ h2).1, invoke_view_state _ _ _ _ _ h1]
  | NODE_ADD =>
    simp only [dispatch] at h
    split at h
    · split at h
      · rw [invoke_map_view_state _ _ _ _ h]
      · split at h
        · rw [invoke_map_view_state _ _ _ _ h]
        · rw [invoke_map_view_state _ _ _ _ h]
    · rw [← Option.some.inj h]
  | NODE_UPDATE =>
    simp only [dispatch] at h
    split at h
    · rw [invoke_map_view_state _ _ _ _ h]
    · rw [← Option.some.inj h]
  | REFRESH_WAV_LIST =>
    simp only [dispatch] at h
    rw [← Option.some.inj h]
    rfl
  | BUS_ADD =>
    simp only [dispatch] at h
    rw [← Option.some.inj h]
    unfold add_output_bus recreate_context create_context unload_and_destroy_context hlea
    cases s.bank <;> rfl
  | BUS_RENAME =>
    simp only [dispatch] at h
    rw [invoke_map_view_state _ _ _ _ h]
  | BUS_VOLUME_CHANGED =>
    simp only [dispatch] at h
    rw [← Option.some.inj h, bus_volume_loop_frame]
  | SOUND_PLAY =>
    simp only [dispatch, Option.bind_eq_bind, Option.bind_eq_some, Option.some.injEq] at h
    obtain ⟨path, _, rfl⟩ := h
    rfl
  | SOUND_STOP =>
    simp only [dispatch] at h
    rw [← Option.some.inj h]
    rfl
  | RUNTIME_FIRE_EVENT =>
    simp only [dispatch] at h
    rw [fire_event_eq] at h
    cases hev : s.bl_state.data_state.events[s.view_state.active_event_index]? with
    | none => rw [hev] at h; exact Option.noConfusion h
    | some event =>
      rw [hev] at h
      rw [← Option.some.inj h]
      exact congrArg view_state_t.node_action (fire_event_bank_props E s).2.1

theorem node_action_remove_logic_calls (E : externals) (s s' : app_state_t)
    (h : node_action_remove E s = some s') :
    s'.logic_calls = s.logic_calls ++ (node_removal_call s.view_state).toList := by
  unfold node_action_remove at h
  unfold node_removal_call
  by_cases c : s.view_state.node_action.action_remove = true
  · by_cases c2 : s.view_state.node_action.parent_node_desc.type = NodeType.None
    · simp only [c, c2, if_true] at h ⊢
      obtain ⟨r, _, hs⟩ := invoke_fst_eq_some _ _ _ _ h
      rw [hs]
      rfl
    · simp only [c, c2, if_true, if_false] at h ⊢
      obtain ⟨r, _, hs⟩ := invoke_fst_eq_some _ _ _ _ h
      rw [hs]
      rfl
  · simp only [c, if_false] at h ⊢
    rw [← Option.some.inj h]
    simp

theorem node_action_rest_added_no_removal (E : externals) (s1 s' : app_state_t)
    (h : (do
      let state ← node_action_assign_sound E s1
      let state ← node_action_switch_loop E state
      node_action_switch_stream E state) = some s') : added_no_removal s1 s' := by
  simp only [Option.bind_eq_bind, Option.bind_eq_some] at h
  obtain ⟨s2, h2, s3, h3, h4⟩ := h
  have a2 : added_no_removal s1 s2 := by
    unfold node_action_assign_sound at h2
    by_cases c : s1.view_state.node_action.action_assign_sound = true ∧
        s1.view_state.node_action.node_desc.type = NodeType.File
    · simp only [c, and_self, if_true, Option.bind_eq_bind, Option.bind_eq_some,
        Option.some.injEq] at h2
      obtain ⟨_, _, ⟨sx, r⟩, hx, rfl⟩ := h2
      exact added_no_removal_invoke _ _ _ _ _ hx rfl
    · simp only [c, if_false] at h2
      exact added_no_removal_of_eq _ _ (by rw [← Option.some.inj h2])
  have a3 : added_no_removal s2 s3 := by
    unfold node_action_switch_loop at h3
    by_cases c : s2.view_state.node_action.action_switch_loop = true ∧
        s2.view_state.node_action.node_desc.type = NodeType.File
    · simp only [c, and_self, if_true] at h3
      exact added_no_removal_invoke_fst _ _ _ _ h3 rfl
    · simp only [c, if_false] at h3
      exact added_no_removal_of_eq _ _ (by rw [← Option.some.inj h3])
  have a4 : added_no_removal s3 s' := by
    unfold node_action_switch_stream at h4
    by_cases c : s3.view_state.node_action.action_switch_stream = true ∧
        s3.view_state.node_action.node_desc.type = NodeType.File
    · simp only [c, and_self, if_true] at h4
      exact added_no_removal_invoke_fst _ _ _ _ h4 rfl
    · simp only [c, if_false] at h4
      exact added_no_removal_of_eq _ _ (by rw [← Option.some.inj h4])
  exact added_no_removal_trans _ _ _ a2 (added_no_removal_trans _ _ _ a3 a4)

theorem filter_no_removal (calls : List logic_call) (h : ∀ c ∈ calls, is_removal c = false) :
    calls.filter is_removal = [] := by
  rw [List.filter_eq_nil_iff]
  intro c hc
  rw [h c hc]
  exact Bool.false_ne_true

theorem node_removal_call_is_removal (view_state : view_state_t) :
    (node_removal_call view_state).toList.filter is_removal =
      (node_removal_call view_state).toList := by
  unfold node_removal_call
  split
  · split <;> rfl
  · rfl

theorem select_steps_frame (pg pe pa : Nat) (s s1 s2 s3 : app_state_t)
    (h1 : select_group pg s = some s1) (h2 : select_event pe s1 = some s2)
    (h3 : select_action pa s2 = some s3) :
    s3.logic_calls = s.logic_calls ∧ s3.view_state.node_action = s.view_state.node_action := by
  have l1 : s1.logic_calls = s.logic_calls := by
    unfold select_group at h1
    split at h1
    · exact update_active_group_logic_calls _ _ _ h1
    · rw [← Option.some.inj h1]
  have l2 : s2.logic_calls = s1.logic_calls := by
    unfold select_event at h2
    split at h2
    · simp only [Option.bind_eq_bind, Option.bind_eq_some] at h2
      obtain ⟨i, _, h2⟩ := h2
      exact update_active_event_logic_calls _ _ _ h2
    · rw [← Option.some.inj h2]
  have l3 : s3.logic_calls = s2.logic_calls := by
    unfold select_action at h3
    split at h3
    · exact update_selected_event_action_logic_calls _ _ _ h3
    · rw [← Option.some.inj h3]
  exact ⟨by rw [l3, l2, l1], by
    rw [(select_action_untouched _ _ _ h3).2.1, (select_event_untouched _ _ _ h2).2.1,
      (select_group_untouched _ _ _ h1).2.1]⟩

/-- C17: in every frame the removals invoked on the logic layer are decided by the
`node_action` the widget pass produced: with `action_remove` set there is exactly one, which is
`remove_root_node` on the group at `active_group_index` when the recorded parent descriptor has
kind None, and `remove_node` on the recorded parent and index otherwise; with `action_remove`
not set there is none. -/
theorem node_removal_invoked_once (E : externals) (state state' : app_state_t)
    (action : view_action_type_e) (view_state : view_state_t)
    (hv : E.build_view (view_flags E (hlea state hlea_call.process_active_groups))
      state.bl_state.data_state = some (action, view_state))
    (h : process_frame E state = some state') :
    state'.view_state.node_action = view_state.node_action ∧
      (∃ before after,
        state'.logic_calls =
          state.logic_calls ++ before ++ (node_removal_call state'.view_state).toList ++ after ∧
        (∀ c ∈ before, is_removal c = false) ∧ ∀ c ∈ after, is_removal c = false) ∧
      (view_state.node_action.action_remove = false →
        (state'.logic_calls.drop state.logic_calls.length).filter is_removal = []) ∧
      (view_state.node_action.action_remove = true →
        view_state.node_action.parent_node_desc.type = NodeType.None →
        (state'.logic_calls.drop state.logic_calls.length).filter is_removal =
          [logic_call.remove_root_node state'.view_state.active_group_index]) ∧
      (view_state.node_action.action_remove = true →
        view_state.node_action.parent_node_desc.type ≠ NodeType.None →
        (state'.logic_calls.drop state.logic_calls.length).filter is_removal =
          [logic_call.remove_node view_state.node_action.parent_node_desc
            view_state.node_action.node_index]) := by
  obtain ⟨action', view_state', s1, s2, s3, s4, hv', h1, h2, h3, h4, h5⟩ :=
    (process_frame_eq_some E state state').mp h
  rw [hv] at hv'
  obtain ⟨rfl, rfl⟩ := Prod.mk.inj (Option.some.inj hv')
  obtain ⟨l3, n3⟩ := select_steps_frame _ _ _ _ _ _ _ h1 h2 h3
  have hview : state'.view_state = s4.view_state := process_node_action_view_state E s4 state' h5
  have hna : state'.view_state.node_action = view_state.node_action := by
    rw [hview, dispatch_node_action E action s3 s4 h4, n3]
  obtain ⟨before, hb, nb⟩ := dispatch_added_no_removal E action s3 s4 h4
  unfold process_node_action at h5
  simp only [Option.bind_eq_bind, Option.bind_eq_some] at h5
  obtain ⟨s5, h6, h7⟩ := h5
  have hrem := node_action_remove_logic_calls E s4 s5 h6
  obtain ⟨after, ha, na⟩ := node_action_rest_added_no_removal E s5 state' (by
    simp only [Option.bind_eq_bind, Option.bind_eq_some]
    exact h7)
  have hlog : state'.logic_calls =
      state.logic_calls ++ before ++ (node_removal_call state'.view_state).toList ++ after := by
    rw [ha, hrem, hb, l3, hview]
    rfl
  have hfilter : (state'.logic_calls.drop state.logic_calls.length).filter is_removal =
      (node_removal_call state'.view_state).toList := by
    rw [hlog, List.append_assoc, List.append_assoc, List.drop_left, List.filter_append,
      List.filter_append, filter_no_removal _ nb, filter_no_removal _ na,
      node_removal_call_is_removal, List.nil_append, List.append_nil]
  refine ⟨hna, ⟨before, after, hlog, nb, na⟩, ?_, ?_, ?_⟩
  · intro hr
    rw [hfilter]
    unfold node_removal_call
    rw [hna, hr]
    rfl
  · intro hr hp
    rw [hfilter]
    unfold node_removal_call
    rw [hna, hr, hp]
    rfl
  · intro hr hp
    rw [hfilter]
    unfold node_removal_call
    rw [hna, hr, if_pos rfl, if_neg hp]
    rfl

theorem node_removal_invoked_once_witness :
    process_frame (model_externals view_action_type_e.NONE press_remove_root)
        sample_state_synced = some sample_state_root_removed ∧
      (sample_state_root_removed.logic_calls.drop sample_state_synced.logic_calls.length).filter
          is_removal =
        [logic_call.remove_root_node sample_state_root_removed.view_state.active_group_index] ∧
      sample_state_root_removed.view_state.active_group_index = 1 :=
  ⟨by decide,
    (node_removal_invoked_once (model_externals view_action_type_e.NONE press_remove_root)
      sample_state_synced sample_state_root_removed view_action_type_e.NONE _ rfl
      (by decide)).2.2.2.1 (by decide) (by decide),
    by decide⟩

/-! ## Type-mismatched node operations -/

/-- C18: type-mismatched node operations are ignored. When the node of `node_action` is not a
File, each of the assign-sound, switch-loop and switch-stream requests returns the state it was
given (no call into the logic layer, same document, same undo stack), whatever the request
flags are, so the node handling of the frame is the removal request alone; and when the node is
not a Repeat, dispatching `NODE_UPDATE` returns the state it was given. -/
theorem type_mismatched_operations_ignored (E : externals) (state : app_state_t) :
    (state.view_state.node_action.node_desc.type ≠ NodeType.File →
      node_action_assign_sound E state = some state ∧
        node_action_switch_loop E state = some state ∧
        node_action_switch_stream E state = some state ∧
        process_node_action E state = node_action_remove E state) ∧
      (state.view_state.node_action.node_desc.type ≠ NodeType.Repeat →
        dispatch E view_action_type_e.NODE_UPDATE state = some state) := by
  have key : ∀ s : app_state_t, s.view_state.node_action.node_desc.type ≠ NodeType.File →
      node_action_assign_sound E s = some s ∧ node_action_switch_loop E s = some s ∧
        node_action_switch_stream E s = some s := by
    intro s hs
    refine ⟨?_, ?_, ?_⟩
    · unfold node_action_assign_sound
      simp only [hs, and_false, if_false]
    · unfold node_action_switch_loop
      simp only [hs, and_false, if_false]
    · unfold node_action_switch_stream
      simp only [hs, and_false, if_false]
  refine ⟨fun hfile => ?_, fun hrepeat => ?_⟩
  · obtain ⟨k1, k2, k3⟩ := key state hfile
    refine ⟨k1, k2, k3, ?_⟩
    unfold process_node_action
    cases hrem : node_action_remove E state with
    | none => rfl
    | some s1 =>
      have hv := node_action_remove_view_state E state s1 hrem
      obtain ⟨j1, j2, j3⟩ := key s1 (by rw [hv]; exact hfile)
      simp only [Option.bind_eq_bind, Option.some_bind, j1, j2, j3]
  · unfold dispatch
    cases ht : state.view_state.node_action.node_desc.type with
    | Repeat => exact absurd ht hrepeat
    | None => simp only [ht]
    | File => simp only [ht]
    | Random => simp only [ht]
    | Sequence => simp only [ht]

theorem type_mismatched_operations_ignored_witness :
    (sample_state_sequence_requests.view_state.node_action.action_assign_sound = true ∧
      sample_state_sequence_requests.view_state.node_action.action_switch_loop = true ∧
      sample_state_sequence_requests.view_state.node_action.action_switch_stream = true) ∧
      (node_action_assign_sound (model_externals view_action_type_e.NONE id)
          sample_state_sequence_requests = some sample_state_sequence_requests ∧
        node_action_switch_loop (model_externals view_action_type_e.NONE id)
          sample_state_sequence_requests = some sample_state_sequence_requests ∧
        node_action_switch_stream (model_externals view_action_type_e.NONE id)
          sample_state_sequence_requests = some sample_state_sequence_requests ∧
        process_node_action (model_externals view_action_type_e.NONE id)
          sample_state_sequence_requests =
          node_action_remove (model_externals view_action_type_e.NONE id)
            sample_state_sequence_requests) ∧
      dispatch (model_externals view_action_type_e.NONE id) view_action_type_e.NODE_UPDATE
        sample_state_sequence_requests = some sample_state_sequence_requests :=
  ⟨by decide,
    (type_mismatched_operations_ignored (model_externals view_action_type_e.NONE id)
      sample_state_sequence_requests).1 (by decide),
    (type_mismatched_operations_ignored (model_externals view_action_type_e.NONE id)
      sample_state_sequence_requests).2 (by decide)⟩

/-! ## The type "none" of an action -/

theorem action_type_combo_changed (current_index : Nat) (action_ptr : action_t)
    (mut_view_state : view_state_t) (action : view_action_type_e)
    (hchange : current_index ≠ action_ptr.type) :
    action_type_combo current_index action_ptr mut_view_state action =
      ({ mut_view_state with
          active_action := { mut_view_state.active_action with type := current_index } },
        if current_index = ActionType_none then view_action_type_e.EVENT_REMOVE_ACTION
        else view_action_type_e.EVENT_UPDATE_ACTION) := by
  unfold action_type_combo
  rw [if_pos hchange]
  by_cases c : current_index = ActionType_none
  · rw [if_pos c, if_pos c]
  · rw [if_neg c, if_neg c]

/-- C19: changing the type of an action to the sentinel "none" is a removal. When the type
combo of an action row leaves an index different from the action's type, the view state's
`active_action` takes the new type and the action of the pass becomes `EVENT_REMOVE_ACTION`
exactly when the new type is `ActionType_none`, and `EVENT_UPDATE_ACTION` exactly when it is
not. Dispatching `EVENT_REMOVE_ACTION` returns whenever `remove_event_action` returns and leaves
a valid event index; it makes exactly one call into the logic layer, `remove_event_action` on
`(active_event_index, active_action_index)` (so never `update_event_action`), and the logic
state afterwards is the one that call returned: when that call erases the action at that
position of the event, the event's actions afterwards are the former ones without it, and every
action of the event afterwards was an action of the event before. -/
theorem action_type_none_is_removal (E : externals) (state : app_state_t)
    (current_index : Nat) (action_ptr : action_t) (mut_view_state : view_state_t)
    (action : view_action_type_e) (bl_state : logic_state_t) (result : Nat)
    (hchange : current_index ≠ action_ptr.type)
    (hrun : E.logic.run
      (logic_call.remove_event_action state.view_state.active_event_index
        state.view_state.active_action_index) state.bl_state = some (bl_state, result))
    (hevent : state.view_state.active_event_index = invalid_index ∨
      state.view_state.active_event_index < bl_state.data_state.events.length) :
    ((action_type_combo current_index action_ptr mut_view_state action).2 =
          view_action_type_e.EVENT_REMOVE_ACTION ↔ current_index = ActionType_none) ∧
      ((action_type_combo current_index action_ptr mut_view_state action).2 =
          view_action_type_e.EVENT_UPDATE_ACTION ↔ current_index ≠ ActionType_none) ∧
      (action_type_combo current_index action_ptr mut_view_state action).1 =
        { mut_view_state with
          active_action := { mut_view_state.active_action with type := current_index } } ∧
      ∃ state',
        dispatch E view_action_type_e.EVENT_REMOVE_ACTION state = some state' ∧
          state'.logic_calls =
            state.logic_calls ++
              [logic_call.remove_event_action state.view_state.active_event_index
                state.view_state.active_action_index] ∧
          state'.bl_state = bl_state ∧
          ∀ event,
            state.bl_state.data_state.events[state.view_state.active_event_index]? = some event →
            bl_state.data_state.events[state.view_state.active_event_index]? =
              some { event with
                actions := event.actions.eraseIdx state.view_state.active_action_index } →
            ∃ event',
              state'.bl_state.data_state.events[state.view_state.active_event_index]? =
                  some event' ∧
                event'.actions =
                  event.actions.eraseIdx state.view_state.active_action_index ∧
                ∀ a ∈ event'.actions, a ∈ event.actions := by
  have hcombo := action_type_combo_changed current_index action_ptr mut_view_state action hchange
  refine ⟨?_, ?_, ?_, ?_⟩
  · rw [hcombo]
    by_cases c : current_index = ActionType_none
    · simp only [c, if_true]
    · simp only [c, if_false, reduceCtorEq]
  · rw [hcombo]
    by_cases c : current_index = ActionType_none
    · simp only [c, if_true, ne_eq, not_true_eq_false, reduceCtorEq]
    · simp only [c, if_false, ne_eq, not_false_eq_true]
  · rw [hcombo]
  · have hinv := invoke_of_run E.logic _ state bl_state result hrun
    obtain ⟨state', hsel⟩ :=
      update_selected_event_action_returns
        { state with
          bl_state := bl_state
          logic_calls :=
            state.logic_calls ++
              [logic_call.remove_event_action state.view_state.active_event_index
                state.view_state.active_action_index] }
        state.view_state.active_action_index hevent
    have hf := (update_selected_event_action_fields _ _ _ hsel).1
    have hbl : state'.bl_state = bl_state := by rw [hf]
    refine ⟨state', ?_, ?_, hbl, ?_⟩
    · unfold dispatch
      simp only [hinv, Option.bind_eq_bind, Option.some_bind]
      exact hsel
    · rw [hf]
    · intro event _ hafter
      refine ⟨{ event with
        actions := event.actions.eraseIdx state.view_state.active_action_index }, ?_, rfl, ?_⟩
      · rw [hbl]
        exact hafter
      · intro a ha
        exact List.mem_of_mem_eraseIdx ha

theorem action_type_none_is_removal_witness :
    (action_type_combo ActionType_none ⟨2, 0, 0⟩ sample_state_synced.view_state
        view_action_type_e.NONE).2 = view_action_type_e.EVENT_REMOVE_ACTION ∧
      sample_state_type_none.view_state.active_action.type = ActionType_none ∧
      ∃ state',
        dispatch (model_externals view_action_type_e.NONE id)
            view_action_type_e.EVENT_REMOVE_ACTION sample_state_type_none = some state' ∧
          state'.logic_calls = [logic_call.remove_event_action 1 1] ∧
          state'.bl_state = sample_logic_action_removed :=
  have h :=
    action_type_none_is_removal (model_externals view_action_type_e.NONE id)
      sample_state_type_none ActionType_none ⟨2, 0, 0⟩ sample_state_synced.view_state
      view_action_type_e.NONE sample_logic_action_removed 0 (by decide) (by decide)
      (Or.inr (by decide))
  ⟨h.1.mpr rfl, by decide,
    h.2.2.2.elim fun state' hs => ⟨state', hs.1, hs.2.1, hs.2.2.1⟩⟩

/-! ## The bus volumes -/

theorem bus_volume_loop_runtime_ctx :
    ∀ (volumes : List Int) (index : Nat) (s : app_state_t), index < 256 →
      (bus_volume_loop volumes index s).runtime_ctx =
        s.runtime_ctx ++
          (List.range volumes.length).map
            (fun i =>
              hlea_call.set_bus_volume ((index + i) % 256)
                (bus_volume_value (volumes.getD i 0))) := by
  intro volumes
  induction volumes with
  | nil => intro index s _; simp [bus_volume_loop]
  | cons v rest ih =>
    intro index s hidx
    rw [bus_volume_loop, ih _ _ (Nat.mod_lt _ (by norm_num))]
    rw [List.length_cons, List.range_succ_eq_map, List.map_cons, List.map_map]
    have e0 : (index + 0) % 256 = index := by rw [Nat.add_zero, Nat.mod_eq_of_lt hidx]
    have e1 : ∀ i, ((index + 1) % 256 + i) % 256 = (index + (i + 1)) % 256 := by
      intro i
      omega
    simp only [hlea, List.append_assoc, List.singleton_append, e0, e1, List.getD_cons_zero,
      Function.comp_def, List.getD_cons_succ]

theorem dispatch_bus_volume_changed (E : externals) (state : app_state_t) :
    dispatch E view_action_type_e.BUS_VOLUME_CHANGED state =
      some (bus_volume_loop state.view_state.output_bus_volumes 0 state) := rfl

theorem bus_volume_loop_requests (volumes : List Int) (s : app_state_t) :
    (bus_volume_loop volumes 0 s).runtime_ctx = s.runtime_ctx ++ bus_volume_requests volumes := by
  rw [bus_volume_loop_runtime_ctx volumes 0 s (by norm_num)]
  unfold bus_volume_requests
  simp only [Nat.zero_add]

theorem getD_replicate_of_lt (n i : Nat) (a d : Int) (h : i < n) :
    (List.replicate n a).getD i d = a := by
  rw [List.getD_eq_getElem?_getD, List.getElem?_replicate, if_pos h]
  rfl

/-- Values of `float` arithmetic: 1/3 and 1/10 are rounded to 24 binary digits, `2 ^ 24 + 1`
is a tie and goes to the even neighbour `2 ^ 24`, `2 ^ 24 + 3` to `2 ^ 24 + 4`, and values and
quotients that are `float`s are exact. -/
theorem float_round_values :
    float_round 1 3 = (11184811, 33554432) ∧
      float_round 1 10 = (13421773, 134217728) ∧
      int_to_float 16777217 = (16777216, 1) ∧
      int_to_float (-16777219) = (-16777220, 1) ∧
      int_to_float 100 = (13107200, 131072) ∧
      float_div (int_to_float 50) (int_to_float 100) = (8388608, 16777216) ∧
      float_div (int_to_float 0) (int_to_float 100) = (0, 1) := by
  decide

theorem bus_volume_value_100 : bus_volume_value 100 = 1 := by
  have h : float_div (int_to_float 100) (int_to_float 100) = (8388608, 8388608) := by decide
  unfold bus_volume_value float_value
  rw [h]
  norm_num

theorem bus_volume_value_33 : bus_volume_value 33 = 11072963 / 33554432 := by
  have h : float_div (int_to_float 33) (int_to_float 100) = (11072963, 33554432) := by decide
  unfold bus_volume_value float_value
  rw [h]
  norm_num

/-- C20, as stated, fails: with 257 output buses the request for the last bus (position 256)
carries the bus index 0, the 8-bit counter having wrapped, and not the index 256; bus 0 is
requested twice and bus 256 never. And the value is the quotient taken in `float`: for a
volume of 33 the request carries 11072963 / 33554432, which is not 33 / 100. -/
theorem bus_volume_index_wraps :
    sample_state_many_buses.view_state.output_bus_volumes.length = 257 ∧
      sample_state_many_buses.runtime_ctx = [] ∧
      (∃ state',
        dispatch (model_externals view_action_type_e.NONE id)
            view_action_type_e.BUS_VOLUME_CHANGED sample_state_many_buses = some state' ∧
          state'.runtime_ctx.length = 257 ∧
          state'.runtime_ctx[0]? = some (hlea_call.set_bus_volume 0 1) ∧
          state'.runtime_ctx[256]? = some (hlea_call.set_bus_volume 0 1) ∧
          state'.runtime_ctx[256]? ≠ some (hlea_call.set_bus_volume 256 1) ∧
          ∀ volume, hlea_call.set_bus_volume 256 volume ∉ state'.runtime_ctx) ∧
      sample_state_volume_33.view_state.output_bus_volumes = [33] ∧
      sample_state_volume_33.runtime_ctx = [] ∧
      (∃ state',
        dispatch (model_externals view_action_type_e.NONE id)
            view_action_type_e.BUS_VOLUME_CHANGED sample_state_volume_33 = some state' ∧
          state'.runtime_ctx = [hlea_call.set_bus_volume 0 (11072963 / 33554432)]) ∧
      (11072963 / 33554432 : ℚ) ≠ 33 / 100 := by
  have hvol : sample_state_many_buses.view_state.output_bus_volumes = List.replicate 257 100 :=
    rfl
  have hctx : sample_state_many_buses.runtime_ctx = [] := rfl
  have hreq := bus_volume_loop_runtime_ctx (List.replicate 257 100) 0 sample_state_many_buses
    (by norm_num)
  rw [hctx, List.nil_append, List.length_replicate] at hreq
  have hone := bus_volume_value_100
  have h256 : (bus_volume_loop (List.replicate 257 100) 0 sample_state_many_buses).runtime_ctx[256]? =
      some (hlea_call.set_bus_volume 0 1) := by
    rw [hreq, List.getElem?_map, List.getElem?_range (by norm_num), Option.map_some',
      getD_replicate_of_lt _ _ _ _ (by norm_num), hone]
  have h33 : (bus_volume_loop [33] 0 sample_state_volume_33).runtime_ctx =
      [hlea_call.set_bus_volume 0 (11072963 / 33554432)] := by
    rw [← bus_volume_value_33]
    rfl
  refine ⟨by rw [hvol, List.length_replicate], hctx,
    ⟨_, dispatch_bus_volume_changed _ _, ?_, ?_, ?_, ?_, ?_⟩, rfl, rfl,
    ⟨_, dispatch_bus_volume_changed _ _, h33⟩, by norm_num⟩
  · rw [hvol, hreq, List.length_map, List.length_range]
  · rw [hvol, hreq, List.getElem?_map, List.getElem?_range (by norm_num), Option.map_some',
      getD_replicate_of_lt _ _ _ _ (by norm_num), hone]
  · rw [hvol]
    exact h256
  · rw [hvol, h256]
    intro h
    have h1 := (hlea_call.set_bus_volume.inj (Option.some.inj h)).1
    omega
  · intro volume hmem
    rw [hvol, hreq, List.mem_map] at hmem
    obtain ⟨i, _, hi⟩ := hmem
    have h1 := (hlea_call.set_bus_volume.inj hi).1
    have h2 := Nat.mod_lt i (show 256 > 0 by norm_num)
    omega

/-- C20, amended: dispatching `BUS_VOLUME_CHANGED` always returns; it appends to the requests
of the runtime exactly one `set_bus_volume` request per entry of `output_bus_volumes`, in
order, the request at position `i` carrying the bus index `i % 256` and the value
`(float)output_bus_volumes[i] / 100`, the quotient taken in `float` (the conversion and the
division each rounded to the nearest `float`), and changes nothing else: no call into the logic
layer, the same document and undo stack. With at most 256 entries the bus index of the request
at position `i` is `i`. -/
theorem bus_volume_changed_requests (E : externals) (state : app_state_t) :
    ∃ state',
      dispatch E view_action_type_e.BUS_VOLUME_CHANGED state = some state' ∧
        state' = { state with runtime_ctx := state'.runtime_ctx } ∧
        state'.bl_state = state.bl_state ∧
        state'.logic_calls = state.logic_calls ∧
        state'.runtime_ctx =
          state.runtime_ctx ++ bus_volume_requests state.view_state.output_bus_volumes ∧
        (bus_volume_requests state.view_state.output_bus_volumes).length =
          state.view_state.output_bus_volumes.length ∧
        (∀ (i : Nat) (volume_percents : Int),
          state.view_state.output_bus_volumes[i]? = some volume_percents →
          (bus_volume_requests state.view_state.output_bus_volumes)[i]? =
            some (hlea_call.set_bus_volume (i % 256)
              (float_value (float_div (int_to_float volume_percents) (int_to_float 100))))) ∧
        (state.view_state.output_bus_volumes.length ≤ 256 →
          ∀ (i : Nat) (volume_percents : Int),
            state.view_state.output_bus_volumes[i]? = some volume_percents →
            (bus_volume_requests state.view_state.output_bus_volumes)[i]? =
              some (hlea_call.set_bus_volume i
                (float_value (float_div (int_to_float volume_percents) (int_to_float 100))))) := by
  have hframe := bus_volume_loop_frame state.view_state.output_bus_volumes 0 state
  have hget : ∀ (i : Nat) (volume_percents : Int),
      state.view_state.output_bus_volumes[i]? = some volume_percents →
      (bus_volume_requests state.view_state.output_bus_volumes)[i]? =
        some (hlea_call.set_bus_volume (i % 256)
          (float_value (float_div (int_to_float volume_percents) (int_to_float 100)))) := by
    intro i v hv
    have hlt : i < state.view_state.output_bus_volumes.length := by
      by_contra hge
      rw [List.getElem?_eq_none (Nat.le_of_not_lt hge)] at hv
      exact Option.noConfusion hv
    unfold bus_volume_requests
    rw [List.getElem?_map, List.getElem?_range hlt, Option.map_some', List.getD_eq_getElem?_getD,
      hv]
    rfl
  refine ⟨_, dispatch_bus_volume_changed E state, hframe, ?_, ?_,
    bus_volume_loop_requests _ _, ?_, hget, ?_⟩
  · rw [hframe]
  · rw [hframe]
  · unfold bus_volume_requests
    rw [List.length_map, List.length_range]
  · intro hle i v hv
    have hlt : i < state.view_state.output_bus_volumes.length := by
      by_contra hge
      rw [List.getElem?_eq_none (Nat.le_of_not_lt hge)] at hv
      exact Option.noConfusion hv
    rw [hget i v hv, Nat.mod_eq_of_lt (Nat.lt_of_lt_of_le hlt hle)]

theorem bus_volume_changed_requests_witness :
    sample_state_volume_33.view_state.output_bus_volumes = [33] ∧
      float_div (int_to_float 33) (int_to_float 100) = (11072963, 33554432) ∧
      ∃ state',
        dispatch (model_externals view_action_type_e.NONE id)
            view_action_type_e.BUS_VOLUME_CHANGED sample_state_volume_33 = some state' ∧
          state'.bl_state = sample_state_volume_33.bl_state ∧
          state'.runtime_ctx =
            sample_state_volume_33.runtime_ctx ++
              bus_volume_requests sample_state_volume_33.view_state.output_bus_volumes ∧
          (bus_volume_requests sample_state_volume_33.view_state.output_bus_volumes)[0]? =
            some (hlea_call.set_bus_volume 0
              (float_value (float_div (int_to_float 33) (int_to_float 100)))) :=
  ⟨rfl, by decide,
    (bus_volume_changed_requests (model_externals view_action_type_e.NONE id)
      sample_state_volume_33).elim
      fun state' hs =>
        ⟨state', hs.1, hs.2.2.1, hs.2.2.2.2.1,
          hs.2.2.2.2.2.2.2 (Nat.le_of_ble_eq_true rfl) 0 33 rfl⟩⟩

/-! ## The action selection across a pass of the synchronizer -/

theorem update_active_event_resets_action_index (s : app_state_t) (i : Nat) (event : event_t)
    (hi : i ≠ invalid_index) (hev : s.bl_state.data_state.events[i]? = some event)
    (hne : event.actions ≠ []) :
    ∃ s1, update_active_event s i = some s1 ∧ s1.view_state.active_action_index = 0 := by
  obtain ⟨s1, h1⟩ := update_active_event_returns s i (Or.inr (getElem?_some_lt _ _ _ hev))
  refine ⟨s1, h1, ?_⟩
  rcases (update_active_event_eq_some s s1 i).mp h1 with ⟨hinv, _⟩ | ⟨_, event1, hev1, hsel⟩
  · exact absurd hinv hi
  · rw [hev] at hev1
    cases Option.some.inj hev1
    rcases (update_selected_event_action_eq_some _ s1 0).mp hsel with
      ⟨hinv, _⟩ | ⟨_, event2, hev2, ⟨hnil, _⟩ | ⟨_, action, _, hs1⟩⟩
    · exact absurd hinv hi
    · have hev2 : s.bl_state.data_state.events[i]? = some event2 := hev2
      rw [hev] at hev2
      cases Option.some.inj hev2
      exact absurd hnil hne
    · have hev2 : s.bl_state.data_state.events[i]? = some event2 := hev2
      rw [hev] at hev2
      cases Option.some.inj hev2
      rw [hs1]
      show (if event.actions.length ≤ 0 then event.actions.length - 1 else 0) = 0
      split <;> omega

/-- C21: a pass of the synchronizer does not move a valid action selection. When
`active_event_index` is valid (not the sentinel, and the index of an event of the document),
`update_mutable_view_state` returns and keeps `active_event_index`; if `active_action_index`
is the index of an action of that event, it is unchanged after the pass and `active_action` is
the document's action at that index, although `update_active_event` on its own leaves the
index 0 when the event has actions; if the event has actions and `active_action_index` is not
below their number (the invalid sentinel included), the index becomes `actions.length - 1` and
`active_action` the last action. -/
theorem valid_action_selection_kept (state : app_state_t) (event : event_t)
    (hvalid : state.view_state.active_event_index ≠ invalid_index)
    (hevent : state.bl_state.data_state.events[state.view_state.active_event_index]? =
      some event) :
    ∃ state', update_mutable_view_state state = some state' ∧
      state'.bl_state = state.bl_state ∧
      state'.view_state.active_event_index = state.view_state.active_event_index ∧
      (∀ action, event.actions[state.view_state.active_action_index]? = some action →
        state'.view_state.active_action_index = state.view_state.active_action_index ∧
        state'.view_state.active_action = action) ∧
      (event.actions ≠ [] →
        ∃ s1, update_active_event state state.view_state.active_event_index = some s1 ∧
          s1.view_state.active_action_index = 0) ∧
      (event.actions ≠ [] → event.actions.length ≤ state.view_state.active_action_index →
        state'.view_state.active_action_index = event.actions.length - 1 ∧
        event.actions[event.actions.length - 1]? = some state'.view_state.active_action) := by
  have hlt := getElem?_some_lt _ _ _ hevent
  obtain ⟨state', h⟩ :=
    (update_mutable_view_state_returns_iff state).mpr (Or.inr (Or.inr hlt))
  have p := update_mutable_view_state_post state state' h
  have hlen : state.bl_state.data_state.events.length ≠ 0 := by omega
  have hidx : state'.view_state.active_event_index = state.view_state.active_event_index := by
    rw [p.event_index, if_neg hlen]
  obtain ⟨event1, hev1, _, _, hne1⟩ := p.event_valid (by rw [hidx]; exact hvalid)
  rw [hidx, hevent] at hev1
  cases Option.some.inj hev1
  refine ⟨state', h, by rw [p.frame], hidx, ?_, ?_, ?_⟩
  · intro action haction
    have hin := getElem?_some_lt _ _ _ haction
    have hne : event.actions ≠ [] := by
      intro hnil
      rw [hnil] at hin
      exact Nat.not_lt_zero _ hin
    obtain ⟨e1, e2⟩ := hne1 hne
    rw [if_neg (Nat.not_le_of_lt hin)] at e1
    refine ⟨e1, ?_⟩
    rw [e1, haction] at e2
    exact (Option.some.inj e2).symm
  · intro hne
    exact update_active_event_resets_action_index state _ event hvalid hevent hne
  · intro hne hle
    obtain ⟨e1, e2⟩ := hne1 hne
    rw [if_pos hle] at e1
    refine ⟨e1, ?_⟩
    rw [e1] at e2
    exact e2

theorem valid_action_selection_kept_witness :
    sample_state_synced.view_state.active_event_index = 1 ∧
      sample_state_synced.view_state.active_action_index = 1 ∧
      sample_state.view_state.active_action_index = 7 ∧
      (∃ state', update_mutable_view_state sample_state_synced = some state' ∧
        state'.view_state.active_action_index = 1 ∧
        state'.view_state.active_action = ⟨2, 0, 0⟩) ∧
      ∃ state', update_mutable_view_state sample_state = some state' ∧
        state'.view_state.active_action_index = 2 - 1 :=
  ⟨by decide, by decide, by decide,
    (valid_action_selection_kept sample_state_synced
      { name := "bang".toList, actions := [⟨1, 1, 0⟩, ⟨2, 0, 0⟩] } (by decide) (by decide)).imp
      (fun _ h => ⟨h.1, h.2.2.2.1 ⟨2, 0, 0⟩ (by decide)⟩),
    (valid_action_selection_kept sample_state
      { name := "bang".toList, actions := [⟨1, 1, 0⟩, ⟨2, 0, 0⟩] } (by decide) (by decide)).imp
      (fun _ h => ⟨h.1, (h.2.2.2.2.2 (by decide) (by decide)).1⟩)⟩

/-! ## Lemmas: the bus volumes of the view and the buses of the document -/

theorem bus_counts_related_of_eq (s s' : app_state_t)
    (hv : s'.view_state.output_bus_volumes = s.view_state.output_bus_volumes)
    (hb : s'.bl_state = s.bl_state) : bus_counts_related s s' := by
  unfold bus_counts_related
  rw [hv, hb]

theorem bus_counts_related_trans (s1 s2 s3 : app_state_t) (h12 : bus_counts_related s1 s2)
    (h23 : bus_counts_related s2 s3) : bus_counts_related s1 s3 := by
  unfold bus_counts_related at *
  omega

theorem update_active_group_volumes (s s' : app_state_t) (g : Nat)
    (h : update_active_group s g = some s') :
    s'.view_state.output_bus_volumes = s.view_state.output_bus_volumes := by
  rcases (update_active_group_eq_some s s' g).mp h with ⟨_, rfl⟩ | ⟨_, _, _, rfl⟩ <;> rfl

theorem update_selected_event_action_volumes (s s' : app_state_t) (a : Nat)
    (h : update_selected_event_action s a = some s') :
    s'.view_state.output_bus_volumes = s.view_state.output_bus_volumes := by
  rcases (update_selected_event_action_eq_some s s' a).mp h with
    ⟨_, rfl⟩ | ⟨_, _, _, ⟨_, rfl⟩ | ⟨_, _, _, rfl⟩⟩ <;> rfl

theorem update_active_event_volumes (s s' : app_state_t) (i : Nat)
    (h : update_active_event s i = some s') :
    s'.view_state.output_bus_volumes = s.view_state.output_bus_volumes := by
  rcases (update_active_event_eq_some s s' i).mp h with ⟨_, rfl⟩ | ⟨_, _, _, h2⟩
  · rfl
  · exact (update_selected_event_action_volumes _ _ _ h2).trans rfl

theorem filter_events_volumes (s : app_state_t) :
    (filter_events s).view_state.output_bus_volumes = s.view_state.output_bus_volumes := by
  rw [filter_events_frame]

theorem update_mutable_view_state_volumes (s s' : app_state_t)
    (h : update_mutable_view_state s = some s') :
    s'.view_state.output_bus_volumes = s.view_state.output_bus_volumes := by
  obtain ⟨s1, s2, s3, h1, h2, h3, rfl⟩ := (update_mutable_view_state_eq_some s s').mp h
  have e0 :
      (if s.view_state.groups_size_on_event_filter_group ≠ s.bl_state.data_state.groups.length then
        { s with
          view_state := { s.view_state with event_filter_group_index := invalid_index } }
      else s).view_state.output_bus_volumes = s.view_state.output_bus_volumes := by
    split <;> rfl
  rw [filter_events_volumes, update_selected_event_action_volumes _ _ _ h3,
    update_active_event_volumes _ _ _ h2, update_active_group_volumes _ _ _ h1, e0]

theorem bus_counts_related_update_active_group (s s' : app_state_t) (g : Nat)
    (h : update_active_group s g = some s') : bus_counts_related s s' :=
  bus_counts_related_of_eq _ _ (update_active_group_volumes s s' g h)
    (by rw [(update_active_group_fields s s' g h).1])

theorem bus_counts_related_update_active_event (s s' : app_state_t) (i : Nat)
    (h : update_active_event s i = some s') : bus_counts_related s s' :=
  bus_counts_related_of_eq _ _ (update_active_event_volumes s s' i h)
    (by rw [(update_active_event_fields s s' i h).1])

theorem bus_counts_related_update_selected_event_action (s s' : app_state_t) (a : Nat)
    (h : update_selected_event_action s a = some s') : bus_counts_related s s' :=
  bus_counts_related_of_eq _ _ (update_selected_event_action_volumes s s' a h)
    (by rw [(update_selected_event_action_fields s s' a h).1])

theorem bus_counts_related_update_mutable_view_state (s s' : app_state_t)
    (h : update_mutable_view_state s = some s') : bus_counts_related s s' :=
  bus_counts_related_of_eq _ _ (update_mutable_view_state_volumes s s' h)
    (by rw [update_mutable_view_state_frame s s' h])

theorem bus_counts_related_invoke (L : app_logic) (hL : logic_keeps_bus_count L)
    (call : logic_call) (s s' : app_state_t) (r : Nat) (h : invoke L call s = some (s', r)) :
    bus_counts_related s s' := by
  obtain ⟨bl, hrun, rfl⟩ := invoke_eq_some L call s s' r h
  have hlen := hL call s.bl_state bl r hrun
  unfold bus_counts_related
  show s.view_state.output_bus_volumes.length + s.bl_state.data_state.output_buses.length =
    s.view_state.output_bus_volumes.length + bl.data_state.output_buses.length
  rw [hlen]

theorem bus_counts_related_invoke_fst (L : app_logic) (hL : logic_keeps_bus_count L)
    (call : logic_call) (s s' : app_state_t)
    (h : (do let (state, _) ← invoke L call s; some state) = some s') :
    bus_counts_related s s' := by
  simp only [Option.bind_eq_bind, Option.bind_eq_some, Option.some.injEq] at h
  obtain ⟨⟨s1, r⟩, h1, rfl⟩ := h
  exact bus_counts_related_invoke L hL call s s1 r h1

theorem add_output_bus_eq (s : app_state_t) :
    (add_output_bus s).bl_state =
        { s.bl_state with
          data_state :=
            { s.bl_state.data_state with
              output_buses :=
                s.bl_state.data_state.output_buses ++ [{ name := "<bus name>".toList }] } } ∧
      (add_output_bus s).view_state =
        { s.view_state with output_bus_volumes := s.view_state.output_bus_volumes ++ [100] } ∧
      (add_output_bus s).logic_calls = s.logic_calls := by
  unfold add_output_bus recreate_context create_context unload_and_destroy_context hlea
  cases s.bank <;> exact ⟨rfl, rfl, rfl⟩

theorem bus_counts_related_add_output_bus (s : app_state_t) :
    bus_counts_related s (add_output_bus s) := by
  obtain ⟨hb, hv, _⟩ := add_output_bus_eq s
  unfold bus_counts_related
  rw [hb, hv]
  simp only [List.length_append, List.length_singleton]
  omega

theorem bus_counts_related_refl (s : app_state_t) : bus_counts_related s s :=
  bus_counts_related_of_eq s s rfl rfl

theorem bus_counts_related_dispatch (E : externals) (hL : logic_keeps_bus_count E.logic)
    (action : view_action_type_e) (s s' : app_state_t) (h : dispatch E action s = some s') :
    bus_counts_related s s' := by
  cases action with
  | NONE =>
    simp only [dispatch] at h
    rw [← Option.some.inj h]
    exact bus_counts_related_refl s
  | SAVE =>
    simp only [dispatch, Option.bind_eq_bind, Option.bind_eq_some, Option.some.injEq] at h
    obtain ⟨⟨s1, r⟩, h1, rfl⟩ := h
    exact bus_counts_related_trans _ _ _ (bus_counts_related_invoke _ hL _ _ _ _ h1)
      (bus_counts_related_of_eq _ _ rfl rfl)
  | UNDO =>
    simp only [dispatch, perform_undo, Option.bind_eq_bind, Option.bind_eq_some] at h
    obtain ⟨⟨s1, r⟩, h1, h2⟩ := h
    refine bus_counts_related_trans _ _ _ (bus_counts_related_invoke _ hL _ _ _ _ h1) ?_
    split at h2
    · exact bus_counts_related_update_mutable_view_state _ _ h2
    · rw [← Option.some.inj h2]
      exact bus_counts_related_refl _
  | REDO =>
    simp only [dispatch, perform_redo, Option.bind_eq_bind, Option.bind_eq_some] at h
    obtain ⟨⟨s1, r⟩, h1, h2⟩ := h
    refine bus_counts_related_trans _ _ _ (bus_counts_related_invoke _ hL _ _ _ _ h1) ?_
    split at h2
    · exact bus_counts_related_update_mutable_view_state _ _ h2
    · rw [← Option.some.inj h2]
      exact bus_counts_related_refl _
  | GROUP_ADD =>
    simp only [dispatch, Option.bind_eq_bind, Option.bind_eq_some] at h
    obtain ⟨⟨s1, r⟩, h1, s2, h2, h3⟩ := h
    exact bus_counts_related_trans _ _ _ (bus_counts_related_invoke _ hL _ _ _ _ h1)
      (bus_counts_related_trans _ _ _ (bus_counts_related_update_active_group _ _ _ h2)
        (bus_counts_related_update_mutable_view_state _ _ h3))
  | GROUP_REMOVE =>
    simp only [dispatch, Option.bind_eq_bind, Option.bind_eq_some] at h
    obtain ⟨⟨s1, r⟩, h1, h2⟩ := h
    exact bus_counts_related_trans _ _ _ (bus_counts_related_invoke _ hL _ _ _ _ h1)
      (bus_counts_related_update_mutable_view_state _ _ h2)
  | APPLY_SELECTED_GROUP_UPDATE =>
    simp only [dispatch, Option.bind_eq_bind, Option.bind_eq_some] at h
    obtain ⟨⟨s1, r⟩, h1, h2⟩ := h
    exact bus_counts_related_trans _ _ _ (bus_counts_related_invoke _ hL _ _ _ _ h1)
      (bus_counts_related_update_mutable_view_state _ _ h2)
  | EVENT_ADD =>
    simp only [dispatch, Option.bind_eq_bind, Option.bind_eq_some] at h
    obtain ⟨⟨s1, r⟩, h1, s2, h2, h3⟩ := h
    exact bus_counts_related_trans _ _ _ (bus_counts_related_invoke _ hL _ _ _ _ h1)
      (bus_counts_related_trans _ _ _ (bus_counts_related_update_active_event _ _ _ h2)
        (bus_counts_related_update_mutable_view_state _ _ h3))
  | EVENT_REMOVE =>
    simp only [dispatch, Option.bind_eq_bind, Option.bind_eq_some] at h
    obtain ⟨⟨s1, r⟩, h1, h2⟩ := h
    exact bus_counts_related_trans _ _ _ (bus_counts_related_invoke _ hL _ _ _ _ h1)
      (bus_counts_related_update_mutable_view_state _ _ h2)
  | EVENT_UPDATE =>
    simp only [dispatch, Option.bind_eq_bind, Option.bind_eq_some] at h
    obtain ⟨⟨s1, r⟩, h1, h2⟩ := h
    exact bus_counts_related_trans _ _ _ (bus_counts_related_invoke _ hL _ _ _ _ h1)
      (bus_counts_related_update_mutable_view_state _ _ h2)
  | EVENT_FILTER =>
    simp only [dispatch] at h
    rw [← Option.some.inj h]
    exact bus_counts_related_of_eq _ _ (filter_events_volumes s) (by rw [filter_events_frame])
  | EVENT_UPDATE_ACTION =>
    simp only [dispatch] at h
    exact bus_counts_related_invoke_fst _ hL _ _ _ h
  | EVENT_REMOVE_ACTION =>
    simp only [dispatch, Option.bind_eq_bind, Option.bind_eq_some] at h
    obtain ⟨⟨s1, r⟩, h1, h2⟩ := h
    exact bus_counts_related_trans _ _ _ (bus_counts_related_invoke _ hL _ _ _ _ h1)
      (bus_counts_related_update_selected_event_action _ _ _ h2)
  | EVENT_APPEND_ACTION =>
    simp only [dispatch, Option.bind_eq_bind, Option.bind_eq_some] at h
    obtain ⟨⟨s1, r⟩, h1, h2⟩ := h
    exact bus_counts_related_trans _ _ _ (bus_counts_related_invoke _ hL _ _ _ _ h1)
      (bus_counts_related_update_selected_event_action _ _ _ h2)
  | NODE_ADD =>
    simp only [dispatch] at h
    split at h
    · split at h
      · exact bus_counts_related_invoke_fst _ hL _ _ _ h
      · split at h
        · exact bus_counts_related_invoke_fst _ hL _ _ _ h
        · exact bus_counts_related_invoke_fst _ hL _ _ _ h
    · rw [← Option.some.inj h]
      exact bus_counts_related_refl s
  | NODE_UPDATE =>
    simp only [dispatch] at h
    split at h
    · exact bus_counts_related_invoke_fst _ hL _ _ _ h
    · rw [← Option.some.inj h]
      exact bus_counts_related_refl s
  | REFRESH_WAV_LIST =>
    simp only [dispatch] at h
    rw [← Option.some.inj h]
    exact bus_counts_related_of_eq _ _ rfl rfl
  | BUS_ADD =>
    simp only [dispatch] at h
    rw [← Option.some.inj h]
    exact bus_counts_related_add_output_bus s
  | BUS_RENAME =>
    simp only [dispatch] at h
    exact bus_counts_related_invoke_fst _ hL _ _ _ h
  | BUS_VOLUME_CHANGED =>
    simp only [dispatch] at h
    rw [← Option.some.inj h]
    exact bus_counts_related_of_eq _ _ (by rw [bus_volume_loop_frame])
      (by rw [bus_volume_loop_frame])
  | SOUND_PLAY =>
    simp only [dispatch, Option.bind_eq_bind, Option.bind_eq_some, Option.some.injEq] at h
    obtain ⟨path, _, rfl⟩ := h
    exact bus_counts_related_of_eq _ _ rfl rfl
  | SOUND_STOP =>
    simp only [dispatch] at h
    rw [← Option.some.inj h]
    exact bus_counts_related_of_eq _ _ rfl rfl
  | RUNTIME_FIRE_EVENT =>
    simp only [dispatch] at h
    rw [fire_event_eq] at h
    cases hev : s.bl_state.data_state.events[s.view_state.active_event_index]? with
    | none => rw [hev] at h; exact Option.noConfusion h
    | some event =>
      rw [hev] at h
      rw [← Option.some.inj h]
      exact bus_counts_related_of_eq _ _
        (congrArg view_state_t.output_bus_volumes (fire_event_bank_props E s).2.1)
        (fire_event_bank_props E s).1

theorem bus_counts_related_process_node_action (E : externals)
    (hL : logic_keeps_bus_count E.logic) (s s' : app_state_t)
    (h : process_node_action E s = some s') : bus_counts_related s s' := by
  simp only [process_node_action, Option.bind_eq_bind, Option.bind_eq_some] at h
  obtain ⟨s1, h1, s2, h2, s3, h3, h4⟩ := h
  have a1 : bus_counts_related s s1 := by
    unfold node_action_remove at h1
    by_cases c : s.view_state.node_action.action_remove = true
    · by_cases c2 : s.view_state.node_action.parent_node_desc.type = NodeType.None
      · simp only [c, c2, if_true] at h1
        exact bus_counts_related_invoke_fst _ hL _ _ _ h1
      · simp only [c, c2, if_true, if_false] at h1
        exact bus_counts_related_invoke_fst _ hL _ _ _ h1
    · simp only [c, if_false] at h1
      rw [← Option.some.inj h1]
      exact bus_counts_related_refl s
  have a2 : bus_counts_related s1 s2 := by
    unfold node_action_assign_sound at h2
    by_cases c : s1.view_state.node_action.action_assign_sound = true ∧
        s1.view_state.node_action.node_desc.type = NodeType.File
    · simp only [c, and_self, if_true, Option.bind_eq_bind, Option.bind_eq_some,
        Option.some.injEq] at h2
      obtain ⟨_, _, ⟨sx, r⟩, hx, rfl⟩ := h2
      exact bus_counts_related_invoke _ hL _ _ _ _ hx
    · simp only [c, if_false] at h2
      rw [← Option.some.inj h2]
      exact bus_counts_related_refl s1
  have a3 : bus_counts_related s2 s3 := by
    unfold node_action_switch_loop at h3
    by_cases c : s2.view_state.node_action.action_switch_loop = true ∧
        s2.view_state.node_action.node_desc.type = NodeType.File
    · simp only [c, and_self, if_true] at h3
      exact bus_counts_related_invoke_fst _ hL _ _ _ h3
    · simp only [c, if_false] at h3
      rw [← Option.some.inj h3]
      exact bus_counts_related_refl s2
  have a4 : bus_counts_related s3 s' := by
    unfold node_action_switch_stream at h4
    by_cases c : s3.view_state.node_action.action_switch_stream = true ∧
        s3.view_state.node_action.node_desc.type = NodeType.File
    · simp only [c, and_self, if_true] at h4
      exact bus_counts_related_invoke_fst _ hL _ _ _ h4
    · simp only [c, if_false] at h4
      rw [← Option.some.inj h4]
      exact bus_counts_related_refl s3
  exact bus_counts_related_trans _ _ _ a1
    (bus_counts_related_trans _ _ _ a2 (bus_counts_related_trans _ _ _ a3 a4))

theorem bus_counts_related_select_steps (pg pe pa : Nat) (s s1 s2 s3 : app_state_t)
    (h1 : select_group pg s = some s1) (h2 : select_event pe s1 = some s2)
    (h3 : select_action pa s2 = some s3) : bus_counts_related s s3 := by
  have l1 : bus_counts_related s s1 := by
    unfold select_group at h1
    split at h1
    · exact bus_counts_related_update_active_group _ _ _ h1
    · rw [← Option.some.inj h1]
      exact bus_counts_related_refl s
  have l2 : bus_counts_related s1 s2 := by
    unfold select_event at h2
    split at h2
    · simp only [Option.bind_eq_bind, Option.bind_eq_some] at h2
      obtain ⟨i, _, h2⟩ := h2
      exact bus_counts_related_update_active_event _ _ _ h2
    · rw [← Option.some.inj h2]
      exact bus_counts_related_refl s1
  have l3 : bus_counts_related s2 s3 := by
    unfold select_action at h3
    split at h3
    · exact bus_counts_related_update_selected_event_action _ _ _ h3
    · rw [← Option.some.inj h3]
      exact bus_counts_related_refl s2
  exact bus_counts_related_trans _ _ _ l1 (bus_counts_related_trans _ _ _ l2 l3)

theorem bus_counts_related_process_frame (E : externals)
    (hL : logic_keeps_bus_count E.logic) (hV : view_keeps_volume_count E)
    (s s' : app_state_t) (h : process_frame E s = some s') : bus_counts_related s s' := by
  obtain ⟨action, view_state, s1, s2, s3, s4, hv, h1, h2, h3, h4, h5⟩ :=
    (process_frame_eq_some E s s').mp h
  have hlen := hV _ _ _ _ hv
  have a0 : bus_counts_related s
      { hlea s hlea_call.process_active_groups with view_state := view_state } := by
    unfold bus_counts_related
    show view_state.output_bus_volumes.length + s.bl_state.data_state.output_buses.length =
      s.view_state.output_bus_volumes.length + s.bl_state.data_state.output_buses.length
    rw [hlen]
    rfl
  exact bus_counts_related_trans _ _ _ a0
    (bus_counts_related_trans _ _ _ (bus_counts_related_select_steps _ _ _ _ _ _ _ h1 h2 h3)
      (bus_counts_related_trans _ _ _ (bus_counts_related_dispatch E hL _ _ _ h4)
        (bus_counts_related_process_node_action E hL _ _ h5)))

theorem bus_counts_related_run_frames :
    ∀ (frames : List externals) (s s' : app_state_t),
      (∀ E ∈ frames, logic_keeps_bus_count E.logic ∧ view_keeps_volume_count E) →
      run_frames frames s = some s' → bus_counts_related s s' := by
  intro frames
  induction frames with
  | nil =>
    intro s s' _ h
    rw [← Option.some.inj h]
    exact bus_counts_related_refl s
  | cons E rest ih =>
    intro s s' hall h
    simp only [run_frames, Option.bind_eq_some] at h
    obtain ⟨s1, h1, h2⟩ := h
    have hE := hall E (List.mem_cons_self _ _)
    exact bus_counts_related_trans _ _ _ (bus_counts_related_process_frame E hE.1 hE.2 _ _ h1)
      (ih s1 s' (fun E1 hE1 => hall E1 (List.mem_cons_of_mem _ hE1)) h2)

theorem init_with_data_volumes (E : externals) (s s' : app_state_t)
    (filepath wav_folder : List Char) (h : init_with_data E s filepath wav_folder = some s') :
    s'.bl_state.data_state = E.logic.load_store_json s.bl_state.data_state filepath ∧
      s'.view_state.output_bus_volumes =
        List.replicate s'.bl_state.data_state.output_buses.length 100 := by
  unfold init_with_data at h
  have hv := update_mutable_view_state_volumes _ _ h
  have hf := update_mutable_view_state_frame _ _ h
  have hb : s'.bl_state.data_state =
      E.logic.load_store_json s.bl_state.data_state filepath := by
    rw [hf]
    rfl
  refine ⟨hb, ?_⟩
  rw [hv, hb]
  rfl

theorem update_at_length {α : Type} (l l' : List α) (i : Nat) (f : α → α)
    (h : update_at l i f = some l') : l'.length = l.length := by
  unfold update_at at h
  cases hi : l[i]? with
  | none => rw [hi] at h; exact Option.noConfusion h
  | some a =>
    rw [hi] at h
    rw [← Option.some.inj h, List.length_set]

theorem alloc_node_output_buses (d : data_state_t) (type : NodeType) :
    (alloc_node d type).1.output_buses = d.output_buses := by
  cases type <;> rfl

theorem model_operation_bus_count (d d' : data_state_t) (call : logic_call) (r : Nat)
    (h : model_operation d call = some (d', r)) :
    d'.output_buses.length = d.output_buses.length := by
  cases call with
  | save_store_json path =>
    simp only [model_operation] at h
    exact Option.noConfusion h
  | apply_undo_chain =>
    simp only [model_operation] at h
    exact Option.noConfusion h
  | apply_redo_chain =>
    simp only [model_operation] at h
    exact Option.noConfusion h
  | create_group i =>
    simp only [model_operation] at h
    split at h
    · cases Option.some.inj h; rfl
    · exact Option.noConfusion h
  | remove_group i =>
    simp only [model_operation] at h
    split at h
    · cases Option.some.inj h; rfl
    · exact Option.noConfusion h
  | apply_group_update i group =>
    simp only [model_operation, Option.map_eq_some'] at h
    obtain ⟨l, _, hl⟩ := h
    cases hl; rfl
  | create_event i =>
    simp only [model_operation] at h
    split at h
    · cases Option.some.inj h; rfl
    · exact Option.noConfusion h
  | remove_event i =>
    simp only [model_operation] at h
    split at h
    · cases Option.some.inj h; rfl
    · exact Option.noConfusion h
  | update_event i name =>
    simp only [model_operation, Option.map_eq_some'] at h
    obtain ⟨l, _, hl⟩ := h
    cases hl; rfl
  | update_event_action i a action =>
    simp only [model_operation, Option.bind_eq_bind, Option.bind_eq_some,
      Option.some.injEq] at h
    obtain ⟨event, _, actions, _, hl⟩ := h
    cases hl; rfl
  | remove_event_action i a =>
    simp only [model_operation, Option.bind_eq_bind, Option.bind_eq_some] at h
    obtain ⟨event, _, h⟩ := h
    split at h
    · cases Option.some.inj h; rfl
    · exact Option.noConfusion h
  | add_event_action i g =>
    simp only [model_operation, Option.bind_eq_bind, Option.bind_eq_some,
      Option.some.injEq] at h
    obtain ⟨event, _, hl⟩ := h
    cases hl; rfl
  | create_root_node g type =>
    simp only [model_operation, Option.bind_eq_bind, Option.bind_eq_some,
      Option.some.injEq] at h
    obtain ⟨groups, _, hl⟩ := h
    cases hl
    exact congrArg List.length (alloc_node_output_buses d type)
  | create_repeat_node target type =>
    simp only [model_operation] at h
    split at h
    · simp only [Option.bind_eq_bind, Option.bind_eq_some] at h
      obtain ⟨node, _, h⟩ := h
      split at h
      · cases Option.some.inj h
        exact congrArg List.length (alloc_node_output_buses d type)
      · exact Option.noConfusion h
    · exact Option.noConfusion h
  | create_node target type =>
    simp only [model_operation] at h
    split at h
    · simp only [Option.map_eq_some'] at h
      obtain ⟨l, _, hl⟩ := h
      cases hl
      exact congrArg List.length (alloc_node_output_buses d type)
    · simp only [Option.map_eq_some'] at h
      obtain ⟨l, _, hl⟩ := h
      cases hl
      exact congrArg List.length (alloc_node_output_buses d type)
    · exact Option.noConfusion h
  | update_repeat_node_times target times =>
    simp only [model_operation] at h
    split at h
    · simp only [Option.map_eq_some'] at h
      obtain ⟨l, _, hl⟩ := h
      cases hl; rfl
    · exact Option.noConfusion h
  | rename_bus i name =>
    simp only [model_operation, Option.map_eq_some'] at h
    obtain ⟨l, hl1, hl⟩ := h
    cases hl
    exact update_at_length _ _ _ _ hl1
  | remove_root_node g =>
    simp only [model_operation, Option.map_eq_some'] at h
    obtain ⟨l, _, hl⟩ := h
    cases hl; rfl
  | remove_node parent i =>
    simp only [model_operation] at h
    split at h
    · simp only [Option.map_eq_some'] at h
      obtain ⟨l, _, hl⟩ := h
      cases hl; rfl
    · simp only [Option.map_eq_some'] at h
      obtain ⟨l, _, hl⟩ := h
      cases hl; rfl
    · simp only [Option.map_eq_some'] at h
      obtain ⟨l, _, hl⟩ := h
      cases hl; rfl
    · exact Option.noConfusion h
  | assign_file_node_file target filename =>
    simp only [model_operation] at h
    split at h
    · simp only [Option.map_eq_some'] at h
      obtain ⟨l, _, hl⟩ := h
      cases hl; rfl
    · exact Option.noConfusion h
  | switch_file_node_loop target =>
    simp only [model_operation] at h
    split at h
    · simp only [Option.map_eq_some'] at h
      obtain ⟨l, _, hl⟩ := h
      cases hl; rfl
    · exact Option.noConfusion h
  | switch_file_node_stream target =>
    simp only [model_operation] at h
    split at h
    · simp only [Option.map_eq_some'] at h
      obtain ⟨l, _, hl⟩ := h
      cases hl; rfl
    · exact Option.noConfusion h

theorem restore_document_bus_count (current recorded : data_state_t) :
    (restore_document current recorded).output_buses.length = current.output_buses.length := by
  unfold restore_document
  simp only [List.length_append, List.length_take, List.length_drop]
  omega

theorem model_logic_keeps_bus_count : logic_keeps_bus_count model_logic := by
  intro call bl bl' r h
  have h : model_run call bl = some (bl', r) := h
  have hop : ∀ c, (match model_operation bl.data_state c with
      | some (data_state, result) => some (apply_command bl data_state, result)
      | none => some (bl, 0)) = some (bl', r) →
      bl'.data_state.output_buses.length = bl.data_state.output_buses.length := by
    intro c hc
    cases hm : model_operation bl.data_state c with
    | none =>
      rw [hm] at hc
      cases Option.some.inj hc
      rfl
    | some p =>
      obtain ⟨d, r1⟩ := p
      rw [hm] at hc
      cases Option.some.inj hc
      exact model_operation_bus_count _ _ _ _ hm
  cases call with
  | save_store_json path =>
    simp only [model_run] at h
    cases Option.some.inj h
    rfl
  | apply_undo_chain =>
    simp only [model_run] at h
    split at h
    · cases Option.some.inj h
      rfl
    · cases Option.some.inj h
      exact restore_document_bus_count _ _
  | apply_redo_chain =>
    simp only [model_run] at h
    split at h
    · cases Option.some.inj h
      rfl
    · cases Option.some.inj h
      exact restore_document_bus_count _ _
  | create_group i => exact hop _ h
  | remove_group i => exact hop _ h
  | apply_group_update i group => exact hop _ h
  | create_event i => exact hop _ h
  | remove_event i => exact hop _ h
  | update_event i name => exact hop _ h
  | update_event_action i a action => exact hop _ h
  | remove_event_action i a => exact hop _ h
  | add_event_action i g => exact hop _ h
  | create_root_node g type => exact hop _ h
  | create_repeat_node target type => exact hop _ h
  | create_node target type => exact hop _ h
  | update_repeat_node_times target times => exact hop _ h
  | rename_bus i name => exact hop _ h
  | remove_root_node g => exact hop _ h
  | remove_node parent i => exact hop _ h
  | assign_file_node_file target filename => exact hop _ h
  | switch_file_node_loop target => exact hop _ h
  | switch_file_node_stream target => exact hop _ h

theorem model_externals_keeps_volume_count (action : view_action_type_e)
    (edit : view_state_t → view_state_t)
    (hedit : ∀ view_state,
      (edit view_state).output_bus_volumes.length = view_state.output_bus_volumes.length) :
    view_keeps_volume_count (model_externals action edit) := by
  intro view_state view_state' data_state action' h
  have h2 : some (action,
      edit
        { view_state with
          action_group_index := view_state.active_group_index
          node_action := no_node_action
          add_node_type := NodeType.None }) = some (action', view_state') := h
  have h3 := (Prod.mk.inj (Option.some.inj h2)).2
  rw [← h3, hedit]

theorem bus_row_edit_volumes (name_size : Nat) (pressed : Bool) (bus : output_bus_t)
    (index : Nat) (view_state : view_state_t) (open_bus_popup : Bool) :
    (bus_row_edit name_size pressed bus index view_state open_bus_popup).1.output_bus_volumes =
      view_state.output_bus_volumes := by
  unfold bus_row_edit
  split <;> rfl

theorem bus_row_slider_in_range (slider : Option Int) (index : Nat) (view_state : view_state_t)
    (action : view_action_type_e) (h : index < view_state.output_bus_volumes.length) :
    ∃ r, bus_row_slider slider index view_state action = some r ∧
      r.1.output_bus_volumes.length = view_state.output_bus_volumes.length := by
  unfold bus_row_slider
  rw [List.getElem?_eq_getElem h]
  cases slider with
  | none => exact ⟨_, rfl, rfl⟩
  | some volume => exact ⟨_, rfl, List.length_set _ _ _⟩

theorem bus_row_slider_out_of_range (slider : Option Int) (index : Nat)
    (view_state : view_state_t) (action : view_action_type_e)
    (h : view_state.output_bus_volumes.length ≤ index) :
    bus_row_slider slider index view_state action = none := by
  unfold bus_row_slider
  rw [List.getElem?_eq_none h]

theorem build_bus_rows_in_range (name_size : Nat) (input : Nat → bus_row_input) :
    ∀ (buses : List output_bus_t) (index : Nat) (view_state : view_state_t)
      (action : view_action_type_e) (open_bus_popup : Bool),
      index + buses.length ≤ view_state.output_bus_volumes.length →
      ∃ r, build_bus_rows name_size input buses index view_state action open_bus_popup =
          some r ∧
        r.1.output_bus_volumes.length = view_state.output_bus_volumes.length := by
  intro buses
  induction buses with
  | nil => intro index view_state action open_bus_popup _; exact ⟨_, rfl, rfl⟩
  | cons bus rest ih =>
    intro index view_state action open_bus_popup h
    rw [List.length_cons] at h
    have hvol := bus_row_edit_volumes name_size (input index).edit_pressed bus index view_state
      open_bus_popup
    obtain ⟨r1, h1, hlen1⟩ :=
      bus_row_slider_in_range (input index).slider index
        (bus_row_edit name_size (input index).edit_pressed bus index view_state
          open_bus_popup).1 action (by rw [hvol]; omega)
    rw [hvol] at hlen1
    obtain ⟨r, hr, hlen⟩ := ih (index + 1) r1.1 r1.2
      (bus_row_edit name_size (input index).edit_pressed bus index view_state
        open_bus_popup).2 (by rw [hlen1]; omega)
    refine ⟨r, ?_, by rw [hlen, hlen1]⟩
    rw [build_bus_rows, h1]
    exact hr

theorem build_bus_rows_out_of_range (name_size : Nat) (input : Nat → bus_row_input) :
    ∀ (buses : List output_bus_t) (index : Nat) (view_state : view_state_t)
      (action : view_action_type_e) (open_bus_popup : Bool),
      index ≤ view_state.output_bus_volumes.length →
      view_state.output_bus_volumes.length < index + buses.length →
      build_bus_rows name_size input buses index view_state action open_bus_popup = none := by
  intro buses
  induction buses with
  | nil =>
    intro index view_state action open_bus_popup h1 h2
    rw [List.length_nil] at h2
    omega
  | cons bus rest ih =>
    intro index view_state action open_bus_popup h1 h2
    rw [List.length_cons] at h2
    have hvol := bus_row_edit_volumes name_size (input index).edit_pressed bus index view_state
      open_bus_popup
    by_cases hlt : index < view_state.output_bus_volumes.length
    · obtain ⟨r1, hr1, hlen1⟩ :=
        bus_row_slider_in_range (input index).slider index
          (bus_row_edit name_size (input index).edit_pressed bus index view_state
            open_bus_popup).1 action (by rw [hvol]; exact hlt)
      rw [hvol] at hlen1
      rw [build_bus_rows, hr1]
      exact ih (index + 1) r1.1 r1.2 _ (by rw [hlen1]; omega) (by rw [hlen1]; omega)
    · rw [build_bus_rows,
        bus_row_slider_out_of_range _ _ _ _ (by rw [hvol]; exact Nat.le_of_not_lt hlt)]

theorem build_output_buses_in_range (name_size : Nat) (header_open : Bool)
    (input : Nat → bus_row_input) (add_bus_pressed : Bool) (data_state : data_state_t)
    (view_state : view_state_t) (action : view_action_type_e)
    (h : data_state.output_buses.length ≤ view_state.output_bus_volumes.length) :
    ∃ r, build_output_buses name_size header_open input add_bus_pressed data_state view_state
          action = some r ∧
      r.1.output_bus_volumes.length = view_state.output_bus_volumes.length := by
  unfold build_output_buses
  cases header_open with
  | false => exact ⟨_, rfl, rfl⟩
  | true =>
    obtain ⟨r, hr, hlen⟩ :=
      build_bus_rows_in_range name_size input data_state.output_buses 0 view_state action false
        (by omega)
    simp only [if_true, hr]
    cases add_bus_pressed with
    | false => exact ⟨_, rfl, hlen⟩
    | true => exact ⟨_, rfl, hlen⟩

theorem build_output_buses_out_of_range (name_size : Nat) (input : Nat → bus_row_input)
    (add_bus_pressed : Bool) (data_state : data_state_t) (view_state : view_state_t)
    (action : view_action_type_e)
    (h : view_state.output_bus_volumes.length < data_state.output_buses.length) :
    build_output_buses name_size true input add_bus_pressed data_state view_state action =
      none := by
  unfold build_output_buses
  simp only [if_true,
    build_bus_rows_out_of_range name_size input data_state.output_buses 0 view_state action
      false (Nat.zero_le _) (by omega)]

/-! ## The bus volumes of the view and the buses of the document: the claim -/

/-- C22: when no call into `app_logic` changes the number of output buses and the widget pass
does not change the number of entries of `output_bus_volumes`, every state reached from
`init_with_data` through frames of `process_frame` has as many volume entries as the document
has buses. `init_with_data` leaves one entry of 100 per bus of the loaded document; `BUS_ADD`
always returns, appends exactly the bus named "<bus name>" and exactly one entry of 100, and
makes no call into the logic layer and leaves the undo stack as it is. Hence the bus rows of
`build_view` address `output_bus_volumes[index]` in range in every such state and keep the
number of entries, while with fewer entries than buses the access would be out of range. -/
theorem bus_volumes_match_buses (E0 : externals) (s0 s s' : app_state_t)
    (filepath wav_folder : List Char) (frames : List externals)
    (hframes : ∀ E ∈ frames, logic_keeps_bus_count E.logic ∧ view_keeps_volume_count E)
    (hinit : init_with_data E0 s0 filepath wav_folder = some s)
    (hrun : run_frames frames s = some s') :
    s.bl_state.data_state = E0.logic.load_store_json s0.bl_state.data_state filepath ∧
      s.view_state.output_bus_volumes =
        List.replicate s.bl_state.data_state.output_buses.length 100 ∧
      s'.view_state.output_bus_volumes.length = s'.bl_state.data_state.output_buses.length ∧
      (∃ s'', dispatch E0 view_action_type_e.BUS_ADD s' = some s'' ∧
        s''.bl_state.data_state.output_buses =
          s'.bl_state.data_state.output_buses ++ [{ name := "<bus name>".toList }] ∧
        s''.view_state.output_bus_volumes = s'.view_state.output_bus_volumes ++ [100] ∧
        s''.bl_state.cmds = s'.bl_state.cmds ∧ s''.logic_calls = s'.logic_calls ∧
        s''.view_state.output_bus_volumes.length =
          s''.bl_state.data_state.output_buses.length) ∧
      (∀ (name_size : Nat) (header_open : Bool) (input : Nat → bus_row_input)
        (add_bus_pressed : Bool) (action : view_action_type_e),
        ∃ r, build_output_buses name_size header_open input add_bus_pressed
              s'.bl_state.data_state s'.view_state action = some r ∧
          r.1.output_bus_volumes.length = s'.view_state.output_bus_volumes.length) ∧
      ∀ (name_size : Nat) (input : Nat → bus_row_input) (add_bus_pressed : Bool)
        (action : view_action_type_e) (view_state : view_state_t),
        view_state.output_bus_volumes.length < s'.bl_state.data_state.output_buses.length →
        build_output_buses name_size true input add_bus_pressed s'.bl_state.data_state
          view_state action = none := by
  obtain ⟨hload, hvol⟩ := init_with_data_volumes E0 s0 s filepath wav_folder hinit
  have hrel := bus_counts_related_run_frames frames s s' hframes hrun
  have hs : s.view_state.output_bus_volumes.length =
      s.bl_state.data_state.output_buses.length := by
    rw [hvol, List.length_replicate]
  have hs' : s'.view_state.output_bus_volumes.length =
      s'.bl_state.data_state.output_buses.length := by
    unfold bus_counts_related at hrel
    omega
  obtain ⟨hb, hv, hl⟩ := add_output_bus_eq s'
  refine ⟨hload, hvol, hs', ⟨add_output_bus s', rfl, by rw [hb], by rw [hv], by rw [hb], hl, ?_⟩,
    ?_, ?_⟩
  · rw [hb, hv]
    simp only [List.length_append, List.length_singleton]
    omega
  · intro name_size header_open input add_bus_pressed action
    exact build_output_buses_in_range name_size header_open input add_bus_pressed _ _ action
      (by omega)
  · intro name_size input add_bus_pressed action view_state hlt
    exact build_output_buses_out_of_range name_size input add_bus_pressed _ _ action hlt

theorem bus_volumes_match_buses_witness :
    ∃ s s',
      init_with_data (model_externals view_action_type_e.NONE id) sample_state
          "data.json".toList "wav".toList = some s ∧
        run_frames sample_session s = some s' ∧
        s.view_state.output_bus_volumes = [100] ∧
        s'.bl_state.data_state.output_buses.length = 2 ∧
        s'.view_state.output_bus_volumes.length = s'.bl_state.data_state.output_buses.length := by
  have hframes : ∀ E ∈ sample_session,
      logic_keeps_bus_count E.logic ∧ view_keeps_volume_count E := by
    intro E hE
    simp only [sample_session, List.mem_cons, List.mem_singleton, List.mem_nil_iff,
      or_false] at hE
    rcases hE with rfl | rfl | rfl <;>
      exact ⟨model_logic_keeps_bus_count,
        model_externals_keeps_volume_count _ _ (fun _ => rfl)⟩
  have h1 : (init_with_data (model_externals view_action_type_e.NONE id) sample_state
      "data.json".toList "wav".toList).isSome = true := by decide
  obtain ⟨s, hs⟩ := Option.isSome_iff_exists.mp h1
  have h2 : ((init_with_data (model_externals view_action_type_e.NONE id) sample_state
      "data.json".toList "wav".toList).bind (run_frames sample_session)).isSome = true := by
    decide
  have h3 : ((init_with_data (model_externals view_action_type_e.NONE id) sample_state
      "data.json".toList "wav".toList).bind (run_frames sample_session)).map
        (fun state => state.bl_state.data_state.output_buses.length) = some 2 := by
    decide
  have h4 : (init_with_data (model_externals view_action_type_e.NONE id) sample_state
      "data.json".toList "wav".toList).map
        (fun state => state.view_state.output_bus_volumes) = some [100] := by
    decide
  rw [hs, Option.some_bind] at h2 h3
  rw [hs] at h4
  obtain ⟨s', hs'⟩ := Option.isSome_iff_exists.mp h2
  rw [hs'] at h3
  exact ⟨s, s', hs, hs', Option.some.inj h4, Option.some.inj h3,
    (bus_volumes_match_buses (model_externals view_action_type_e.NONE id) sample_state s s'
      "data.json".toList "wav".toList sample_session hframes hs hs').2.2.1⟩

end hle_audio.editor
